import Mathlib

/-!
# zGate session lifecycle: a verification development

Shallow embedding of the Go sources under `zGate/internal` (policy engine, temp
credential generator, session manager, backend drivers, metadata store) and the
theorems settling the specification's claims about them.

Conventions of the embedding:

* a Go `string` is a Lean `String`; all separators and format characters the code
  uses are ASCII, so byte indices and character indices coincide on the strings
  the generator builds;
* a Go `byte` is a `Nat` reduced `% 256`;
* `crypto/rand` is an explicit stream of bytes that is passed in and consumed.
-/

set_option autoImplicit false

namespace ZGate

/-! ## `crypto/rand` and `encoding/hex` -/

/-- The random source: an infinite stream of values, read as bytes (`% 256`). -/
structure RandSource where
  next : Nat → Nat

/-- Go `rand.Read(b)` for `b := make([]byte, n)`: the next `n` bytes, and the advanced source. -/
def RandSource.Read (src : RandSource) (n : Nat) : List Nat × RandSource :=
  ((List.range n).map (fun i => src.next i % 256), ⟨fun i => src.next (i + n)⟩)

/-- The table `hextable = "0123456789abcdef"` of `encoding/hex`. -/
def hextable : List Char :=
  "0123456789abcdef".data

/-- Two hex characters of one byte `v`: `hextable[v>>4]`, `hextable[v&0x0f]`. -/
def encodeByte (v : Nat) : List Char :=
  [hextable.getD (v % 256 / 16) '0', hextable.getD (v % 16) '0']

/-- Go `hex.EncodeToString(src)`. -/
def EncodeToString (src : List Nat) : String :=
  ⟨src.flatMap encodeByte⟩

/-! ## `strings.Split` and `extractUsername` (proxy/manager.go) -/

/-- Go `strings.Split(s, sep)` for a one-character separator, on the characters of `s`:
the pieces between occurrences of `sep`; never an empty list. -/
def splitChars (sep : Char) : List Char → List (List Char)
  | [] => [[]]
  | c :: cs =>
    if c = sep then [] :: splitChars sep cs
    else
      match splitChars sep cs with
      | [] => [[c]]
      | p :: ps => (c :: p) :: ps

/-- Go `strings.Split(s, "@")`. -/
def Split (s : String) (sep : Char) : List String :=
  (splitChars sep s.data).map String.mk

/-- Function `extractUsername` of proxy/manager.go:
`parts := strings.Split(email, "@"); if len(parts) > 0 { return parts[0] }; return email`. -/
def extractUsername (email : String) : String :=
  let parts := Split email '@'
  match parts with
  | p :: _ => p
  | [] => email

/-! ## Temp credentials (protocol/manager.go) -/

/-- Function `GenerateTempUsername`: 4 random bytes, hex-encoded, formatted as
`fmt.Sprintf("zgate_%s_%s", baseUsername, suffix)`. -/
def GenerateTempUsername (src : RandSource) (baseUsername : String) : String × RandSource :=
  let (randomBytes, src1) := src.Read 4
  let suffix := EncodeToString randomBytes
  ("zgate_" ++ baseUsername ++ "_" ++ suffix, src1)

/-- Go slice expression `s[lo:hi]` on a string. -/
def slice (s : String) (lo hi : Nat) : String :=
  ⟨(s.data.take hi).drop lo⟩

/-- Function `GenerateTempPassword`: 16 random bytes, hex-encoded, formatted as
`fmt.Sprintf("Z%s#%s$G%s", password[:8], password[8:16], password[16:24])`. -/
def GenerateTempPassword (src : RandSource) : String × RandSource :=
  let (randomBytes, src1) := src.Read 16
  let password := EncodeToString randomBytes
  ("Z" ++ slice password 0 8 ++ "#" ++ slice password 8 16 ++ "$G" ++ slice password 16 24, src1)

/-- The character domain `[A-Za-z0-9_#$]`. -/
def inDomain (c : Char) : Bool :=
  c.isUpper || c.isLower || c.isDigit || c == '_' || c == '#' || c == '$'

/-- The character class `[0-9a-f]`. -/
def isLowerHex (c : Char) : Bool :=
  c.isDigit || (c.val ≥ 97 && c.val ≤ 102)

/-- A special character in the sense of the vendors' password policies: not a letter, not a digit. -/
def isSpecial (c : Char) : Bool :=
  !(c.isUpper || c.isLower || c.isDigit)

/-- One position of an anchored pattern: a literal character, or one character of `[0-9a-f]`. -/
inductive Pat where
  | lit (c : Char)
  | hex

/-- Anchored match (`^ ... $`) of a sequence of pattern positions against a string's characters. -/
def matchPat : List Pat → List Char → Bool
  | [], [] => true
  | Pat.lit c :: ps, d :: ds => d == c && matchPat ps ds
  | Pat.hex :: ps, d :: ds => isLowerHex d && matchPat ps ds
  | _, _ => false

/-- The pattern `^zgate_<base>_[0-9a-f]{8}$` for a literal `base`. -/
def usernamePattern (base : String) : List Pat :=
  ("zgate_" ++ base ++ "_").data.map Pat.lit ++ List.replicate 8 Pat.hex

/-- The pattern `^Z[0-9a-f]{8}#[0-9a-f]{8}\$G[0-9a-f]{8}$`. -/
def passwordPattern : List Pat :=
  Pat.lit 'Z' :: List.replicate 8 Pat.hex ++ Pat.lit '#' :: List.replicate 8 Pat.hex ++
    Pat.lit '$' :: Pat.lit 'G' :: List.replicate 8 Pat.hex

/-- The vendors' "medium" password policy named in `GenerateTempPassword`'s comment
(`Length, Number, Mixed Case, Special Char`): length at least 8, an upper-case letter,
a lower-case letter, a digit and a special character. -/
def mediumPolicy (pw : String) : Bool :=
  decide (8 ≤ pw.length) && pw.data.any Char.isUpper && pw.data.any Char.isLower &&
    pw.data.any Char.isDigit && pw.data.any isSpecial

/-! ## The metadata store (store/types.go, store/store.go, users.go, roles.go, databases.go)

The store is its tables. A row holds the values the Go code reads back: for `databases`
the `admin_password` and `available_permissions` columns are kept as the plaintext and the
list that `decrypt` and `json.Unmarshal` return for what `SaveDatabase` wrote. The
timestamp columns play no part in the operations below and are left out. A query without
`ORDER BY` returns the rows in table order, unless the engine answers it from an index:
then they come in the order of that index, as the query's comment says. -/

/-- Type `store.Permission`. -/
structure Permission where
  Database : String
  Level : String
  deriving DecidableEq, Repr

/-- Type `store.Database`, also a row of table `databases` (primary key `name`). -/
structure Database where
  Name : String
  Type_ : String
  Description : String
  BackendAddr : String
  AdminUsername : String
  AdminPassword : String
  AvailablePermissions : List String
  deriving DecidableEq, Repr

/-- Type `store.User`. -/
structure User where
  Username : String
  PasswordHash : String
  Roles : List String
  CustomPermissions : List Permission
  deriving DecidableEq, Repr

/-- Row of table `roles` (primary key `name`). -/
structure RoleRow where
  name : String
  description : String
  deriving DecidableEq, Repr

/-- Row of table `role_permissions`: `UNIQUE(role_name, database_name)`,
`FOREIGN KEY(role_name) REFERENCES roles(name)`,
`FOREIGN KEY(database_name) REFERENCES databases(name)`. -/
structure RolePermissionRow where
  role_name : String
  database_name : String
  level : String
  deriving DecidableEq, Repr

/-- Row of table `users` (primary key `username`). -/
structure UserRow where
  username : String
  password_hash : String
  deriving DecidableEq, Repr

/-- Row of table `user_roles`: `UNIQUE(username, role_name)`, foreign keys to `users` and
`roles`. -/
structure UserRoleRow where
  username : String
  role_name : String
  deriving DecidableEq, Repr

/-- Row of table `user_custom_permissions`: `UNIQUE(username, database_name, level)`,
`FOREIGN KEY(username) REFERENCES users(username)`; the schema declares no foreign key on
`database_name`. -/
structure UserCustomPermissionRow where
  username : String
  database_name : String
  level : String
  deriving DecidableEq, Repr

/-- Type `store.RefreshToken`, also a row of table `refresh_tokens`: primary key `id`
(`AUTOINCREMENT`), `token_hash` `UNIQUE`, `FOREIGN KEY(username) REFERENCES users(username)`.
Times are readings of one clock, in seconds. -/
structure RefreshToken where
  ID : Nat
  TokenHash : String
  Username : String
  ExpiresAt : Nat
  CreatedAt : Nat
  LastUsedAt : Nat
  Revoked : Bool
  RevokedAt : Option Nat
  UserAgent : String
  IPAddress : String
  deriving DecidableEq, Repr

/-- The state of the metadata store: the contents of its tables, and for `refresh_tokens`
the largest id handed out so far (`sqlite_sequence`). -/
structure Store where
  databases : List Database
  roles : List RoleRow
  role_permissions : List RolePermissionRow
  users : List UserRow
  user_roles : List UserRoleRow
  user_custom_permissions : List UserCustomPermissionRow
  refresh_tokens : List RefreshToken := []
  refresh_tokens_seq : Nat := 0
  deriving Repr

/-- The constraints `initSchema` declares (with `_foreign_keys=on`) on the tables of
databases, roles and users: primary keys, `UNIQUE` constraints and foreign keys. Every
state the store can be in satisfies them. -/
def Store.schemaOK (s : Store) : Bool :=
  (s.databases.map (fun d => d.Name)).Nodup
    && (s.roles.map (fun r => r.name)).Nodup
    && (s.users.map (fun u => u.username)).Nodup
    && (s.role_permissions.map (fun r => (r.role_name, r.database_name))).Nodup
    && s.role_permissions.all (fun r =>
        s.roles.any (fun x => x.name == r.role_name)
          && s.databases.any (fun d => d.Name == r.database_name))
    && s.user_roles.Nodup
    && s.user_roles.all (fun r =>
        s.users.any (fun u => u.username == r.username)
          && s.roles.any (fun x => x.name == r.role_name))
    && s.user_custom_permissions.Nodup
    && s.user_custom_permissions.all (fun r => s.users.any (fun u => u.username == r.username))

/-- Method `getUserRoles`: `SELECT role_name FROM user_roles WHERE username = ? ORDER BY role_name`. -/
def Store.getUserRoles (s : Store) (username : String) : Except String (List String) :=
  .ok (((s.user_roles.filter (fun r => r.username == username)).map
    (fun r => r.role_name)).insertionSort (fun a b => a ≤ b))

/-- The order of the `BINARY` collation on the characters of two strings: the order of
`memcmp` on their UTF-8 bytes, which is the lexicographic order of the code points. -/
def binaryLT : List Char → List Char → Bool
  | [], [] => false
  | [], _ :: _ => true
  | _ :: _, [] => false
  | a :: as, b :: bs =>
    if a.toNat < b.toNat then true
    else if b.toNat < a.toNat then false
    else binaryLT as bs

/-- The order of the index of `UNIQUE(username, database_name, level)` among the
permissions of one user: by database name, then by level, in the `BINARY` collation. -/
def customPermissionLE (a b : Permission) : Bool :=
  binaryLT a.Database.data b.Database.data
    || (a.Database == b.Database && !binaryLT b.Level.data a.Level.data)

/-- Method `getUserCustomPermissions`:
`SELECT database_name, level FROM user_custom_permissions WHERE username = ?`. The query
has no `ORDER BY`; the engine answers it from the index of
`UNIQUE(username, database_name, level)`, so the rows come in the order of that index. -/
def Store.getUserCustomPermissions (s : Store) (username : String) :
    Except String (List Permission) :=
  .ok (((s.user_custom_permissions.filter (fun r => r.username == username)).map
    (fun r => { Database := r.database_name, Level := r.level })).insertionSort
      (fun a b => customPermissionLE a b = true))

/-- Method `GetUser`: the `users` row (an error when there is none), then the roles and the custom
permissions. -/
def Store.GetUser (s : Store) (username : String) : Except String User :=
  match s.users.find? (fun u => u.username == username) with
  | none => .error "fetch user: sql: no rows in result set"
  | some row =>
    match s.getUserRoles username with
    | .error e => .error e
    | .ok roles =>
      match s.getUserCustomPermissions username with
      | .error e => .error e
      | .ok custom =>
        .ok { Username := row.username, PasswordHash := row.password_hash,
              Roles := roles, CustomPermissions := custom }

/-- The order of the index of `UNIQUE(role_name, database_name)`: by role name, then by
database name, in the `BINARY` collation. -/
def rolePermissionLE (a b : RolePermissionRow) : Bool :=
  binaryLT a.role_name.data b.role_name.data
    || (a.role_name == b.role_name && !binaryLT b.database_name.data a.database_name.data)

/-- Method `GetPermissionsForRoles`: nothing for no roles, else
`SELECT database_name, level FROM role_permissions WHERE role_name IN (...)`. The query
has no `ORDER BY`; the engine looks the role names up in the index of
`UNIQUE(role_name, database_name)`, so the rows come in the order of that index. -/
def Store.GetPermissionsForRoles (s : Store) (roleNames : List String) :
    Except String (List Permission) :=
  if roleNames.length = 0 then .ok []
  else
    .ok (((s.role_permissions.filter (fun r => roleNames.contains r.role_name)).insertionSort
      (fun a b => rolePermissionLE a b = true)).map
        (fun r => { Database := r.database_name, Level := r.level }))

/-- Method `GetDatabase`: `SELECT ... FROM databases WHERE name = ?`, an error when no row. -/
def Store.GetDatabase (s : Store) (name : String) : Except String Database :=
  match s.databases.find? (fun d => d.Name == name) with
  | none => .error "fetch database: sql: no rows in result set"
  | some db => .ok db

/-- Method `ListDatabases`: `SELECT ... FROM databases ORDER BY name`. -/
def Store.ListDatabases (s : Store) : Except String (List Database) :=
  .ok (s.databases.insertionSort (fun a b => a.Name ≤ b.Name))

/-! ## The policy engine (policy/engine.go) -/

/-- Type `auth.Claims`: the username and the registered claims (`jti`, `exp`, `iat`, `iss`). -/
structure Claims where
  Username : String
  ID : String
  ExpiresAt : Nat
  IssuedAt : Nat
  Issuer : String
  deriving DecidableEq, Repr

/-- Type `policy.DatabaseInfo`. -/
structure DatabaseInfo where
  Name : String
  Type_ : String
  Permissions : String
  Status : String
  Description : String
  deriving DecidableEq, Repr

/-- Method `Engine.getFreshPermissions`: `append(rolePerms, user.CustomPermissions...)`. -/
def getFreshPermissions (s : Store) (username : String) : Except String (List Permission) :=
  match s.GetUser username with
  | .error e => .error e
  | .ok user =>
    match s.GetPermissionsForRoles user.Roles with
    | .error e => .error e
    | .ok rolePerms => .ok (rolePerms ++ user.CustomPermissions)

/-- Method `Engine.CanAccess`. -/
def CanAccess (s : Store) (claims : Claims) (databaseName : String) : Bool :=
  match getFreshPermissions s claims.Username with
  | .error _ => false
  | .ok perms => perms.any (fun perm => perm.Database == databaseName)

/-- Method `Engine.GetAllowedDatabases`: for each database of the catalog, in order, the first
permission naming it, if any. -/
def GetAllowedDatabases (s : Store) (claims : Claims) : List DatabaseInfo :=
  match getFreshPermissions s claims.Username with
  | .error _ => []
  | .ok perms =>
    match s.ListDatabases with
    | .error _ => []
    | .ok databases =>
      databases.filterMap (fun db =>
        match perms.find? (fun p => p.Database == db.Name) with
        | some userPerm =>
          some { Name := db.Name, Type_ := db.Type_, Permissions := userPerm.Level,
                 Status := "online", Description := db.Description }
        | none => none)

/-- Method `Engine.GetPermissionLevel`. -/
def GetPermissionLevel (s : Store) (claims : Claims) (databaseName : String) : String :=
  match getFreshPermissions s claims.Username with
  | .error _ => ""
  | .ok perms =>
    match perms.find? (fun perm => perm.Database == databaseName) with
    | some perm => perm.Level
    | none => ""

/-- A store reached by `SaveDatabase` (salesdb), `SaveRole` (reader: salesdb/read) and
`SaveUser` (alice with role reader and a custom permission on `ghostdb`, a name that is
not in the catalog: nothing in the schema rejects it). -/
def danglingStore : Store :=
  { databases := [{ Name := "salesdb", Type_ := "mysql", Description := "sales",
                    BackendAddr := "10.0.0.5:3306", AdminUsername := "root",
                    AdminPassword := "secret", AvailablePermissions := ["read", "write"] }],
    roles := [{ name := "reader", description := "read only" }],
    role_permissions := [{ role_name := "reader", database_name := "salesdb", level := "read" }],
    users := [{ username := "alice@ex.com", password_hash := "c2VjcmV0" }],
    user_roles := [{ username := "alice@ex.com", role_name := "reader" }],
    user_custom_permissions :=
      [{ username := "alice@ex.com", database_name := "ghostdb", level := "read" }] }

/-- Claims of a token minted for `alice@ex.com`. -/
def aliceClaims : Claims :=
  { Username := "alice@ex.com", ID := "00112233445566778899aabbccddeeff",
    ExpiresAt := 900, IssuedAt := 0, Issuer := "zGate" }

/-! ## The backends and what the gateway does to the outside world

A backend server is known by its address. Its state is the accounts it holds. A statement
sent to it either fails, leaving it as it was, or succeeds with its effect; which of the
two happens is decided from outside (network, server), by a stream of outcomes. The
statements are kept structured: the SQL text the drivers build with `fmt.Sprintf` is named
in each constructor's comment. The names and passwords go into that text unfiltered, so the
text is the named statement only when they are plain (`Stmt.plain`); the effect of any other
text is left to the server (`Backend.server`). -/

/-- The statements the two drivers send. -/
inductive Stmt where
  /-- Statement `CREATE USER IF NOT EXISTS 'u'@'%' IDENTIFIED BY 'p'` -/
  | mysqlCreateUser (username password : String)
  /-- Statement `GRANT <privileges> ON *.* TO 'u'@'%'` -/
  | mysqlGrant (privileges username : String)
  /-- Statement `FLUSH PRIVILEGES` -/
  | mysqlFlush
  /-- Statement `DROP USER IF EXISTS 'u'@'%'` -/
  | mysqlDropUser (username : String)
  /-- Statement `IF NOT EXISTS (... sys.server_principals ...) BEGIN CREATE LOGIN [u] WITH PASSWORD = 'p' END` -/
  | mssqlCreateLogin (username password : String)
  /-- Statement `IF NOT EXISTS (... sys.database_principals ...) BEGIN CREATE USER [u] FOR LOGIN [u] END` -/
  | mssqlCreateUser (username : String)
  /-- Statement `GRANT <privileges> TO [u]` -/
  | mssqlGrant (privileges username : String)
  /-- Statement `ALTER ROLE db_owner ADD MEMBER [u]` -/
  | mssqlAddMember (username : String)
  /-- Statement `IF EXISTS (... sys.database_principals ...) BEGIN DROP USER [u] END` -/
  | mssqlDropUser (username : String)
  /-- Statement `IF EXISTS (... sys.server_principals ...) BEGIN DROP LOGIN [u] END` -/
  | mssqlDropLogin (username : String)
  deriving DecidableEq, Repr

/-- A name or password made of characters of `[A-Za-z0-9_#$]` only. The drivers put names
and passwords into the statement text with `fmt.Sprintf`, unfiltered, between `'...'` or
`[...]`; a plain one holds no quote, bracket or backslash, so the text is the statement named
in the constructor's comment. -/
def plainName (s : String) : Bool :=
  s.data.all inDomain

/-- Whether every name and password that the statement's text interpolates is plain. The
privileges of a grant are constants of the code. -/
def Stmt.plain : Stmt → Bool
  | .mysqlCreateUser u p => plainName u && plainName p
  | .mysqlGrant _ u => plainName u
  | .mysqlFlush => true
  | .mysqlDropUser u => plainName u
  | .mssqlCreateLogin u p => plainName u && plainName p
  | .mssqlCreateUser u => plainName u
  | .mssqlGrant _ u => plainName u
  | .mssqlAddMember u => plainName u
  | .mssqlDropUser u => plainName u
  | .mssqlDropLogin u => plainName u

/-- The accounts on one backend server: MySQL accounts `'u'@'%'` and MSSQL database users
(`sys.database_principals`) in `users`, MSSQL logins (`sys.server_principals`) in `logins`;
names are compared exactly. Field `server` is what the server makes of a statement whose
text is not the intended one, because an interpolated name or password leaves its quoting:
from the statement and the accounts `(users, logins)` to the accounts afterwards. The code
fixes nothing about it. -/
structure Backend where
  users : List String
  logins : List String
  server : Stmt → List String × List String → List String × List String :=
    fun _ accounts => accounts

/-- Effect of a statement that succeeds and whose text is the one named in the
constructor's comment. -/
def Stmt.effect (b : Backend) : Stmt → Backend
  | .mysqlCreateUser u _ => if u ∈ b.users then b else { b with users := u :: b.users }
  | .mysqlDropUser u => { b with users := b.users.filter (fun x => x != u) }
  | .mssqlCreateLogin u _ => if u ∈ b.logins then b else { b with logins := u :: b.logins }
  | .mssqlCreateUser u => if u ∈ b.users then b else { b with users := u :: b.users }
  | .mssqlDropUser u => { b with users := b.users.filter (fun x => x != u) }
  | .mssqlDropLogin u => { b with logins := b.logins.filter (fun x => x != u) }
  | _ => b

/-- Effect of a statement that succeeds: the intended one when all it interpolates is plain,
and otherwise whatever the server makes of the text that was sent. -/
def Stmt.apply (b : Backend) (stmt : Stmt) : Backend :=
  if stmt.plain then stmt.effect b
  else
    { b with users := (b.server stmt (b.users, b.logins)).1,
             logins := (b.server stmt (b.users, b.logins)).2 }

/-- The account a statement creates when it succeeds, if it is a creation. -/
def Stmt.creates : Stmt → Option String
  | .mysqlCreateUser u _ => some u
  | .mssqlCreateLogin u _ => some u
  | .mssqlCreateUser u => some u
  | _ => none

/-- The account a statement drops, if it is a drop. -/
def Stmt.drops : Stmt → Option String
  | .mysqlDropUser u => some u
  | .mssqlDropUser u => some u
  | .mssqlDropLogin u => some u
  | _ => none

/-- The two driver variants of `protocol.NewManager`. -/
inductive DriverKind where
  | mysql
  | mssql
  deriving DecidableEq, Repr

/-- A `mysql.Manager` or `mssql.Manager`: the database record and the `*sql.DB` handle,
known by a number. -/
structure Driver where
  kind : DriverKind
  database : Database
  db : Nat
  deriving DecidableEq, Repr

/-- What the session manager does that can be seen from outside, in order. -/
inductive Event where
  /-- Call `store.GetDatabase(name)` -/
  | storeGetDatabase (name : String)
  /-- Call `store.GetUser(username)` -/
  | storeGetUser (username : String)
  /-- Call `store.GetPermissionsForRoles(roleNames)` -/
  | storeGetPermissionsForRoles (roleNames : List String)
  /-- Call `protocol.NewManager(database)`: the handle of the driver built, `none` on failure -/
  | newManager (database : String) (db : Option Nat)
  /-- a call of the driver's `CreateTempUser` -/
  | createTempUser (db : Nat) (username password : String) (permissions : List String)
  /-- a call of the driver's `DeleteTempUser` -/
  | deleteTempUser (db : Nat) (username : String)
  /-- one `ExecContext` on the driver's handle, with its outcome -/
  | exec (db : Nat) (stmt : Stmt) (ok : Bool)
  /-- the driver's `Close`, with its outcome -/
  | close (db : Nat) (ok : Bool)
  /-- Call `getFreePort()`: the port, `none` on failure -/
  | getFreePort (port : Option Nat)
  /-- Call `go m.startDynamicProxy(ctx, session, database)` with the session's cancel handle -/
  | startDynamicProxy (ctx : Nat) (port : Nat) (database : String)
  /-- Call `session.Cancel()` -/
  | cancel (ctx : Nat)
  /-- Call `os.MkdirAll(filepath.Dir(dbPath), 0o755)`, with its outcome -/
  | mkdirAll (dbPath : String) (ok : Bool)
  /-- Call `sql.Open("sqlite3", ...)` on the file at `dbPath`, with its outcome -/
  | sqlOpen (dbPath : String) (ok : Bool)
  /-- Call `store.initSchema()`, with its outcome -/
  | initSchema (ok : Bool)
  /-- Call `db.Close()` on the handle of the metadata store, with its outcome -/
  | storeClose (ok : Bool)
  /-- Call `s.server.Shutdown(ctx)` of the API server, with its outcome -/
  | httpShutdown (ok : Bool)
  deriving DecidableEq, Repr

/-- Everything outside the session registry: the store, the backends, the random source,
the outcomes of the fallible calls still to come (`true`: the call fails), the ports the
operating system will hand out, the next unused handle number, and the events so far. -/
structure World where
  store : Store
  backends : String → Backend
  rand : RandSource
  faults : Nat → Bool
  ports : Nat → Nat
  nextHandle : Nat
  trace : List Event

/-- Record an event. -/
def World.emit (w : World) (e : Event) : World :=
  { w with trace := w.trace ++ [e] }

/-- Outcome of the next fallible call. -/
def World.fault (w : World) : Bool × World :=
  (w.faults 0, { w with faults := fun i => w.faults (i + 1) })

/-- A fresh handle number. -/
def World.newHandle (w : World) : Nat × World :=
  (w.nextHandle, { w with nextHandle := w.nextHandle + 1 })

/-- A store call as the session manager sees it: the SQL engine may fail the query;
otherwise the answer is the one the tables give. -/
def World.query {α : Type} (w : World) (ev : Event) (answer : Store → Except String α) :
    Except String α × World :=
  let (failed, w1) := w.fault
  (if failed then .error "sql: query failed" else answer w1.store, w1.emit ev)

/-! ## The backend drivers (protocol/manager.go, protocol/mysql, protocol/mssql) -/

/-- One `m.db.ExecContext(ctx, sql)`: whether it succeeded, and the world after it. -/
def Driver.ExecContext (d : Driver) (w : World) (stmt : Stmt) : Bool × World :=
  let (failed, w1) := w.fault
  if failed then (false, w1.emit (.exec d.db stmt false))
  else
    let addr := d.database.BackendAddr
    let b := stmt.apply (w1.backends addr)
    (true, { w1 with backends := fun a => if a = addr then b else w1.backends a }.emit
      (.exec d.db stmt true))

/-- The `switch perm` of the MySQL `CreateTempUser`: the grant statement of a level, `none`
for an unknown level. -/
def mysqlGrantSQL (perm username : String) : Option Stmt :=
  if perm = "read" then some (.mysqlGrant "SELECT" username)
  else if perm = "write" then some (.mysqlGrant "SELECT, INSERT, UPDATE, DELETE" username)
  else if perm = "admin" then some (.mysqlGrant "ALL PRIVILEGES" username)
  else none

/-- The `switch perm` of the MSSQL `CreateTempUser`. -/
def mssqlGrantSQL (perm username : String) : Option Stmt :=
  if perm = "read" then some (.mssqlGrant "SELECT" username)
  else if perm = "write" then some (.mssqlGrant "SELECT, INSERT, UPDATE, DELETE" username)
  else if perm = "admin" then some (.mssqlAddMember username)
  else none

/-- The loop `for _, perm := range permissions` of both `CreateTempUser`: an unknown level
is skipped, a known one has its statement executed and a failure is only logged. -/
def grantLoop (d : Driver) (grantSQL : String → String → Option Stmt) (username : String) :
    List String → World → World
  | [], w => w
  | perm :: rest, w =>
    match grantSQL perm username with
    | none => grantLoop d grantSQL username rest w
    | some stmt => grantLoop d grantSQL username rest (d.ExecContext w stmt).2

/-- The MySQL `Manager.DeleteTempUser`. -/
def mysqlDeleteTempUser (d : Driver) (w : World) (username : String) :
    Except String Unit × World :=
  let w0 := w.emit (.deleteTempUser d.db username)
  let (ok, w1) := d.ExecContext w0 (.mysqlDropUser username)
  if !ok then (.error "failed to drop user", w1)
  else
    let (_, w2) := d.ExecContext w1 .mysqlFlush
    (.ok (), w2)

/-- The MySQL `Manager.CreateTempUser`. -/
def mysqlCreateTempUser (d : Driver) (w : World) (username password : String)
    (permissions : List String) : Except String Unit × World :=
  let w0 := w.emit (.createTempUser d.db username password permissions)
  let (ok, w1) := d.ExecContext w0 (.mysqlCreateUser username password)
  if !ok then (.error "failed to create user", w1)
  else
    let w2 := grantLoop d mysqlGrantSQL username permissions w1
    let (_, w3) := d.ExecContext w2 .mysqlFlush
    (.ok (), w3)

/-- The MSSQL `Manager.DeleteTempUser`: the result of the `DROP USER` step is not looked at. -/
def mssqlDeleteTempUser (d : Driver) (w : World) (username : String) :
    Except String Unit × World :=
  let w0 := w.emit (.deleteTempUser d.db username)
  let (_, w1) := d.ExecContext w0 (.mssqlDropUser username)
  let (ok, w2) := d.ExecContext w1 (.mssqlDropLogin username)
  if !ok then (.error "failed to drop login", w2)
  else (.ok (), w2)

/-- The MSSQL `Manager.CreateTempUser`. -/
def mssqlCreateTempUser (d : Driver) (w : World) (username password : String)
    (permissions : List String) : Except String Unit × World :=
  let w0 := w.emit (.createTempUser d.db username password permissions)
  let (ok, w1) := d.ExecContext w0 (.mssqlCreateLogin username password)
  if !ok then (.error "failed to create login", w1)
  else
    let (ok2, w2) := d.ExecContext w1 (.mssqlCreateUser username)
    if !ok2 then
      let (_, w3) := mssqlDeleteTempUser d w2 username
      (.error "failed to create user", w3)
    else
      (.ok (), grantLoop d mssqlGrantSQL username permissions w2)

/-- Interface method `protocol.Manager.CreateTempUser`, by driver variant. -/
def Driver.CreateTempUser (d : Driver) (w : World) (username password : String)
    (permissions : List String) : Except String Unit × World :=
  match d.kind with
  | .mysql => mysqlCreateTempUser d w username password permissions
  | .mssql => mssqlCreateTempUser d w username password permissions

/-- Interface method `protocol.Manager.DeleteTempUser`, by driver variant. -/
def Driver.DeleteTempUser (d : Driver) (w : World) (username : String) :
    Except String Unit × World :=
  match d.kind with
  | .mysql => mysqlDeleteTempUser d w username
  | .mssql => mssqlDeleteTempUser d w username

/-- Interface method `protocol.Manager.Close`: `m.db.Close()`. -/
def Driver.Close (d : Driver) (w : World) : Except String Unit × World :=
  let (failed, w1) := w.fault
  (if failed then .error "close failed" else .ok (), w1.emit (.close d.db (!failed)))

/-- Function `protocol.NewManager`: the driver of the database's type, after `sql.Open` and a
successful `Ping`; an error for another type or when the backend cannot be reached. -/
def NewManager (w : World) (database : Database) : Except String Driver × World :=
  let kind : Option DriverKind :=
    if database.Type_ = "mssql" then some .mssql
    else if database.Type_ = "mysql" then some .mysql
    else none
  match kind with
  | none =>
    (.error ("unsupported database type: " ++ database.Type_),
      w.emit (.newManager database.Name none))
  | some k =>
    let (failed, w1) := w.fault
    if failed then (.error "failed to ping", w1.emit (.newManager database.Name none))
    else
      let (h, w2) := w1.newHandle
      (.ok { kind := k, database := database, db := h },
        w2.emit (.newManager database.Name (some h)))

/-- Function `getFreePort`: listen on `:0`, read the port, close the probe. -/
def getFreePort (w : World) : Except String Nat × World :=
  let (failed, w1) := w.fault
  if failed then (.error "listen failed", w1.emit (.getFreePort none))
  else
    let port := w1.ports 0
    (.ok port, { w1 with ports := fun i => w1.ports (i + 1) }.emit (.getFreePort (some port)))

/-! ## The session manager (proxy/session.go, proxy/manager.go) -/

/-- Type `protocol.TempCredentials`. -/
structure TempCredentials where
  Username : String
  Password : String
  deriving DecidableEq, Repr

/-- Type `proxy.Session`; `Cancel` is the handle of the session's context. -/
structure Session where
  Username : String
  DatabaseName : String
  Port : Nat
  Claims : Claims
  Cancel : Nat
  TempCredentials : TempCredentials
  DBManager : Driver
  deriving DecidableEq, Repr

/-- Type `proxy.Manager`: the registry `sessions map[string]*Session`, as the list of its
entries; the mutex is held for the whole of each operation below, so each is one step. -/
structure Manager where
  sessions : List (String × Session)
  deriving DecidableEq, Repr

/-- Go `m[key]` with the comma-ok form. -/
def mapGet (m : List (String × Session)) (key : String) : Option Session :=
  m.lookup key

/-- Go `m[key] = value`. -/
def mapSet (m : List (String × Session)) (key : String) (value : Session) :
    List (String × Session) :=
  (key, value) :: m.filter (fun e => e.1 != key)

/-- Go `delete(m, key)`. -/
def mapDelete (m : List (String × Session)) (key : String) : List (String × Session) :=
  m.filter (fun e => e.1 != key)

/-- Function `determinePermissionsForDatabase`: the level of the first permission whose
database is `databaseName`, as a one-element list; the empty list when there is none. -/
def determinePermissionsForDatabase : List Permission → String → List String
  | [], _ => []
  | perm :: rest, databaseName =>
    if perm.Database == databaseName then [perm.Level]
    else determinePermissionsForDatabase rest databaseName

/-- Method `Manager.StartSession`. -/
def Manager.StartSession (m : Manager) (w : World) (token : String) (claims : Claims)
    (databaseName : String) : Except String Session × Manager × World :=
  match mapGet m.sessions token with
  | some existing => (.ok existing, m, w)
  | none =>
    match w.query (.storeGetDatabase databaseName) (fun s => s.GetDatabase databaseName) with
    | (.error _, w1) => (.error ("database not found: " ++ databaseName), m, w1)
    | (.ok database, w1) =>
      match NewManager w1 database with
      | (.error e, w2) => (.error ("failed to create DB manager: " ++ e), m, w2)
      | (.ok dbMgr, w2) =>
        let baseUsername := extractUsername claims.Username
        let (tempUsername, rand1) := GenerateTempUsername w2.rand baseUsername
        let (tempPassword, rand2) := GenerateTempPassword rand1
        let w3 := { w2 with rand := rand2 }
        let tempCreds : TempCredentials := { Username := tempUsername, Password := tempPassword }
        match w3.query (.storeGetUser claims.Username) (fun s => s.GetUser claims.Username) with
        | (.error e, w4) =>
          let (_, w5) := dbMgr.Close w4
          (.error ("failed to get user: " ++ e), m, w5)
        | (.ok user, w4) =>
          match w4.query (.storeGetPermissionsForRoles user.Roles)
              (fun s => s.GetPermissionsForRoles user.Roles) with
          | (.error e, w5) =>
            let (_, w6) := dbMgr.Close w5
            (.error ("failed to get role permissions: " ++ e), m, w6)
          | (.ok rolePerms, w5) =>
            let allPermissions := rolePerms ++ user.CustomPermissions
            let permissions := determinePermissionsForDatabase allPermissions databaseName
            match dbMgr.CreateTempUser w5 tempUsername tempPassword permissions with
            | (.error e, w6) =>
              let (_, w7) := dbMgr.Close w6
              (.error ("failed to create temp user: " ++ e), m, w7)
            | (.ok _, w6) =>
              match getFreePort w6 with
              | (.error e, w7) =>
                let (_, w8) := dbMgr.DeleteTempUser w7 tempUsername
                let (_, w9) := dbMgr.Close w8
                (.error ("failed to find free port: " ++ e), m, w9)
              | (.ok port, w7) =>
                let (cancel, w8) := w7.newHandle
                let session : Session :=
                  { Username := claims.Username, DatabaseName := databaseName, Port := port,
                    Claims := claims, Cancel := cancel, TempCredentials := tempCreds,
                    DBManager := dbMgr }
                let w9 := w8.emit (.startDynamicProxy cancel port database.Name)
                (.ok session, { m with sessions := mapSet m.sessions token session }, w9)

/-- Method `Manager.StopSession`. -/
def Manager.StopSession (m : Manager) (w : World) (token : String) :
    Except String Unit × Manager × World :=
  match mapGet m.sessions token with
  | none => (.error "session not found", m, w)
  | some session =>
    let (_, w1) := session.DBManager.DeleteTempUser w session.TempCredentials.Username
    let (_, w2) := session.DBManager.Close w1
    let w3 := w2.emit (.cancel session.Cancel)
    (.ok (), { m with sessions := mapDelete m.sessions token }, w3)

/-- Whether an event is a call of `CreateTempUser`, and with which levels. -/
def Event.createLevels : Event → Option (List String)
  | .createTempUser _ _ _ permissions => some permissions
  | _ => none

/-- The levels of the `CreateTempUser` calls recorded in a list of events, in order. -/
def createCalls (evs : List Event) : List (List String) :=
  evs.filterMap Event.createLevels

/-- Whether every driver built in the list of events is closed later in the list. -/
def driversClosed : List Event → Bool
  | [] => true
  | .newManager _ (some h) :: rest =>
    rest.any (fun e => e == .close h true || e == .close h false) && driversClosed rest
  | _ :: rest => driversClosed rest

/-- Whether every account creation that succeeded in the list of events is followed, later
in the list, by a call of `DeleteTempUser` for that account on the same driver. -/
def createdAccountsDropped : List Event → Bool
  | [] => true
  | .exec h stmt true :: rest =>
    (match stmt.creates with
      | some u => rest.any (fun e => e == .deleteTempUser h u)
      | none => true) && createdAccountsDropped rest
  | _ :: rest => createdAccountsDropped rest

/-- A world with one MySQL backend holding no account, the store of `danglingStore`,
random bytes all zero, no failing call, and ports from 50000 up. -/
def quietWorld : World :=
  { store := danglingStore,
    backends := fun _ => { users := [], logins := [] },
    rand := ⟨fun _ => 0⟩,
    faults := fun _ => false,
    ports := fun i => 50000 + i,
    nextHandle := 0,
    trace := [] }

/-- The events a step added: those of the later trace beyond the earlier one. -/
def newEvents (before after : World) : List Event :=
  after.trace.drop before.trace.length

/-- A session as `StartSession` registers it for `alice@ex.com` on `salesdb`. -/
def aliceSession : Session :=
  { Username := "alice@ex.com", DatabaseName := "salesdb", Port := 50000,
    Claims := aliceClaims, Cancel := 1,
    TempCredentials :=
      { Username := "zgate_alice_00000000", Password := "Z00000000#00000000$G00000000" },
    DBManager :=
      { kind := .mysql,
        database := { Name := "salesdb", Type_ := "mysql", Description := "sales",
                      BackendAddr := "10.0.0.5:3306", AdminUsername := "root",
                      AdminPassword := "secret", AvailablePermissions := ["read", "write"] },
        db := 0 } }

/-- The account-creating statements a driver variant sends for a temp user, in order. -/
def createStmts (kind : DriverKind) (username password : String) : List Stmt :=
  match kind with
  | .mysql => [.mysqlCreateUser username password]
  | .mssql => [.mssqlCreateLogin username password, .mssqlCreateUser username]

/-- The account-dropping statements a driver variant sends for a temp user, in order. -/
def dropStmts (kind : DriverKind) (username : String) : List Stmt :=
  match kind with
  | .mysql => [.mysqlDropUser username]
  | .mssql => [.mssqlDropUser username, .mssqlDropLogin username]

/-- The effect of statements that all succeed, in order. -/
def applyAll (stmts : List Stmt) (b : Backend) : Backend :=
  stmts.foldl Stmt.apply b

/-- The backends after the statements succeeded on the backend at `addr`. -/
def backendsAfter (backends : String → Backend) (addr : String) (stmts : List Stmt) :
    String → Backend :=
  fun a => if a = addr then applyAll stmts (backends a) else backends a

/-- The world `quietWorld` where the eighth fallible call fails: in a `StartSession` for
`alice@ex.com` on `salesdb` that is `getFreePort`, after the temp account was created. -/
def portFailWorld : World :=
  { quietWorld with faults := fun i => i == 7 }

/-- The store after the `user_roles` row binding `roleName` to `username` is deleted, as
`SaveUser` leaves it when the role is dropped from `user.Roles` and all else is kept. -/
def Store.withoutUserRole (s : Store) (username roleName : String) : Store :=
  { s with
    user_roles :=
      s.user_roles.filter (fun r => !(r.username == username && r.role_name == roleName)) }

/-- Claims of a second token minted later for `alice@ex.com`: another token id and other
issue and expiry times. -/
def aliceLaterClaims : Claims :=
  { Username := "alice@ex.com", ID := "ffeeddccbbaa99887766554433221100",
    ExpiresAt := 4500, IssuedAt := 3600, Issuer := "zGate" }

/-! ## The connect and disconnect handlers (api/connect.go)

A handler is run after `authMiddleware` put the validated claims and the token in the
request context. The request body is what `json.NewDecoder(r.Body).Decode` yields, `none`
when decoding fails. -/

/-- What a handler writes: `http.Error(w, message, status)`, or a JSON body, sent with
status 200. -/
inductive Reply (α : Type) where
  | error (status : Nat) (message : String)
  | json (body : α)
  deriving DecidableEq, Repr

/-- The HTTP status of a reply. -/
def Reply.status {α : Type} : Reply α → Nat
  | .error status _ => status
  | .json _ => 200

/-- Type `api.ConnectRequest`. -/
structure ConnectRequest where
  DatabaseName : String
  deriving DecidableEq, Repr

/-- Type `api.ConnectResponse`. -/
structure ConnectResponse where
  Port : Nat
  DatabaseName : String
  Message : String
  TempUsername : String
  TempPassword : String
  deriving DecidableEq, Repr

/-- Type `api.DisconnectRequest`. -/
structure DisconnectRequest where
  DatabaseName : String
  deriving DecidableEq, Repr

/-- Method `Server.handleConnect`: 400 on a body that does not decode, 403 when the policy
engine denies the database, 500 when `StartSession` fails, else the session's port and
temp credentials. -/
def handleConnect (m : Manager) (w : World) (claims : Claims) (token : String)
    (body : Option ConnectRequest) : Reply ConnectResponse × Manager × World :=
  match body with
  | none => (.error 400 "invalid request", m, w)
  | some req =>
    if !CanAccess w.store claims req.DatabaseName then
      (.error 403 "access denied", m, w)
    else
      match m.StartSession w token claims req.DatabaseName with
      | (.error _, m1, w1) => (.error 500 "failed to start proxy", m1, w1)
      | (.ok session, m1, w1) =>
        (.json { Port := session.Port, DatabaseName := req.DatabaseName,
                 Message := "Proxy started successfully",
                 TempUsername := session.TempCredentials.Username,
                 TempPassword := session.TempCredentials.Password }, m1, w1)

/-- Method `Server.handleDisconnect`: 400 on a body that does not decode, 500 when
`StopSession` fails, else the message `Disconnected successfully`. -/
def handleDisconnect (m : Manager) (w : World) (claims : Claims) (token : String)
    (body : Option DisconnectRequest) : Reply String × Manager × World :=
  match body with
  | none => (.error 400 "invalid request", m, w)
  | some _ =>
    match m.StopSession w token with
    | (.error _, m1, w1) => (.error 500 "failed to stop proxy", m1, w1)
    | (.ok _, m1, w1) => (.json "Disconnected successfully", m1, w1)

/-! ## The gateway server and the per-session listener (gateway/server.go,
gateway/listener.go, protocol/handler.go, proxy/manager.go) -/

/-- Method `Store.SaveDatabase`: `INSERT ... ON CONFLICT(name) DO UPDATE`, the row of that
name replaced in place, a new row appended. -/
def Store.SaveDatabase (s : Store) (dbDef : Database) : Store :=
  if s.databases.any (fun d => d.Name == dbDef.Name) then
    { s with databases := s.databases.map (fun d => if d.Name == dbDef.Name then dbDef else d) }
  else
    { s with databases := s.databases ++ [dbDef] }

/-- Function `protocol.NewHandler`: the handler of a database type, known by its variant;
an error for a type that is neither `mssql` nor `mysql`. -/
def NewHandler (dbType : String) : Except String DriverKind :=
  if dbType = "mssql" then .ok .mssql
  else if dbType = "mysql" then .ok .mysql
  else .error ("unsupported database type: " ++ dbType)

/-- Type `gateway.Server`: the map `handlers` from database type to handler. -/
structure gateway.Server where
  handlers : List (String × DriverKind)
  deriving DecidableEq, Repr

/-- The loop of `gateway.NewServer` over the databases: a type seen before is skipped, a
new one gets its handler, and a type without handler fails the construction. -/
def gateway.initHandlers :
    List Database → List String → List (String × DriverKind) →
      Except String (List (String × DriverKind))
  | [], _, handlers => .ok handlers
  | db :: rest, seenTypes, handlers =>
    if seenTypes.contains db.Type_ then gateway.initHandlers rest seenTypes handlers
    else
      match NewHandler db.Type_ with
      | .error e => .error ("failed to initialize handler for type " ++ db.Type_ ++ ": " ++ e)
      | .ok h =>
        gateway.initHandlers rest (db.Type_ :: seenTypes)
          ((db.Type_, h) :: handlers.filter (fun e => e.1 != db.Type_))

/-- Function `gateway.NewServer`: the handlers of the database types the store holds when
it is called. -/
def gateway.NewServer (store : Store) : Except String gateway.Server :=
  match store.ListDatabases with
  | .error e => .error ("failed to list databases: " ++ e)
  | .ok databases =>
    match gateway.initHandlers databases [] [] with
    | .error e => .error e
    | .ok handlers => .ok { handlers := handlers }

/-- Method `Server.GetHandler`: `s.handlers[dbType]`, `none` for the nil handler of a type
that is not in the map. -/
def gateway.Server.GetHandler (s : gateway.Server) (dbType : String) : Option DriverKind :=
  s.handlers.lookup dbType

/-- A listener task that is running its accept loop: the port it is bound to, the database
it forwards to and the handler it dials with. -/
structure Listener where
  port : Nat
  database : Database
  handler : DriverKind
  deriving DecidableEq, Repr

/-- Method `Manager.startDynamicProxy`, the body of the task `StartSession` spawns, up to
the accept loop of `Listener.Start`: without a handler for the database's type it logs and
returns; otherwise `net.Listen` on the session's port either fails (`listenOk = false`),
which is logged, or gives the listener that runs until the session is cancelled. -/
def startDynamicProxy (gwServer : gateway.Server) (listenOk : Bool) (session : Session)
    (database : Database) : Option Listener :=
  match gwServer.GetHandler database.Type_ with
  | none => none
  | some handler =>
    if listenOk then some { port := session.Port, database := database, handler := handler }
    else none

/-- The database `hrdb`, of type `mssql`. -/
def hrdb : Database :=
  { Name := "hrdb", Type_ := "mssql", Description := "hr", BackendAddr := "10.0.0.6:1433",
    AdminUsername := "sa", AdminPassword := "secret", AvailablePermissions := ["read"] }

/-- The store `danglingStore` after `SaveDatabase(hrdb)` and a `SaveUser` that gives
`alice@ex.com` the custom permission `hrdb`/`read`: the first database of type `mssql`. -/
def lateStore : Store :=
  { danglingStore.SaveDatabase hrdb with
    user_custom_permissions :=
      [{ username := "alice@ex.com", database_name := "hrdb", level := "read" }] }

/-- The world `quietWorld` over `lateStore`. -/
def lateWorld : World :=
  { quietWorld with store := lateStore }

/-- The session `StartSession` registers for `alice@ex.com` on `hrdb` in `lateWorld`. -/
def hrSession : Session :=
  { Username := "alice@ex.com", DatabaseName := "hrdb", Port := 50000,
    Claims := aliceClaims, Cancel := 1,
    TempCredentials :=
      { Username := "zgate_alice_00000000", Password := "Z00000000#00000000$G00000000" },
    DBManager := { kind := .mssql, database := hrdb, db := 0 } }

/-! ## Refresh tokens (store/tokens.go)

The hash `sha256.Sum256` is a parameter of the operations: a function from the token to
32 bytes. `CURRENT_TIMESTAMP` and `time.Now()` are the clock reading `now` passed in. -/

/-- Function `hashToken`: `hex.EncodeToString(sha256.Sum256([]byte(token))[:])`. -/
def hashToken (Sum256 : String → List Nat) (token : String) : String :=
  EncodeToString (Sum256 token)

/-- Method `Store.ValidateRefreshToken`: the row of the token's hash; an error when there is
none, when it is revoked, or when `time.Now().After(rt.ExpiresAt)`; otherwise the row as read,
after `UPDATE refresh_tokens SET last_used_at = CURRENT_TIMESTAMP WHERE id = ?`, whose
failure (`updateFails`) is not an error. -/
def Store.ValidateRefreshToken (s : Store) (Sum256 : String → List Nat) (now : Nat)
    (token : String) (updateFails : Bool) : Except String RefreshToken × Store :=
  let tokenHash := hashToken Sum256 token
  match s.refresh_tokens.find? (fun r => r.TokenHash == tokenHash) with
  | none => (.error "invalid refresh token: sql: no rows in result set", s)
  | some rt =>
    if rt.Revoked then (.error "refresh token has been revoked", s)
    else if now > rt.ExpiresAt then (.error "refresh token has expired", s)
    else if updateFails then (.ok rt, s)
    else
      (.ok rt,
        { s with
          refresh_tokens :=
            s.refresh_tokens.map (fun r => if r.ID = rt.ID then { r with LastUsedAt := now } else r) })

/-- Method `Store.RevokeRefreshToken`:
`UPDATE refresh_tokens SET revoked = 1, revoked_at = CURRENT_TIMESTAMP WHERE token_hash = ? AND revoked = 0`,
an error when the statement fails (`execFails`), which leaves the table as it was, and an
error when no row was affected. -/
def Store.RevokeRefreshToken (s : Store) (Sum256 : String → List Nat) (now : Nat)
    (token : String) (execFails : Bool) : Except String Unit × Store :=
  let tokenHash := hashToken Sum256 token
  if execFails then (.error "failed to revoke refresh token: sql: statement failed", s)
  else
    let hit := fun (r : RefreshToken) => r.TokenHash == tokenHash && !r.Revoked
    let rowsAffected := (s.refresh_tokens.filter hit).length
    let s1 : Store :=
      { s with
        refresh_tokens :=
          s.refresh_tokens.map (fun r =>
            if hit r then { r with Revoked := true, RevokedAt := some now } else r) }
    if rowsAffected = 0 then (.error "refresh token not found or already revoked", s1)
    else (.ok (), s1)

/-- Method `Store.CreateRefreshToken`: 32 random bytes in hex as the token, and the row of
its hash inserted with `expires_at = now + duration`, the other columns at their defaults;
the insert fails on a hash the table already holds and on a username without `users` row. -/
def Store.CreateRefreshToken (s : Store) (Sum256 : String → List Nat) (src : RandSource)
    (now : Nat) (username userAgent ipAddress : String) (duration : Nat) :
    Except String String × Store × RandSource :=
  let (tokenBytes, src1) := src.Read 32
  let token := EncodeToString tokenBytes
  let tokenHash := hashToken Sum256 token
  let expiresAt := now + duration
  if s.refresh_tokens.any (fun r => r.TokenHash == tokenHash)
      || !s.users.any (fun u => u.username == username) then
    (.error "failed to store refresh token", s, src1)
  else
    let id := max s.refresh_tokens_seq ((s.refresh_tokens.map (fun r => r.ID)).foldl max 0) + 1
    (.ok token,
      { s with
        refresh_tokens :=
          s.refresh_tokens ++
            [{ ID := id, TokenHash := tokenHash, Username := username, ExpiresAt := expiresAt,
               CreatedAt := now, LastUsedAt := now, Revoked := false, RevokedAt := none,
               UserAgent := userAgent, IPAddress := ipAddress }],
        refresh_tokens_seq := id },
      src1)

/-- A stand-in for SHA-256 in the examples: the code points of the token's first 32
characters, as bytes, padded with zeros. -/
def toySum256 (token : String) : List Nat :=
  ((token.data.map (fun (c : Char) => c.toNat % 256)) ++ List.replicate 32 0).take 32

/-- The store `danglingStore` with one refresh token of `alice@ex.com`, the token `r1`,
issued at time 0 and expiring at time 604800. -/
def tokenStore : Store :=
  { danglingStore with
    refresh_tokens :=
      [{ ID := 1, TokenHash := hashToken toySum256 "r1", Username := "alice@ex.com",
         ExpiresAt := 604800, CreatedAt := 0, LastUsedAt := 0, Revoked := false,
         RevokedAt := none, UserAgent := "cli", IPAddress := "10.1.1.1" }],
    refresh_tokens_seq := 1 }

/-! ## Access tokens and the refresh handler (auth/jwt.go, api/refresh.go)

The signing of a token (HMAC-SHA-256 under the process secret) is a parameter `sign`.
A request is handled at one clock reading `now`. Each statement sent to the SQL engine may
fail, as decided by the stream of outcomes of the world. -/

/-- Type `auth.UserWithPermissions`. -/
structure UserWithPermissions where
  Username : String
  Roles : List String
  Permissions : List Permission
  deriving DecidableEq, Repr

/-- Constant `auth.AccessTokenDuration`: 15 minutes, in seconds. -/
def AccessTokenDuration : Nat := 15 * 60

/-- Constant `auth.RefreshTokenDuration`: 7 days, in seconds. -/
def RefreshTokenDuration : Nat := 7 * 24 * 3600

/-- Function `generateJTI`: 16 random bytes in hex. -/
def generateJTI (src : RandSource) : String × RandSource :=
  let (bytes, src1) := src.Read 16
  (EncodeToString bytes, src1)

/-- Function `auth.GenerateToken`: the signed token of the claims
`{username, jti, exp = now + 15 min, iat = now, iss = "zGate"}`, and its expiry. -/
def GenerateToken (sign : Claims → Except String String) (src : RandSource) (now : Nat)
    (user : UserWithPermissions) : Except String (String × Nat) × RandSource :=
  let expiresAt := now + AccessTokenDuration
  let (jti, src1) := generateJTI src
  let claims : Claims :=
    { Username := user.Username, ID := jti, ExpiresAt := expiresAt, IssuedAt := now,
      Issuer := "zGate" }
  match sign claims with
  | .error e => (.error ("failed to sign token: " ++ e), src1)
  | .ok tokenString => (.ok (tokenString, expiresAt), src1)

/-- A read of the store by a handler: the SQL engine may fail the query; otherwise the
answer is the one the tables give. -/
def World.read {α : Type} (w : World) (answer : Store → Except String α) :
    Except String α × World :=
  let (failed, w1) := w.fault
  (if failed then .error "sql: query failed" else answer w1.store, w1)

/-- The call `s.store.ValidateRefreshToken(token)` of a handler: the `SELECT` may fail, and
so may the `UPDATE` of `last_used_at`. -/
def World.ValidateRefreshToken (w : World) (Sum256 : String → List Nat) (now : Nat)
    (token : String) : Except String RefreshToken × World :=
  let (selectFails, w1) := w.fault
  if selectFails then (.error "invalid refresh token: sql: query failed", w1)
  else
    let (updateFails, w2) := w1.fault
    let (r, s1) := w2.store.ValidateRefreshToken Sum256 now token updateFails
    (r, { w2 with store := s1 })

/-- The call `s.store.CreateRefreshToken(...)` of a handler: the `INSERT` may fail. -/
def World.CreateRefreshToken (w : World) (Sum256 : String → List Nat) (now : Nat)
    (username userAgent ipAddress : String) (duration : Nat) : Except String String × World :=
  let (insertFails, w1) := w.fault
  if insertFails then
    (.error "failed to store refresh token", { w1 with rand := (w1.rand.Read 32).2 })
  else
    let (r, s1, src1) :=
      w1.store.CreateRefreshToken Sum256 w1.rand now username userAgent ipAddress duration
    (r, { w1 with store := s1, rand := src1 })

/-- The call `s.store.RevokeRefreshToken(token)` of a handler: the `UPDATE` may fail. -/
def World.RevokeRefreshToken (w : World) (Sum256 : String → List Nat) (now : Nat)
    (token : String) : Except String Unit × World :=
  let (updateFails, w1) := w.fault
  let (r, s1) := w1.store.RevokeRefreshToken Sum256 now token updateFails
  (r, { w1 with store := s1 })

/-- Type `api.RefreshRequest`. -/
structure RefreshRequest where
  RefreshToken : String
  deriving DecidableEq, Repr

/-- Type `api.RefreshResponse`. -/
structure RefreshResponse where
  AccessToken : String
  RefreshToken : String
  TokenType : String
  ExpiresIn : Nat
  deriving DecidableEq, Repr

/-- Method `Server.handleRefresh`: 400 on a body that does not decode or an empty token,
401 when the token does not validate or its user is gone, 500 when the permissions, the
access token or the new refresh token cannot be had; then the presented token is revoked,
a failure of which is only logged, and the new pair is returned. The field `expires_in` is
`int(time.Until(expiresAt).Seconds())`, read a fraction of a second after the `time.Now()`
of `GenerateToken`: one less than the whole seconds from `now` to the expiry. -/
def handleRefresh (w : World) (Sum256 : String → List Nat)
    (sign : Claims → Except String String) (now : Nat) (userAgent ipAddress : String)
    (body : Option RefreshRequest) : Reply RefreshResponse × World :=
  match body with
  | none => (.error 400 "invalid request", w)
  | some req =>
    if req.RefreshToken = "" then (.error 400 "refresh_token is required", w)
    else
      match w.ValidateRefreshToken Sum256 now req.RefreshToken with
      | (.error _, w1) => (.error 401 "invalid or expired refresh token", w1)
      | (.ok refreshTokenData, w1) =>
        match w1.read (fun s => s.GetUser refreshTokenData.Username) with
        | (.error _, w2) => (.error 401 "user not found", w2)
        | (.ok user, w2) =>
          match w2.read (fun s => s.GetPermissionsForRoles user.Roles) with
          | (.error _, w3) => (.error 500 "internal server error", w3)
          | (.ok rolePerms, w3) =>
            let permissions := rolePerms ++ user.CustomPermissions
            let userWithPerms : UserWithPermissions :=
              { Username := user.Username, Roles := user.Roles, Permissions := permissions }
            match GenerateToken sign w3.rand now userWithPerms with
            | (.error _, src1) => (.error 500 "internal server error", { w3 with rand := src1 })
            | (.ok (accessToken, expiresAt), src1) =>
              match World.CreateRefreshToken { w3 with rand := src1 } Sum256 now user.Username
                  userAgent ipAddress RefreshTokenDuration with
              | (.error _, w5) => (.error 500 "internal server error", w5)
              | (.ok newRefreshToken, w5) =>
                let (_, w6) := w5.RevokeRefreshToken Sum256 now req.RefreshToken
                (.json { AccessToken := accessToken, RefreshToken := newRefreshToken,
                         TokenType := "Bearer", ExpiresIn := expiresAt - now - 1 }, w6)

/-- A stand-in for the signing of a token in the examples. -/
def toySign (claims : Claims) : Except String String :=
  .ok ("jwt." ++ claims.Username ++ "." ++ claims.ID)

/-- The world `quietWorld` over `tokenStore`. -/
def tokenWorld : World :=
  { quietWorld with store := tokenStore }

/-- The world `tokenWorld` with random bytes 0, 1, 2, ... and where the sixth fallible call
fails: in a refresh with `r1` that is the `UPDATE` of `RevokeRefreshToken`. -/
def revokeFailWorld : World :=
  { quietWorld with store := tokenStore, rand := ⟨fun i => i⟩, faults := fun i => i == 5 }

/-- The rewrite `RevokeRefreshToken` applies to each row: a row of that hash that is not
revoked becomes revoked at `now`, any other row stays. -/
def revokeRow (tokenHash : String) (now : Nat) (r : RefreshToken) : RefreshToken :=
  if (r.TokenHash == tokenHash && !r.Revoked) = true then
    { r with Revoked := true, RevokedAt := some now }
  else r

/-! ## Active logins (store/tokens.go, api/active_logins.go) -/

/-- Method `Store.RevokeActiveLoginByID`:
`UPDATE refresh_tokens SET revoked = 1, revoked_at = CURRENT_TIMESTAMP WHERE id = ? AND username = ? AND revoked = 0`,
an error when no row was affected. -/
def Store.RevokeActiveLoginByID (s : Store) (now : Nat) (sessionID : Int)
    (username : String) : Except String Unit × Store :=
  let hit := fun (r : RefreshToken) =>
    (r.ID : Int) == sessionID && r.Username == username && !r.Revoked
  let rowsAffected := (s.refresh_tokens.filter hit).length
  let s1 : Store :=
    { s with
      refresh_tokens :=
        s.refresh_tokens.map (fun r =>
          if hit r then { r with Revoked := true, RevokedAt := some now } else r) }
  if rowsAffected = 0 then (.error "session not found or already revoked", s1)
  else (.ok (), s1)

/-- The call `s.store.RevokeActiveLoginByID(...)` of a handler: the `UPDATE` may fail. -/
def World.RevokeActiveLoginByID (w : World) (now : Nat) (sessionID : Int)
    (username : String) : Except String Unit × World :=
  let (updateFails, w1) := w.fault
  if updateFails then (.error "failed to revoke session", w1)
  else
    let (r, s1) := w1.store.RevokeActiveLoginByID now sessionID username
    (r, { w1 with store := s1 })

/-- Go `strconv.ParseInt(s, 10, 64)`: an optional sign and then decimal digits only, the
value within the range of `int64`; `none` for an error. -/
def ParseInt (s : String) : Option Int :=
  let cs := s.data
  let signed : Bool × List Char :=
    match cs with
    | '+' :: rest => (false, rest)
    | '-' :: rest => (true, rest)
    | _ => (false, cs)
  let digits := signed.2
  if digits.isEmpty || !digits.all (fun (c : Char) => c.isDigit) then none
  else
    let n := digits.foldl (fun acc (c : Char) => acc * 10 + (c.toNat - 48)) 0
    if signed.1 then (if n ≤ 2 ^ 63 then some (-(n : Int)) else none)
    else (if n < 2 ^ 63 then some (n : Int) else none)

/-- Type `api.RevokeActiveLoginResponse`. -/
structure RevokeActiveLoginResponse where
  Message : String
  deriving DecidableEq, Repr

/-- Method `Server.handleRevokeActiveLogin`, for `DELETE /api/active-logins/{id}`: 401
without claims in the request context, 400 when `id` is not an integer, 404 when
`RevokeActiveLoginByID` returns an error, else the message of success. -/
def handleRevokeActiveLogin (w : World) (now : Nat) (claims : Option Claims) (id : String) :
    Reply RevokeActiveLoginResponse × World :=
  match claims with
  | none => (.error 401 "unauthorized", w)
  | some claims =>
    match ParseInt id with
    | none => (.error 400 "invalid session ID", w)
    | some sessionID =>
      match w.RevokeActiveLoginByID now sessionID claims.Username with
      | (.error _, w1) => (.error 404 "session not found or already revoked", w1)
      | (.ok _, w1) => (.json { Message := "Active login revoked successfully" }, w1)

/-- The store `tokenStore` with a second user `bob@ex.com` and his login, of id 2. -/
def twoLoginStore : Store :=
  { tokenStore with
    users := tokenStore.users ++ [{ username := "bob@ex.com", password_hash := "Ym9i" }],
    refresh_tokens :=
      tokenStore.refresh_tokens ++
        [{ ID := 2, TokenHash := hashToken toySum256 "r2", Username := "bob@ex.com",
           ExpiresAt := 604800, CreatedAt := 0, LastUsedAt := 0, Revoked := false,
           RevokedAt := none, UserAgent := "cli", IPAddress := "10.1.1.2" }],
    refresh_tokens_seq := 2 }

/-- The world `quietWorld` over `twoLoginStore`. -/
def twoLoginWorld : World :=
  { quietWorld with store := twoLoginStore }

/-! ## Validation of access tokens (auth/jwt.go)

`ValidateToken` hands the token string and a key function to `jwt.ParseWithClaims` of
`github.com/golang-jwt/jwt/v5`. The control flow of that parser is followed here; the
decoding of the three segments (`decode`), the check of a signature (`verify`) and the
validation of the registered claims (`validClaims`) are parameters. -/

/-- The signing methods the library registers, by family. -/
inductive SigningMethod where
  /-- Type `*jwt.SigningMethodHMAC`: `HS256`, `HS384`, `HS512` -/
  | HMAC (name : String)
  /-- Type `*jwt.SigningMethodRSA`: `RS256`, `RS384`, `RS512` -/
  | RSA (name : String)
  /-- Type `*jwt.SigningMethodRSAPSS`: `PS256`, `PS384`, `PS512` -/
  | RSAPSS (name : String)
  /-- Type `*jwt.SigningMethodECDSA`: `ES256`, `ES384`, `ES512` -/
  | ECDSA (name : String)
  /-- Type `*jwt.SigningMethodEd25519`: `EdDSA` -/
  | Ed25519
  /-- The method of `alg = none` -/
  | None
  deriving DecidableEq, Repr

/-- Library function `jwt.GetSigningMethod`: the method registered under `alg`. -/
def GetSigningMethod (alg : String) : Option SigningMethod :=
  if alg = "HS256" ∨ alg = "HS384" ∨ alg = "HS512" then some (.HMAC alg)
  else if alg = "RS256" ∨ alg = "RS384" ∨ alg = "RS512" then some (.RSA alg)
  else if alg = "PS256" ∨ alg = "PS384" ∨ alg = "PS512" then some (.RSAPSS alg)
  else if alg = "ES256" ∨ alg = "ES384" ∨ alg = "ES512" then some (.ECDSA alg)
  else if alg = "EdDSA" then some .Ed25519
  else if alg = "none" then some .None
  else none

/-- The three segments of a token string, decoded: the `alg` entry of the header when it
is a string, the claims, the signing string and the signature. -/
structure Segments where
  alg : Option String
  claims : Claims
  text : String
  signature : String
  deriving DecidableEq, Repr

/-- Type `jwt.Token`, as the key function sees it. -/
structure Token where
  alg : Option String
  Method : SigningMethod
  Claims : Claims
  deriving DecidableEq, Repr

/-- One call of `token.Method.Verify(text, signature, key)`. -/
structure VerifyCall where
  method : SigningMethod
  text : String
  signature : String
  key : String
  deriving DecidableEq, Repr

/-- The key function `ValidateToken` passes to the parser: the secret for a token whose
method is an HMAC method, an error for any other. -/
def keyFunc (secret : String) (token : Token) : Except String String :=
  match token.Method with
  | .HMAC _ => .ok secret
  | _ => .error ("unexpected signing method: " ++ token.alg.getD "<nil>")

/-- Library function `jwt.ParseWithClaims`: the header's `alg` must name a registered
method; then the key function is asked for the key, the signature is verified with it,
and the claims are validated. Returned with the result are the calls of `Verify` made. -/
def ParseWithClaims (decode : String → Option Segments)
    (verify : VerifyCall → Bool) (validClaims : Claims → Bool)
    (keyfunc : Token → Except String String) (tokenString : String) :
    Except String Token × List VerifyCall :=
  match decode tokenString with
  | none => (.error "token is malformed", [])
  | some seg =>
    match seg.alg with
    | none => (.error "token is malformed: signing method (alg) is unspecified", [])
    | some headerAlg =>
      match GetSigningMethod headerAlg with
      | none => (.error "token is unverifiable: signing method (alg) is unavailable", [])
      | some method =>
        let token : Token := { alg := seg.alg, Method := method, Claims := seg.claims }
        match keyfunc token with
        | .error e => (.error ("token is unverifiable: error while executing keyfunc: " ++ e), [])
        | .ok key =>
          let call : VerifyCall :=
            { method := method, text := seg.text, signature := seg.signature, key := key }
          if !verify call then (.error "token signature is invalid", [call])
          else if !validClaims seg.claims then (.error "token has invalid claims", [call])
          else (.ok token, [call])

/-- Function `auth.ValidateToken`: the claims of a token the parser accepts. -/
def ValidateToken (secret : String) (decode : String → Option Segments)
    (verify : VerifyCall → Bool) (validClaims : Claims → Bool) (tokenString : String) :
    Except String Claims × List VerifyCall :=
  match ParseWithClaims decode verify validClaims (keyFunc secret) tokenString with
  | (.error e, calls) => (.error ("invalid token: " ++ e), calls)
  | (.ok token, calls) => (.ok token.Claims, calls)

/-- A decoder for the examples: the token string `none-token` has the header
`alg = none` and the claims of `alice@ex.com`; any other string is malformed. -/
def toyDecode (tokenString : String) : Option Segments :=
  if tokenString = "none-token" then
    some { alg := some "none", claims := aliceClaims, text := "e30.e30", signature := "" }
  else none

/-! ## Construction of the store (store/store.go, main.go) -/

/-- Go `fromHexChar` of `encoding/hex`: the value of a hex digit of either case. -/
def fromHexChar (c : Char) : Option Nat :=
  if '0' ≤ c ∧ c ≤ '9' then some (c.toNat - '0'.toNat)
  else if 'a' ≤ c ∧ c ≤ 'f' then some (c.toNat - 'a'.toNat + 10)
  else if 'A' ≤ c ∧ c ≤ 'F' then some (c.toNat - 'A'.toNat + 10)
  else none

/-- Go `hex.Decode` on the characters of the string: pairs of hex digits, left to right;
an error at the first character that is no hex digit, or for an odd length. -/
def hexDecode : List Char → Except String (List Nat)
  | [] => .ok []
  | [c] =>
    match fromHexChar c with
    | none => .error "encoding/hex: invalid byte"
    | some _ => .error "encoding/hex: odd length hex string"
  | a :: b :: rest =>
    match fromHexChar a with
    | none => .error "encoding/hex: invalid byte"
    | some x =>
      match fromHexChar b with
      | none => .error "encoding/hex: invalid byte"
      | some y =>
        match hexDecode rest with
        | .error e => .error e
        | .ok bytes => .ok ((x * 16 + y) :: bytes)

/-- Go `hex.DecodeString(s)`. -/
def DecodeString (s : String) : Except String (List Nat) :=
  hexDecode s.data

/-- Type `*store.Store` as `NewStore` returns it: the handle on the file and the key. -/
structure StoreHandle where
  dbPath : String
  encryptionKey : List Nat
  deriving DecidableEq, Repr

/-- Function `store.NewStore`: the length of the key is checked first; then the data
directory is made, the database opened and the schema applied, each of which may fail. -/
def NewStore (w : World) (dbPath : String) (encryptionKey : List Nat) :
    Except String StoreHandle × World :=
  if encryptionKey.length ≠ 32 then
    (.error "encryption key must be exactly 32 bytes for AES-256", w)
  else
    let (mkdirFails, w1) := w.fault
    if mkdirFails then
      (.error "failed creating data directory", w1.emit (.mkdirAll dbPath false))
    else
      let (openFails, w2) := (w1.emit (.mkdirAll dbPath true)).fault
      if openFails then
        (.error "failed opening sqlite database", w2.emit (.sqlOpen dbPath false))
      else
        let (schemaFails, w3) := (w2.emit (.sqlOpen dbPath true)).fault
        if schemaFails then
          (.error "failed applying schema",
            (w3.emit (.initSchema false)).emit (.storeClose true))
        else
          (.ok { dbPath := dbPath, encryptionKey := encryptionKey },
            w3.emit (.initSchema true))

/-- Function `initStore` of `main.go`: the key is read in hex from `ZGATE_STORE_KEY`, the
path from `ZGATE_STORE_PATH`; `getenv` is the environment of the process. -/
def initStore (w : World) (getenv : String → String) : Except String StoreHandle × World :=
  let keyHex := getenv "ZGATE_STORE_KEY"
  if keyHex = "" then (.error "ZGATE_STORE_KEY environment variable is required", w)
  else
    match DecodeString keyHex with
    | .error e => (.error ("failed to decode ZGATE_STORE_KEY as hex: " ++ e), w)
    | .ok key =>
      if key.length ≠ 32 then
        (.error ("decoded ZGATE_STORE_KEY must be exactly 32 bytes, got " ++ toString key.length),
          w)
      else
        let dbPath :=
          if getenv "ZGATE_STORE_PATH" = "" then "data/zgate.db" else getenv "ZGATE_STORE_PATH"
        NewStore w dbPath key

/-! ## Shutdown of the process (main.go, api/server.go) -/

/-- Method `api.Server.Shutdown`: `s.server.Shutdown(ctx)` of the HTTP server, which fails
when the requests in flight do not end within the timeout. -/
def api.Server.Shutdown (w : World) : Except String Unit × World :=
  let (failed, w1) := w.fault
  (if failed then .error "context deadline exceeded" else .ok (),
    w1.emit (.httpShutdown (!failed)))

/-- What `main` does once the signal context is cancelled, with the exit code of the
process: the token cleanup task returns, and the third task shuts the API server down.
When that fails, `g.Wait` returns the error and the process exits with code 1. Otherwise
`main` returns and its deferred call closes the store. The registry of the session
manager is the one the process ends with. -/
def mainOnSignal (m : Manager) (w : World) : Nat × Manager × World :=
  match api.Server.Shutdown w with
  | (.error _, w1) => (1, m, w1)
  | (.ok _, w1) =>
    let (closeFails, w2) := w1.fault
    (0, m, w2.emit (.storeClose (!closeFails)))

/-! ## Saving users and roles (store/users.go, store/roles.go)

The statements of `SaveUser` and `SaveRole` run in one transaction. A statement is failed
by the SQL engine when the stream `faults` says so (numbered from `BeginTx`), or by a
constraint of the schema; otherwise it changes the transaction's copy of the tables. The
copy replaces the tables at `Commit`; on any error the tables stay as they were
(`tx.Rollback()`). -/

/-- Type `store.Role`. -/
structure Role where
  Name : String
  Description : String
  Permissions : List Permission
  deriving DecidableEq, Repr

/-- Statement `INSERT INTO users (username, password_hash) VALUES (?, ?) ON CONFLICT(username)
DO UPDATE SET password_hash=excluded.password_hash`. -/
def Store.upsertUser (s : Store) (username passwordHash : String) : Store :=
  if s.users.any (fun u => u.username == username) then
    { s with
      users := s.users.map (fun u =>
        if u.username == username then { u with password_hash := passwordHash } else u) }
  else
    { s with users := s.users ++ [{ username := username, password_hash := passwordHash }] }

/-- Statement `INSERT INTO roles (name, description) VALUES (?, ?) ON CONFLICT(name) DO UPDATE
SET description=excluded.description`. -/
def Store.upsertRole (s : Store) (name description : String) : Store :=
  if s.roles.any (fun r => r.name == name) then
    { s with
      roles := s.roles.map (fun r =>
        if r.name == name then { r with description := description } else r) }
  else
    { s with roles := s.roles ++ [{ name := name, description := description }] }

/-- Statement `INSERT INTO user_roles (username, role_name) VALUES (?, ?)`, under
`UNIQUE(username, role_name)` and the foreign keys to `users` and `roles`. -/
def Store.insertUserRole (s : Store) (username role : String) : Except String Store :=
  if s.user_roles.any (fun r => r.username == username && r.role_name == role) then
    .error "UNIQUE constraint failed: user_roles.username, user_roles.role_name"
  else if !s.users.any (fun u => u.username == username)
      || !s.roles.any (fun x => x.name == role) then
    .error "FOREIGN KEY constraint failed"
  else
    .ok { s with user_roles := s.user_roles ++ [{ username := username, role_name := role }] }

/-- Statement `INSERT INTO user_custom_permissions (username, database_name, level)
VALUES (?, ?, ?)`, under `UNIQUE(username, database_name, level)` and the foreign key to
`users`. -/
def Store.insertUserCustomPermission (s : Store) (username : String) (perm : Permission) :
    Except String Store :=
  if s.user_custom_permissions.any (fun r =>
      r.username == username && r.database_name == perm.Database && r.level == perm.Level) then
    .error "UNIQUE constraint failed: user_custom_permissions"
  else if !s.users.any (fun u => u.username == username) then
    .error "FOREIGN KEY constraint failed"
  else
    .ok { s with
      user_custom_permissions :=
        s.user_custom_permissions ++
          [{ username := username, database_name := perm.Database, level := perm.Level }] }

/-- Statement `INSERT INTO role_permissions (role_name, database_name, level)
VALUES (?, ?, ?)`, under `UNIQUE(role_name, database_name)` and the foreign keys to
`roles` and `databases`. -/
def Store.insertRolePermission (s : Store) (roleName : String) (perm : Permission) :
    Except String Store :=
  if s.role_permissions.any (fun r =>
      r.role_name == roleName && r.database_name == perm.Database) then
    .error "UNIQUE constraint failed: role_permissions.role_name, role_permissions.database_name"
  else if !s.roles.any (fun x => x.name == roleName)
      || !s.databases.any (fun d => d.Name == perm.Database) then
    .error "FOREIGN KEY constraint failed"
  else
    .ok { s with
      role_permissions :=
        s.role_permissions ++
          [{ role_name := roleName, database_name := perm.Database, level := perm.Level }] }

/-- A loop `for _, x := range xs` of `tx.Exec` inserts, from statement number `k` on: the
copy after the last insert and the number of the next statement, or the first error. -/
def txInsertAll {α : Type} (insert : Store → α → Except String Store) (faults : Nat → Bool) :
    List α → Nat → Store → Except String (Store × Nat)
  | [], k, t => .ok (t, k)
  | x :: rest, k, t =>
    if faults k then .error "sql: statement failed"
    else
      match insert t x with
      | .error e => .error e
      | .ok t1 => txInsertAll insert faults rest (k + 1) t1

/-- The statements of `SaveUser` between `BeginTx` and the return of `Commit`, on the
transaction's copy: the upsert of the `users` row, the delete and the inserts of the
user's roles, the delete and the inserts of the custom permissions, and `Commit`. -/
def Store.saveUserTx (s : Store) (faults : Nat → Bool) (user : User) : Except String Store :=
  if faults 1 then .error "sql: statement failed"
  else
    let t1 := s.upsertUser user.Username user.PasswordHash
    if faults 2 then .error "sql: statement failed"
    else
      let t2 : Store :=
        { t1 with user_roles := t1.user_roles.filter (fun r => r.username != user.Username) }
      match txInsertAll (fun t role => t.insertUserRole user.Username role) faults
          user.Roles 3 t2 with
      | .error e => .error e
      | .ok (t3, k) =>
        if faults k then .error "sql: statement failed"
        else
          let t4 : Store :=
            { t3 with
              user_custom_permissions :=
                t3.user_custom_permissions.filter (fun r => r.username != user.Username) }
          match txInsertAll (fun t perm => t.insertUserCustomPermission user.Username perm)
              faults user.CustomPermissions (k + 1) t4 with
          | .error e => .error e
          | .ok (t5, k2) =>
            if faults k2 then .error "sql: commit failed" else .ok t5

/-- Method `Store.SaveUser`: an error for a nil user, for an empty `PasswordHash` and when
the transaction cannot begin; then the transaction, rolled back on the first error. -/
def Store.SaveUser (s : Store) (faults : Nat → Bool) (user : Option User) :
    Except String Unit × Store :=
  match user with
  | none => (.error "user is nil", s)
  | some user =>
    if user.PasswordHash = "" then (.error "user encrypted password is required", s)
    else if faults 0 then (.error "sql: begin failed", s)
    else
      match s.saveUserTx faults user with
      | .error e => (.error e, s)
      | .ok t => (.ok (), t)

/-- The statements of `SaveRole` between `BeginTx` and the return of `Commit`: the upsert
of the `roles` row, the delete and the inserts of the role's permissions, and `Commit`. -/
def Store.saveRoleTx (s : Store) (faults : Nat → Bool) (role : Role) : Except String Store :=
  if faults 1 then .error "sql: statement failed"
  else
    let t1 := s.upsertRole role.Name role.Description
    if faults 2 then .error "sql: statement failed"
    else
      let t2 : Store :=
        { t1 with
          role_permissions := t1.role_permissions.filter (fun r => r.role_name != role.Name) }
      match txInsertAll (fun t perm => t.insertRolePermission role.Name perm) faults
          role.Permissions 3 t2 with
      | .error e => .error e
      | .ok (t3, k) =>
        if faults k then .error "sql: commit failed" else .ok t3

/-- Method `Store.SaveRole`: an error for a nil role and when the transaction cannot
begin; then the transaction, rolled back on the first error. -/
def Store.SaveRole (s : Store) (faults : Nat → Bool) (role : Option Role) :
    Except String Unit × Store :=
  match role with
  | none => (.error "role is nil", s)
  | some role =>
    if faults 0 then (.error "begin tx: sql: begin failed", s)
    else
      match s.saveRoleTx faults role with
      | .error e => (.error e, s)
      | .ok t => (.ok (), t)

/-- No statement is failed by the SQL engine. -/
def noFaults : Nat → Bool :=
  fun _ => false

/-- The user `alice@ex.com` with the role `reader` and the custom permissions
`salesdb`/`write` and `ghostdb`/`read`. -/
def aliceUser : User :=
  { Username := "alice@ex.com", PasswordHash := "c2VjcmV0", Roles := ["reader"],
    CustomPermissions :=
      [{ Database := "salesdb", Level := "write" }, { Database := "ghostdb", Level := "read" }] }

/-- The role `reader` with the permissions `salesdb`/`read` and `salesdb`/`write`: two
permissions for the same database. -/
def twiceRole : Role :=
  { Name := "reader", Description := "read only",
    Permissions :=
      [{ Database := "salesdb", Level := "read" }, { Database := "salesdb", Level := "write" }] }

/-! ## Reading the statements off the events -/

/-- The statement of an `ExecContext` event. -/
def Event.execStmt : Event → Option Stmt
  | .exec _ stmt _ => some stmt
  | _ => none

/-- The statements sent in a list of events, in order, whatever their outcome. -/
def execStmts (evs : List Event) : List Stmt :=
  evs.filterMap Event.execStmt

/-- Whether an event is an account-creating statement that failed. -/
def Event.failedCreate : Event → Bool
  | .exec _ stmt false => stmt.creates.isSome
  | _ => false

/-- The `switch perm` of the driver variant. -/
def grantSQL (kind : DriverKind) (perm username : String) : Option Stmt :=
  match kind with
  | .mysql => mysqlGrantSQL perm username
  | .mssql => mssqlGrantSQL perm username

/-- The statement a MySQL `CreateTempUser` ends with, `FLUSH PRIVILEGES`; the MSSQL one
ends with its last grant. -/
def closingStmts (kind : DriverKind) : List Stmt :=
  match kind with
  | .mysql => [.mysqlFlush]
  | .mssql => []

/-- A world where every grant statement of a `CreateTempUser` fails, and nothing before
them: the calls from the third on fail. -/
def grantFailWorld : World :=
  { quietWorld with faults := fun i => decide (2 ≤ i) }

/-- A world where the second statement of a `CreateTempUser` fails: for the MSSQL driver
that is the `CREATE USER` step, after the login was created. -/
def userStepFailWorld : World :=
  { quietWorld with faults := fun i => i == 1 }

/-- The connect of `alice@ex.com` to `salesdb` under the token `tok`, in `quietWorld` with
an empty registry. -/
def aliceConnected : Reply ConnectResponse × Manager × World :=
  handleConnect (Manager.mk []) quietWorld aliceClaims "tok" (some { DatabaseName := "salesdb" })

/-- The connect of `alice@ex.com` to `salesdb` under the token `tok`, in `lateWorld` with
an empty registry. -/
def lateConnected : Reply ConnectResponse × Manager × World :=
  handleConnect (Manager.mk []) lateWorld aliceClaims "tok" (some { DatabaseName := "salesdb" })

/-! # Theorems -/

/-! ## Hex encoding and the random source -/

theorem Read_length (src : RandSource) (n : Nat) : (src.Read n).1.length = n := by
  simp [RandSource.Read]

theorem hextable_lowerHex (i : Nat) (h : i < 16) : isLowerHex (hextable.getD i '0') = true := by
  have key : ∀ j : Fin 16, isLowerHex (hextable.getD j.val '0') = true := by decide
  exact key ⟨i, h⟩

theorem encodeByte_length (v : Nat) : (encodeByte v).length = 2 := rfl

theorem encodeByte_lowerHex (v : Nat) (c : Char) (hc : c ∈ encodeByte v) :
    isLowerHex c = true := by
  simp only [encodeByte, List.mem_cons, List.mem_singleton, List.not_mem_nil, or_false] at hc
  rcases hc with rfl | rfl
  · exact hextable_lowerHex _ (by omega)
  · exact hextable_lowerHex _ (by omega)

theorem EncodeToString_length (l : List Nat) : (EncodeToString l).data.length = 2 * l.length := by
  induction l with
  | nil => rfl
  | cons v vs ih =>
    simp only [EncodeToString, List.flatMap_cons, List.length_append, encodeByte_length,
      List.length_cons] at ih ⊢
    omega

theorem EncodeToString_lowerHex (l : List Nat) (c : Char) (hc : c ∈ (EncodeToString l).data) :
    isLowerHex c = true := by
  simp only [EncodeToString, List.mem_flatMap] at hc
  obtain ⟨v, _, hv⟩ := hc
  exact encodeByte_lowerHex v c hv

theorem isLowerHex_inDomain (c : Char) (h : isLowerHex c = true) : inDomain c = true := by
  simp only [isLowerHex, Bool.or_eq_true, Bool.and_eq_true, decide_eq_true_eq] at h
  simp only [inDomain, Bool.or_eq_true]
  rcases h with h | ⟨h1, h2⟩
  · exact Or.inl (Or.inl (Or.inl (Or.inr h)))
  · refine Or.inl (Or.inl (Or.inl (Or.inl (Or.inr ?_))))
    simp only [Char.isLower, Bool.and_eq_true, decide_eq_true_eq]
    have a1 : (97 : UInt32).toNat ≤ c.val.toNat := h1
    have a2 : c.val.toNat ≤ (102 : UInt32).toNat := h2
    have b1 : (97 : UInt32).toNat = 97 := rfl
    have b2 : (102 : UInt32).toNat = 102 := rfl
    refine ⟨?_, ?_⟩
    · show (97 : UInt32).toNat ≤ c.val.toNat
      omega
    · show c.val.toNat ≤ (122 : UInt32).toNat
      have b3 : (122 : UInt32).toNat = 122 := rfl
      omega

/-! ## `extractUsername` -/

theorem splitChars_head (sep : Char) (cs : List Char) :
    ∃ rest, splitChars sep cs = cs.takeWhile (fun c => c != sep) :: rest := by
  induction cs with
  | nil => exact ⟨[], rfl⟩
  | cons c cs ih =>
    obtain ⟨rest, hrest⟩ := ih
    by_cases hc : c = sep
    · exact ⟨splitChars sep cs, by simp [splitChars, hc]⟩
    · exact ⟨rest, by simp [splitChars, hc, hrest]⟩

theorem extractUsername_data (email : String) :
    (extractUsername email).data = email.data.takeWhile (fun c => c != '@') := by
  obtain ⟨rest, hrest⟩ := splitChars_head '@' email.data
  simp [extractUsername, Split, hrest]

theorem extractUsername_no_at (email : String) : '@' ∉ (extractUsername email).data := by
  rw [extractUsername_data]
  intro h
  have := List.mem_takeWhile_imp h
  simp at this

theorem extractUsername_prefix (email : String) :
    email = extractUsername email ∨
      ∃ rest, email.data = (extractUsername email).data ++ '@' :: rest := by
  have hsplit := List.takeWhile_append_dropWhile (fun c => c != '@') email.data
  cases hd : email.data.dropWhile (fun c => c != '@') with
  | nil =>
    left
    rw [hd, List.append_nil] at hsplit
    apply String.ext
    rw [extractUsername_data, hsplit]
  | cons c rest =>
    right
    refine ⟨rest, ?_⟩
    have hc : c = '@' := by
      have h0 := List.head_dropWhile_not (fun c => c != '@') email.data
        (by rw [hd]; exact List.cons_ne_nil _ _)
      simpa [hd] using h0
    rw [extractUsername_data]
    subst hc
    rw [← hd, hsplit]

/-! ## Pattern matching -/

theorem matchPat_lits (cs : List Char) (ps : List Pat) (ds : List Char) :
    matchPat (cs.map Pat.lit ++ ps) (cs ++ ds) = matchPat ps ds := by
  induction cs with
  | nil => rfl
  | cons c cs ih => simp [matchPat, ih]

theorem matchPat_hexes (hs : List Char) (hhex : ∀ c ∈ hs, isLowerHex c = true)
    (ps : List Pat) (ds : List Char) :
    matchPat (List.replicate hs.length Pat.hex ++ ps) (hs ++ ds) = matchPat ps ds := by
  induction hs with
  | nil => rfl
  | cons c cs ih =>
    have hc : isLowerHex c = true := hhex c (List.mem_cons_self _ _)
    have hcs : ∀ d ∈ cs, isLowerHex d = true := fun d hd => hhex d (List.mem_cons_of_mem _ hd)
    simp [List.replicate_succ, matchPat, hc, ih hcs]

theorem matchPat_lit (c : Char) (ps : List Pat) (ds : List Char) :
    matchPat (Pat.lit c :: ps) (c :: ds) = matchPat ps ds := by
  simp [matchPat]

theorem matchPat_hex8 (hs : List Char) (hlen : hs.length = 8)
    (hhex : ∀ c ∈ hs, isLowerHex c = true) (ps : List Pat) (ds : List Char) :
    matchPat (List.replicate 8 Pat.hex ++ ps) (hs ++ ds) = matchPat ps ds := by
  rw [← hlen]
  exact matchPat_hexes hs hhex ps ds

theorem matchPat_password (g1 g2 g3 : List Char)
    (l1 : g1.length = 8) (l2 : g2.length = 8) (l3 : g3.length = 8)
    (x1 : ∀ c ∈ g1, isLowerHex c = true) (x2 : ∀ c ∈ g2, isLowerHex c = true)
    (x3 : ∀ c ∈ g3, isLowerHex c = true) :
    matchPat passwordPattern ('Z' :: g1 ++ '#' :: g2 ++ '$' :: 'G' :: g3) = true := by
  have e : 'Z' :: g1 ++ '#' :: g2 ++ '$' :: 'G' :: g3 =
      'Z' :: (g1 ++ '#' :: (g2 ++ '$' :: 'G' :: (g3 ++ []))) := by
    simp [List.append_assoc]
  have p : passwordPattern =
      Pat.lit 'Z' :: (List.replicate 8 Pat.hex ++ Pat.lit '#' :: (List.replicate 8 Pat.hex ++
        Pat.lit '$' :: Pat.lit 'G' :: (List.replicate 8 Pat.hex ++ []))) := by
    simp [passwordPattern, List.append_assoc]
  rw [e, p, matchPat_lit, matchPat_hex8 g1 l1 x1, matchPat_lit, matchPat_hex8 g2 l2 x2,
    matchPat_lit, matchPat_lit, matchPat_hex8 g3 l3 x3]
  rfl

/-! ## Temp credentials -/

theorem GenerateTempUsername_data (src : RandSource) (base : String) :
    (GenerateTempUsername src base).1.data =
      "zgate_".data ++ base.data ++ '_' :: (EncodeToString (src.Read 4).1).data := by
  simp [GenerateTempUsername, String.data_append]

theorem suffix_length (src : RandSource) : (EncodeToString (src.Read 4).1).data.length = 8 := by
  rw [EncodeToString_length, Read_length]

theorem take_drop_lowerHex (l : List Nat) (lo hi : Nat) (c : Char)
    (hc : c ∈ (slice (EncodeToString l) lo hi).data) : isLowerHex c = true :=
  EncodeToString_lowerHex l c (List.mem_of_mem_take (List.mem_of_mem_drop hc))

theorem slice_length (l : List Nat) (lo hi : Nat) (hhi : hi ≤ 2 * l.length) :
    (slice (EncodeToString l) lo hi).data.length = hi - lo := by
  have := EncodeToString_length l
  simp only [slice, List.length_drop, List.length_take]
  omega

theorem GenerateTempPassword_data (src : RandSource) :
    (GenerateTempPassword src).1.data =
      'Z' :: (slice (EncodeToString (src.Read 16).1) 0 8).data ++
        '#' :: (slice (EncodeToString (src.Read 16).1) 8 16).data ++
          '$' :: 'G' :: (slice (EncodeToString (src.Read 16).1) 16 24).data := by
  simp [GenerateTempPassword, String.data_append]

theorem slices_concat (s : String) :
    (slice s 0 8).data ++ (slice s 8 16).data ++ (slice s 16 24).data = s.data.take 24 := by
  simp only [slice, List.drop_zero]
  have h1 : s.data.take 8 = (s.data.take 24).take 8 := by simp [List.take_take]
  have h2 : (s.data.take 16).drop 8 = ((s.data.take 24).drop 8).take 8 := by
    rw [List.take_drop]; simp [List.take_take]
  have h3 : (s.data.take 24).drop 16 = ((s.data.take 24).drop 8).drop 8 := by
    simp [List.drop_drop]
  rw [h1, h2, h3, List.append_assoc, List.take_append_drop, List.take_append_drop]

theorem tempUsername_inDomain_iff (src : RandSource) (base : String) :
    (∀ c ∈ (GenerateTempUsername src base).1.data, inDomain c = true) ↔
      ∀ c ∈ base.data, inDomain c = true := by
  rw [GenerateTempUsername_data]
  constructor
  · intro h c hc
    exact h c (List.mem_append_left _ (List.mem_append_right _ hc))
  · intro h c hc
    rcases List.mem_append.1 hc with h1 | h1
    · rcases List.mem_append.1 h1 with h2 | h2
      · have key : ∀ d ∈ "zgate_".data, inDomain d = true := by decide
        exact key c h2
      · exact h c h2
    · rcases List.mem_cons.1 h1 with h2 | h2
      · subst h2; decide
      · exact isLowerHex_inDomain c (EncodeToString_lowerHex _ c h2)

theorem GenerateTempPassword_plain (src : RandSource) :
    plainName (GenerateTempPassword src).1 = true := by
  have x1 := fun c => take_drop_lowerHex (src.Read 16).1 0 8 c
  have x2 := fun c => take_drop_lowerHex (src.Read 16).1 8 16 c
  have x3 := fun c => take_drop_lowerHex (src.Read 16).1 16 24 c
  rw [plainName, List.all_eq_true]
  intro c hc
  rw [GenerateTempPassword_data] at hc
  simp only [List.mem_cons, List.mem_append] at hc
  rcases hc with ((rfl | h) | rfl | h) | rfl | rfl | h
  · decide
  · exact isLowerHex_inDomain c (x1 c h)
  · decide
  · exact isLowerHex_inDomain c (x2 c h)
  · decide
  · decide
  · exact isLowerHex_inDomain c (x3 c h)

/-! ## Claims C2 to C5: the generated credentials -/

/-- C2 (as stated, refuted): for the caller username `john.doe@ex.com` the temp username is
`zgate_john.doe_00000000` (random bytes all zero), which contains `.`, a character outside
`[A-Za-z0-9_#$]`; so it is not true that every caller username yields a temp username
inside that domain. -/
theorem C2_counterexample :
    ¬ (∀ (src : RandSource) (username : String),
        ∀ c ∈ (GenerateTempUsername src (extractUsername username)).1.data, inDomain c = true) := by
  intro h
  have h1 := h ⟨fun _ => 0⟩ "john.doe@ex.com" '.' (by decide)
  exact absurd h1 (by decide)

/-- C2 (amended): for every caller username and every outcome of the random source, the
temp username lies in `[A-Za-z0-9_#$]` exactly when the part of the caller username before
its first `@` does; the fixed prefix, the separator and the hex suffix always do. -/
theorem C2_temp_username_domain (src : RandSource) (username : String) :
    (∀ c ∈ (GenerateTempUsername src (extractUsername username)).1.data, inDomain c = true) ↔
      ∀ c ∈ username.data.takeWhile (fun c => c != '@'), inDomain c = true := by
  rw [tempUsername_inDomain_iff, extractUsername_data]

/-- C3: for every caller username `u` and every outcome of the random source, the temp
username is `"zgate_" ++ base ++ "_" ++ hex(r)`, where `base` is the part of `u` before its
first `@` (all of `u` when it has none), `r` is the 4 bytes read and `hex(r)` is 8
characters of `[0-9a-f]`; for `alice@ex.com` it matches `^zgate_alice_[0-9a-f]{8}$`. -/
theorem C3_temp_username_format (src : RandSource) (u : String) :
    (GenerateTempUsername src (extractUsername u)).1 =
        "zgate_" ++ extractUsername u ++ "_" ++ EncodeToString (src.Read 4).1
      ∧ '@' ∉ (extractUsername u).data
      ∧ (u = extractUsername u ∨ ∃ rest, u.data = (extractUsername u).data ++ '@' :: rest)
      ∧ (src.Read 4).1.length = 4
      ∧ (EncodeToString (src.Read 4).1).length = 8
      ∧ (∀ c ∈ (EncodeToString (src.Read 4).1).data, isLowerHex c = true)
      ∧ matchPat (usernamePattern "alice")
          (GenerateTempUsername src (extractUsername "alice@ex.com")).1.data = true := by
  refine ⟨rfl, extractUsername_no_at u, extractUsername_prefix u, Read_length src 4,
    suffix_length src, fun c hc => EncodeToString_lowerHex _ c hc, ?_⟩
  have hbase : extractUsername "alice@ex.com" = "alice" := by decide
  have hlit : ("zgate_" ++ "alice" ++ "_" : String).data = "zgate_alice_".data := by decide
  rw [hbase, GenerateTempUsername_data, usernamePattern, hlit]
  have hpre : "zgate_".data ++ "alice".data ++ '_' :: (EncodeToString (src.Read 4).1).data =
      "zgate_alice_".data ++ ((EncodeToString (src.Read 4).1).data ++ []) := by
    rw [List.append_nil]; rfl
  rw [hpre, matchPat_lits, ← suffix_length src,
    ← List.append_nil (List.replicate _ Pat.hex),
    matchPat_hexes _ (fun c hc => EncodeToString_lowerHex _ c hc)]
  rfl

/-- C4: for every outcome of the random source, `GenerateTempPassword` returns a string of
28 characters matching `^Z[0-9a-f]{8}#[0-9a-f]{8}\$G[0-9a-f]{8}$`, whose three groups of 8
are, in order, the first 24 hex characters of the encoding of the 16 bytes read, and all of
whose characters lie in `[A-Za-z0-9_#$]`. -/
theorem C4_temp_password_format (src : RandSource) :
    (GenerateTempPassword src).1.length = 28
      ∧ matchPat passwordPattern (GenerateTempPassword src).1.data = true
      ∧ (∃ g1 g2 g3 : List Char,
          (GenerateTempPassword src).1.data = 'Z' :: g1 ++ '#' :: g2 ++ '$' :: 'G' :: g3
            ∧ g1.length = 8 ∧ g2.length = 8 ∧ g3.length = 8
            ∧ g1 ++ g2 ++ g3 = (EncodeToString (src.Read 16).1).data.take 24)
      ∧ (src.Read 16).1.length = 16
      ∧ (∀ c ∈ (GenerateTempPassword src).1.data, inDomain c = true) := by
  have hlen : 2 * (src.Read 16).1.length = 32 := by rw [Read_length]
  have l1 := slice_length (src.Read 16).1 0 8 (by omega)
  have l2 := slice_length (src.Read 16).1 8 16 (by omega)
  have l3 := slice_length (src.Read 16).1 16 24 (by omega)
  have x1 := fun c => take_drop_lowerHex (src.Read 16).1 0 8 c
  have x2 := fun c => take_drop_lowerHex (src.Read 16).1 8 16 c
  have x3 := fun c => take_drop_lowerHex (src.Read 16).1 16 24 c
  refine ⟨?_, ?_, ⟨_, _, _, GenerateTempPassword_data src, l1, l2, l3, slices_concat _⟩,
    Read_length src 16, ?_⟩
  · show (GenerateTempPassword src).1.data.length = 28
    rw [GenerateTempPassword_data]
    simp only [List.length_cons, List.length_append, l1, l2, l3]
  · rw [GenerateTempPassword_data]
    exact matchPat_password _ _ _ l1 l2 l3 x1 x2 x3
  · intro c hc
    rw [GenerateTempPassword_data] at hc
    simp only [List.mem_cons, List.mem_append] at hc
    rcases hc with ((rfl | h) | rfl | h) | rfl | rfl | h
    · decide
    · exact isLowerHex_inDomain c (x1 c h)
    · decide
    · exact isLowerHex_inDomain c (x2 c h)
    · decide
    · decide
    · exact isLowerHex_inDomain c (x3 c h)

/-- C5 (the code at the failing inputs): when the random bytes are all `0x00` the password
is `Z00000000#00000000$G00000000`, which has no lower-case letter; when they are all `0xaa`
it is `Zaaaaaaaa#aaaaaaaa$Gaaaaaaaa`, which has no digit. Neither satisfies the medium
policy that the comment in `GenerateTempPassword` says the format satisfies. -/
theorem C5_password_fails_medium_policy :
    (GenerateTempPassword ⟨fun _ => 0⟩).1 = "Z00000000#00000000$G00000000"
      ∧ (GenerateTempPassword ⟨fun _ => 0⟩).1.data.any Char.isLower = false
      ∧ mediumPolicy (GenerateTempPassword ⟨fun _ => 0⟩).1 = false
      ∧ (GenerateTempPassword ⟨fun _ => 170⟩).1 = "Zaaaaaaaa#aaaaaaaa$Gaaaaaaaa"
      ∧ (GenerateTempPassword ⟨fun _ => 170⟩).1.data.any Char.isDigit = false
      ∧ mediumPolicy (GenerateTempPassword ⟨fun _ => 170⟩).1 = false := by
  decide


/-! ## The policy engine -/

theorem ListDatabases_mem (s : Store) (db : Database) :
    (∃ dbs, s.ListDatabases = .ok dbs ∧ db ∈ dbs) ↔ db ∈ s.databases := by
  simp only [Store.ListDatabases, Except.ok.injEq, exists_eq_left']
  exact (List.perm_insertionSort _ _).mem_iff

theorem find?_some_iff_any (perms : List Permission) (D : String) :
    (∃ p, perms.find? (fun p => p.Database == D) = some p) ↔
      perms.any (fun p => p.Database == D) = true := by
  induction perms with
  | nil => simp
  | cons q qs ih =>
    by_cases hq : q.Database = D
    · simp [List.find?_cons, hq]
    · simp only [List.find?_cons, List.any_cons]
      have : (q.Database == D) = false := by simpa using hq
      rw [this]
      simpa using ih

/-- The names listed by `GetAllowedDatabases` are the catalog names the user can access. -/
theorem GetAllowedDatabases_name_iff (s : Store) (claims : Claims) (D : String) :
    (∃ e ∈ GetAllowedDatabases s claims, e.Name = D) ↔
      (CanAccess s claims D = true ∧ ∃ db ∈ s.databases, db.Name = D) := by
  unfold GetAllowedDatabases CanAccess
  cases hperms : getFreshPermissions s claims.Username with
  | error e => simp
  | ok perms =>
    simp only [Store.ListDatabases, List.mem_filterMap]
    constructor
    · rintro ⟨e, ⟨db, hdb, hsome⟩, hname⟩
      have hmem : db ∈ s.databases := (List.perm_insertionSort _ _).mem_iff.1 hdb
      cases hfind : perms.find? (fun p => p.Database == db.Name) with
      | none => rw [hfind] at hsome; cases hsome
      | some up =>
        rw [hfind] at hsome
        simp only [Option.some.injEq] at hsome
        subst hsome
        simp only at hname
        subst hname
        exact ⟨(find?_some_iff_any perms db.Name).1 ⟨up, hfind⟩, db, hmem, rfl⟩
    · rintro ⟨hany, db, hmem, hname⟩
      subst hname
      obtain ⟨up, hup⟩ := (find?_some_iff_any perms db.Name).2 hany
      refine ⟨{ Name := db.Name, Type_ := db.Type_, Permissions := up.Level,
                Status := "online", Description := db.Description },
        ⟨db, (List.perm_insertionSort _ _).mem_iff.2 hmem, ?_⟩, rfl⟩
      rw [hup]

/-! ## Claim C1 -/

/-- C1 (the code at the failing input): in a store that satisfies every constraint of
the schema, where `alice@ex.com` holds a custom permission on `ghostdb` and the catalog has
no database of that name, `CanAccess` is true for `ghostdb` while `GetAllowedDatabases`
lists only `salesdb`: no entry of it is named `ghostdb`. -/
theorem C1_dangling_custom_permission :
    danglingStore.schemaOK = true
      ∧ CanAccess danglingStore aliceClaims "ghostdb" = true
      ∧ (GetAllowedDatabases danglingStore aliceClaims).map (fun e => e.Name) = ["salesdb"]
      ∧ ¬ ∃ e ∈ GetAllowedDatabases danglingStore aliceClaims, e.Name = "ghostdb" := by
  refine ⟨by decide, by decide, by decide, ?_⟩
  rw [GetAllowedDatabases_name_iff]
  rintro ⟨_, db, hdb, hname⟩
  have key : ∀ d ∈ danglingStore.databases, d.Name ≠ "ghostdb" := by decide
  exact key db hdb hname


/-! ## The session registry -/

theorem mapGet_mapDelete_self (m : List (String × Session)) (key : String) :
    mapGet (mapDelete m key) key = none := by
  induction m with
  | nil => rfl
  | cons e es ih =>
    obtain ⟨k, v⟩ := e
    by_cases hk : k = key
    · simpa [mapDelete, mapGet, hk] using ih
    · have hne : (key == k) = false := by simpa using fun h => hk h.symm
      simpa [mapDelete, mapGet, hk, List.lookup, hne] using ih

theorem mapGet_mapDelete_other (m : List (String × Session)) (key other : String)
    (h : other ≠ key) : mapGet (mapDelete m key) other = mapGet m other := by
  induction m with
  | nil => rfl
  | cons e es ih =>
    obtain ⟨k, v⟩ := e
    by_cases hk : k = key
    · subst hk
      have hne : (other == k) = false := by simpa using h
      simpa [mapDelete, mapGet, List.lookup, hne] using ih
    · by_cases ho : other = k
      · simp [mapDelete, mapGet, hk, List.lookup, ho]
      · have hne : (other == k) = false := by simpa using ho
        simpa [mapDelete, mapGet, hk, List.lookup, hne] using ih

/-! ## Claim C7 -/

/-- C7: when the registry already maps `token` to a session `s`, `StartSession` returns
`s` with no error for any claims and database name, and leaves the registry and everything
outside it as they were: no event is recorded (no store lookup, no driver construction, no
temp-user creation), no backend changes and no random byte is consumed. -/
theorem C7_existing_session_returned (m : Manager) (w : World) (token : String)
    (claims : Claims) (databaseName : String) (s : Session)
    (h : mapGet m.sessions token = some s) :
    m.StartSession w token claims databaseName = (.ok s, m, w) := by
  simp [Manager.StartSession, h]

/-- Witness of C7: a registry holding alice's session under `tok`, asked again for
another database. -/
theorem C7_existing_session_returned_witness :
    mapGet (Manager.mk [("tok", aliceSession)]).sessions "tok" = some aliceSession ∧
      (Manager.mk [("tok", aliceSession)]).StartSession quietWorld "tok" aliceClaims "hrdb" =
        (.ok aliceSession, Manager.mk [("tok", aliceSession)], quietWorld) :=
  ⟨by decide,
    C7_existing_session_returned (Manager.mk [("tok", aliceSession)]) quietWorld "tok"
      aliceClaims "hrdb" aliceSession (by decide)⟩


/-! ## The drivers: what each call records and what it leaves alone -/

theorem newEvents_append (w w' : World) (evs : List Event) (h : w'.trace = w.trace ++ evs) :
    newEvents w w' = evs := by
  simp [newEvents, h]

theorem ExecContext_trace (d : Driver) (w : World) (stmt : Stmt) :
    (d.ExecContext w stmt).2.trace = w.trace ++ [.exec d.db stmt (d.ExecContext w stmt).1] := by
  by_cases f : w.faults 0 = true <;>
    simp [Driver.ExecContext, World.fault, World.emit, f]

theorem ExecContext_store (d : Driver) (w : World) (stmt : Stmt) :
    (d.ExecContext w stmt).2.store = w.store := by
  by_cases f : w.faults 0 = true <;>
    simp [Driver.ExecContext, World.fault, World.emit, f]

theorem ExecContext_backends (d : Driver) (w : World) (stmt : Stmt) :
    (d.ExecContext w stmt).2.backends =
      if (d.ExecContext w stmt).1 = true then
        fun a => if a = d.database.BackendAddr then stmt.apply (w.backends d.database.BackendAddr)
          else w.backends a
      else w.backends := by
  by_cases f : w.faults 0 = true <;>
    simp [Driver.ExecContext, World.fault, World.emit, f]

theorem ExecContext_backends_of_neutral (d : Driver) (w : World) (stmt : Stmt)
    (h : ∀ b, stmt.apply b = b) : (d.ExecContext w stmt).2.backends = w.backends := by
  rw [ExecContext_backends]
  split
  · funext a
    by_cases ha : a = d.database.BackendAddr
    · simp [ha, h]
    · simp [ha]
  · rfl

/-- A statement that is a grant: it creates and drops nothing, and it leaves the accounts
when the name it is for is plain. -/
theorem mysqlGrantSQL_neutral (perm username : String) (stmt : Stmt)
    (h : mysqlGrantSQL perm username = some stmt) :
    stmt.creates = none ∧ stmt.drops = none ∧
      (plainName username = true → ∀ b, stmt.apply b = b) := by
  unfold mysqlGrantSQL at h
  split_ifs at h <;> simp only [Option.some.injEq] at h <;> subst h <;>
    exact ⟨rfl, rfl, fun hp b => by simp [Stmt.apply, Stmt.plain, Stmt.effect, hp]⟩

theorem mssqlGrantSQL_neutral (perm username : String) (stmt : Stmt)
    (h : mssqlGrantSQL perm username = some stmt) :
    stmt.creates = none ∧ stmt.drops = none ∧
      (plainName username = true → ∀ b, stmt.apply b = b) := by
  unfold mssqlGrantSQL at h
  split_ifs at h <;> simp only [Option.some.injEq] at h <;> subst h <;>
    exact ⟨rfl, rfl, fun hp b => by simp [Stmt.apply, Stmt.plain, Stmt.effect, hp]⟩

theorem grantLoop_spec (d : Driver) (grantSQL : String → String → Option Stmt)
    (hg : ∀ perm username stmt, grantSQL perm username = some stmt →
      stmt.creates = none ∧ stmt.drops = none ∧
        (plainName username = true → ∀ b, stmt.apply b = b))
    (username : String) (permissions : List String) (w : World) :
    (grantLoop d grantSQL username permissions w).store = w.store
      ∧ (plainName username = true →
          (grantLoop d grantSQL username permissions w).backends = w.backends)
      ∧ ∃ execs, (grantLoop d grantSQL username permissions w).trace = w.trace ++ execs
          ∧ ∀ e ∈ execs, ∃ stmt ok, e = .exec d.db stmt ok ∧ stmt.creates = none
              ∧ stmt.drops = none := by
  induction permissions generalizing w with
  | nil => exact ⟨rfl, fun _ => rfl, [], by simp [grantLoop], by simp⟩
  | cons perm rest ih =>
    cases hs : grantSQL perm username with
    | none =>
      simp only [grantLoop, hs]
      exact ih w
    | some stmt =>
      simp only [grantLoop, hs]
      obtain ⟨hc, hd, ha⟩ := hg perm username stmt hs
      obtain ⟨h1, h2, execs, h3, h4⟩ := ih (d.ExecContext w stmt).2
      refine ⟨by rw [h1, ExecContext_store],
        fun hp => by rw [h2 hp, ExecContext_backends_of_neutral _ _ _ (ha hp)],
        .exec d.db stmt (d.ExecContext w stmt).1 :: execs, ?_, ?_⟩
      · rw [h3, ExecContext_trace]; simp
      · intro e he
        rcases List.mem_cons.1 he with rfl | he
        · exact ⟨stmt, _, rfl, hc, hd⟩
        · exact h4 e he

theorem backendsAfter_nil (bk : String → Backend) (addr : String) :
    backendsAfter bk addr [] = bk := by
  funext a
  by_cases ha : a = addr <;> simp [backendsAfter, applyAll, ha]

theorem backendsAfter_append (bk : String → Backend) (addr : String) (l1 l2 : List Stmt) :
    backendsAfter (backendsAfter bk addr l1) addr l2 = backendsAfter bk addr (l1 ++ l2) := by
  funext a
  by_cases ha : a = addr <;> simp [backendsAfter, applyAll, ha]

theorem backendsAfter_neutral (bk : String → Backend) (addr : String) (stmt : Stmt)
    (h : ∀ b, stmt.apply b = b) : backendsAfter bk addr [stmt] = bk := by
  funext a
  by_cases ha : a = addr <;> simp [backendsAfter, applyAll, ha, h]

@[simp]
theorem emit_trace (w : World) (e : Event) : (w.emit e).trace = w.trace ++ [e] := rfl
@[simp]
theorem emit_faults (w : World) (e : Event) : (w.emit e).faults = w.faults := rfl
@[simp]
theorem emit_store (w : World) (e : Event) : (w.emit e).store = w.store := rfl
@[simp]
theorem emit_backends (w : World) (e : Event) : (w.emit e).backends = w.backends := rfl

@[simp]
theorem ExecContext_fst (d : Driver) (w : World) (stmt : Stmt) :
    (d.ExecContext w stmt).1 = !(w.faults 0) := by
  by_cases f : w.faults 0 = true <;> simp [Driver.ExecContext, World.fault, f]

@[simp]
theorem ExecContext_faults (d : Driver) (w : World) (stmt : Stmt) :
    (d.ExecContext w stmt).2.faults = fun i => w.faults (i + 1) := by
  by_cases f : w.faults 0 = true <;> simp [Driver.ExecContext, World.fault, World.emit, f]

@[simp]
theorem ExecContext_trace' (d : Driver) (w : World) (stmt : Stmt) :
    (d.ExecContext w stmt).2.trace = w.trace ++ [.exec d.db stmt (!(w.faults 0))] := by
  by_cases f : w.faults 0 = true <;> simp [Driver.ExecContext, World.fault, World.emit, f]

@[simp]
theorem ExecContext_store' (d : Driver) (w : World) (stmt : Stmt) :
    (d.ExecContext w stmt).2.store = w.store := ExecContext_store d w stmt

@[simp]
theorem ExecContext_backends' (d : Driver) (w : World) (stmt : Stmt) :
    (d.ExecContext w stmt).2.backends =
      if w.faults 0 = true then w.backends
      else backendsAfter w.backends d.database.BackendAddr [stmt] := by
  by_cases f : w.faults 0 = true
  · simp [Driver.ExecContext, World.fault, World.emit, f]
  · simp only [Driver.ExecContext, World.fault, World.emit, f]
    simp only [Bool.false_eq_true, ↓reduceIte]
    funext a
    by_cases ha : a = d.database.BackendAddr <;> simp [backendsAfter, applyAll, ha]

theorem Close_spec (d : Driver) (w : World) :
    (d.Close w).2.store = w.store ∧ (d.Close w).2.backends = w.backends
      ∧ ∃ ok, (d.Close w).2.trace = w.trace ++ [.close d.db ok] := by
  refine ⟨rfl, rfl, !(w.faults 0), ?_⟩
  simp [Driver.Close, World.fault, World.emit]

theorem DeleteTempUser_spec (d : Driver) (w : World) (u : String) :
    (d.DeleteTempUser w u).2.store = w.store
      ∧ ∃ execs, (d.DeleteTempUser w u).2.trace = w.trace ++ .deleteTempUser d.db u :: execs
          ∧ (∀ e ∈ execs, ∃ stmt ok, e = .exec d.db stmt ok ∧ stmt.creates = none)
          ∧ ((∀ stmt, Event.exec d.db stmt false ∈ execs → stmt.drops = none) →
              (d.DeleteTempUser w u).2.backends =
                backendsAfter w.backends d.database.BackendAddr (dropStmts d.kind u)) := by
  cases hk : d.kind
  · by_cases f0 : w.faults 0 = true
    · refine ⟨?_, [.exec d.db (.mysqlDropUser u) false], ?_, ?_, ?_⟩
      · simp [Driver.DeleteTempUser, hk, mysqlDeleteTempUser, f0]
      · simp [Driver.DeleteTempUser, hk, mysqlDeleteTempUser, f0]
      · simp [Stmt.creates]
      · intro h
        have := h (.mysqlDropUser u) (by simp)
        simp [Stmt.drops] at this
    · refine ⟨?_, [.exec d.db (.mysqlDropUser u) true, .exec d.db .mysqlFlush (!(w.faults 1))], ?_, ?_, ?_⟩
      · simp [Driver.DeleteTempUser, hk, mysqlDeleteTempUser, f0]
      · simp [Driver.DeleteTempUser, hk, mysqlDeleteTempUser, f0]
      · intro e he
        simp only [List.mem_cons, List.mem_singleton, List.not_mem_nil, or_false] at he
        rcases he with rfl | rfl <;> exact ⟨_, _, rfl, rfl⟩
      · intro _
        have hn := backendsAfter_neutral (backendsAfter w.backends d.database.BackendAddr [.mysqlDropUser u]) d.database.BackendAddr .mysqlFlush (fun _ => rfl)
        by_cases f1 : w.faults 1 = true <;>
          simp [Driver.DeleteTempUser, hk, mysqlDeleteTempUser, f0, f1, dropStmts, hn]
  · refine ⟨?_, [.exec d.db (.mssqlDropUser u) (!(w.faults 0)), .exec d.db (.mssqlDropLogin u) (!(w.faults 1))], ?_, ?_, ?_⟩
    · by_cases f1 : w.faults 1 = true <;> simp [Driver.DeleteTempUser, hk, mssqlDeleteTempUser, f1]
    · by_cases f1 : w.faults 1 = true <;> simp [Driver.DeleteTempUser, hk, mssqlDeleteTempUser, f1]
    · intro e he
      simp only [List.mem_cons, List.mem_singleton, List.not_mem_nil, or_false] at he
      rcases he with rfl | rfl <;> exact ⟨_, _, rfl, rfl⟩
    · intro h
      have h0 : w.faults 0 = false := by
        by_contra hf
        have := h (.mssqlDropUser u) (by simp [hf])
        simp [Stmt.drops] at this
      have h1 : w.faults 1 = false := by
        by_contra hf
        have := h (.mssqlDropLogin u) (by simp [hf])
        simp [Stmt.drops] at this
      simp [Driver.DeleteTempUser, hk, mssqlDeleteTempUser, h0, h1, dropStmts, backendsAfter_append]

/-! ## Checking a list of events -/

theorem createdAccountsDropped_append (evs rest : List Event)
    (h : ∀ hh stmt u, Event.exec hh stmt true ∈ evs → stmt.creates = some u →
      Event.deleteTempUser hh u ∈ rest) :
    createdAccountsDropped (evs ++ rest) = createdAccountsDropped rest := by
  induction evs with
  | nil => rfl
  | cons e evs ih =>
    have ih' := ih (fun hh stmt u hm hc => h hh stmt u (List.mem_cons_of_mem _ hm) hc)
    cases e with
    | exec hh stmt ok =>
      cases ok with
      | false => simpa [createdAccountsDropped] using ih'
      | true =>
        simp only [List.cons_append, createdAccountsDropped]
        cases hc : stmt.creates with
        | none => simp [ih']
        | some u =>
          have hm := h hh stmt u (List.mem_cons_self _ _) hc
          have : (evs ++ rest).any (fun e => e == Event.deleteTempUser hh u) = true := by
            rw [List.any_eq_true]
            exact ⟨_, List.mem_append_right _ hm, by simp⟩
          simp [this, ih']
    | _ => simpa [createdAccountsDropped] using ih'

theorem driversClosed_append (evs rest : List Event)
    (h : ∀ n hh, Event.newManager n (some hh) ∉ evs) :
    driversClosed (evs ++ rest) = driversClosed rest := by
  induction evs with
  | nil => rfl
  | cons e evs ih =>
    have ih' := ih (fun n hh hm => h n hh (List.mem_cons_of_mem _ hm))
    cases e with
    | newManager n o =>
      cases o with
      | none => simpa [driversClosed] using ih'
      | some hh => exact absurd (List.mem_cons_self _ _) (h n hh)
    | _ => simpa [driversClosed] using ih'

theorem createCalls_append (a b : List Event) :
    createCalls (a ++ b) = createCalls a ++ createCalls b := by
  simp [createCalls, List.filterMap_append]

theorem createCalls_execs (h : Nat) (evs : List Event)
    (hall : ∀ e ∈ evs, (∃ stmt ok, e = Event.exec h stmt ok) ∨ ∃ hh u, e = Event.deleteTempUser hh u) :
    createCalls evs = [] := by
  induction evs with
  | nil => rfl
  | cons e evs ih =>
    have ih' := ih (fun e he => hall e (List.mem_cons_of_mem _ he))
    rcases hall e (List.mem_cons_self _ _) with ⟨stmt, ok, rfl⟩ | ⟨hh, u, rfl⟩ <;>
      simpa [createCalls, Event.createLevels] using ih'

theorem CreateTempUser_spec (d : Driver) (w : World) (u p : String) (perms : List String) :
    (d.CreateTempUser w u p perms).2.store = w.store
      ∧ ∃ evs, (d.CreateTempUser w u p perms).2.trace =
            w.trace ++ .createTempUser d.db u p perms :: evs
          ∧ (∀ e ∈ evs, (∃ stmt ok, e = Event.exec d.db stmt ok) ∨
              ∃ hh v, e = Event.deleteTempUser hh v)
          ∧ (∀ rest, ((∃ e, (d.CreateTempUser w u p perms).1 = .error e) ∨
                Event.deleteTempUser d.db u ∈ rest) →
              createdAccountsDropped (evs ++ rest) = createdAccountsDropped rest)
          ∧ ((d.CreateTempUser w u p perms).1 = .ok () → plainName u = true →
              (d.CreateTempUser w u p perms).2.backends =
                backendsAfter w.backends d.database.BackendAddr (createStmts d.kind u p)) := by
  cases hk : d.kind
  · by_cases f0 : w.faults 0 = true
    · refine ⟨?_, [.exec d.db (.mysqlCreateUser u p) false], ?_, ?_, ?_, ?_⟩
      · simp [Driver.CreateTempUser, hk, mysqlCreateTempUser, f0]
      · simp [Driver.CreateTempUser, hk, mysqlCreateTempUser, f0]
      · intro e he
        simp only [List.mem_singleton] at he
        exact Or.inl ⟨_, _, he⟩
      · intro rest _
        simp [createdAccountsDropped]
      · simp [Driver.CreateTempUser, hk, mysqlCreateTempUser, f0]
    · obtain ⟨g1, g2, execs, g3, g4⟩ := grantLoop_spec d mysqlGrantSQL mysqlGrantSQL_neutral u perms
        (d.ExecContext (w.emit (.createTempUser d.db u p perms)) (.mysqlCreateUser u p)).2
      refine ⟨?_, .exec d.db (.mysqlCreateUser u p) true :: (execs ++
        [.exec d.db .mysqlFlush (!((grantLoop d mysqlGrantSQL u perms
          (d.ExecContext (w.emit (.createTempUser d.db u p perms))
            (.mysqlCreateUser u p)).2).faults 0))]), ?_, ?_, ?_, ?_⟩
      · simp [Driver.CreateTempUser, hk, mysqlCreateTempUser, f0, g1]
      · simp [Driver.CreateTempUser, hk, mysqlCreateTempUser, f0, g3]
      · intro e he
        simp only [List.mem_cons, List.mem_append, List.mem_singleton, List.not_mem_nil,
          or_false] at he
        rcases he with rfl | he | rfl
        · exact Or.inl ⟨_, _, rfl⟩
        · obtain ⟨stmt, ok, rfl, _, _⟩ := g4 e he
          exact Or.inl ⟨_, _, rfl⟩
        · exact Or.inl ⟨_, _, rfl⟩
      · intro rest hrest
        have hdel : Event.deleteTempUser d.db u ∈ rest := by
          rcases hrest with ⟨e, he⟩ | h
          · simp [Driver.CreateTempUser, hk, mysqlCreateTempUser, f0] at he
          · exact h
        apply createdAccountsDropped_append
        intro hh stmt v hm hc
        simp only [List.mem_cons, List.mem_append, List.mem_singleton, List.not_mem_nil,
          or_false] at hm
        rcases hm with hm | hm | hm
        · simp only [Event.exec.injEq] at hm
          obtain ⟨rfl, rfl, _⟩ := hm
          simp only [Stmt.creates, Option.some.injEq] at hc
          subst hc
          exact hdel
        · obtain ⟨stmt', ok, he, hc', _⟩ := g4 _ hm
          simp only [Event.exec.injEq] at he
          obtain ⟨_, rfl, _⟩ := he
          rw [hc'] at hc
          cases hc
        · simp only [Event.exec.injEq] at hm
          obtain ⟨_, rfl, _⟩ := hm
          cases hc
      · intro _ hpu
        have hn := backendsAfter_neutral
          (backendsAfter w.backends d.database.BackendAddr [.mysqlCreateUser u p])
          d.database.BackendAddr .mysqlFlush (fun _ => rfl)
        simp only [Driver.CreateTempUser, hk, mysqlCreateTempUser, ExecContext_fst,
          emit_faults, f0, createStmts, Bool.not_false, Bool.true_eq_false, Bool.not_true,
          Bool.false_eq_true, ↓reduceIte, ExecContext_backends']
        rw [g2 hpu]
        have f0' : w.faults 0 = false := by simpa using f0
        simp [f0', hn]
  · by_cases f0 : w.faults 0 = true
    · refine ⟨?_, [.exec d.db (.mssqlCreateLogin u p) false], ?_, ?_, ?_, ?_⟩
      · simp [Driver.CreateTempUser, hk, mssqlCreateTempUser, f0]
      · simp [Driver.CreateTempUser, hk, mssqlCreateTempUser, f0]
      · intro e he
        simp only [List.mem_singleton] at he
        exact Or.inl ⟨_, _, he⟩
      · intro rest _
        simp [createdAccountsDropped]
      · simp [Driver.CreateTempUser, hk, mssqlCreateTempUser, f0]
    · have f0' : w.faults 0 = false := by simpa using f0
      by_cases f1 : w.faults 1 = true
      · refine ⟨?_, [.exec d.db (.mssqlCreateLogin u p) true, .exec d.db (.mssqlCreateUser u) false,
          .deleteTempUser d.db u, .exec d.db (.mssqlDropUser u) (!(w.faults 2)),
          .exec d.db (.mssqlDropLogin u) (!(w.faults 3))], ?_, ?_, ?_, ?_⟩
        · by_cases f3 : w.faults 3 = true <;>
            simp [Driver.CreateTempUser, hk, mssqlCreateTempUser, mssqlDeleteTempUser, f0', f1, f3]
        · by_cases f3 : w.faults 3 = true <;>
            simp [Driver.CreateTempUser, hk, mssqlCreateTempUser, mssqlDeleteTempUser, f0', f1, f3]
        · intro e he
          simp only [List.mem_cons, List.mem_singleton, List.not_mem_nil, or_false] at he
          rcases he with rfl | rfl | rfl | rfl | rfl
          · exact Or.inl ⟨_, _, rfl⟩
          · exact Or.inl ⟨_, _, rfl⟩
          · exact Or.inr ⟨_, _, rfl⟩
          · exact Or.inl ⟨_, _, rfl⟩
          · exact Or.inl ⟨_, _, rfl⟩
        · intro rest _
          have htail := createdAccountsDropped_append
            [.exec d.db (.mssqlDropUser u) (!(w.faults 2)),
              .exec d.db (.mssqlDropLogin u) (!(w.faults 3))] rest (by
              intro hh stmt v hm hc
              simp only [List.mem_cons, List.mem_singleton, List.not_mem_nil, or_false,
                Event.exec.injEq] at hm
              rcases hm with ⟨_, rfl, _⟩ | ⟨_, rfl, _⟩ <;> cases hc)
          simp only [List.cons_append, List.nil_append] at htail
          simp [createdAccountsDropped, Stmt.creates, htail]
        · simp [Driver.CreateTempUser, hk, mssqlCreateTempUser, f0', f1]
      · have f1' : w.faults 1 = false := by simpa using f1
        obtain ⟨g1, g2, execs, g3, g4⟩ := grantLoop_spec d mssqlGrantSQL mssqlGrantSQL_neutral u
          perms (d.ExecContext (d.ExecContext (w.emit (.createTempUser d.db u p perms))
            (.mssqlCreateLogin u p)).2 (.mssqlCreateUser u)).2
        refine ⟨?_, .exec d.db (.mssqlCreateLogin u p) true ::
          .exec d.db (.mssqlCreateUser u) true :: execs, ?_, ?_, ?_, ?_⟩
        · simp [Driver.CreateTempUser, hk, mssqlCreateTempUser, f0', f1', g1]
        · simp [Driver.CreateTempUser, hk, mssqlCreateTempUser, f0', f1', g3]
        · intro e he
          simp only [List.mem_cons] at he
          rcases he with rfl | rfl | he
          · exact Or.inl ⟨_, _, rfl⟩
          · exact Or.inl ⟨_, _, rfl⟩
          · obtain ⟨stmt, ok, rfl, _, _⟩ := g4 e he
            exact Or.inl ⟨_, _, rfl⟩
        · intro rest hrest
          have hdel : Event.deleteTempUser d.db u ∈ rest := by
            rcases hrest with ⟨e, he⟩ | h
            · simp [Driver.CreateTempUser, hk, mssqlCreateTempUser, f0', f1'] at he
            · exact h
          apply createdAccountsDropped_append
          intro hh stmt v hm hc
          simp only [List.mem_cons] at hm
          rcases hm with hm | hm | hm
          · simp only [Event.exec.injEq] at hm
            obtain ⟨rfl, rfl, _⟩ := hm
            simp only [Stmt.creates, Option.some.injEq] at hc
            subst hc
            exact hdel
          · simp only [Event.exec.injEq] at hm
            obtain ⟨rfl, rfl, _⟩ := hm
            simp only [Stmt.creates, Option.some.injEq] at hc
            subst hc
            exact hdel
          · obtain ⟨stmt', ok, he, hc', _⟩ := g4 _ hm
            simp only [Event.exec.injEq] at he
            obtain ⟨_, rfl, _⟩ := he
            rw [hc'] at hc
            cases hc
        · intro _ hpu
          simp only [Driver.CreateTempUser, hk, mssqlCreateTempUser, ExecContext_fst,
            emit_faults, f0', f1', createStmts, Bool.not_false, Bool.true_eq_false, Bool.not_true,
            Bool.false_eq_true, ↓reduceIte, ExecContext_faults]
          rw [g2 hpu]
          simp [f0', f1', backendsAfter_append]

/-! ## The steps of `StartSession` -/

theorem query_spec {α : Type} (w : World) (ev : Event) (f : Store → Except String α)
    (r : Except String α) (w1 : World) (h : w.query ev f = (r, w1)) :
    w1.store = w.store ∧ w1.backends = w.backends ∧ w1.trace = w.trace ++ [ev]
      ∧ ∀ a, r = .ok a → f w.store = .ok a := by
  simp only [World.query, World.fault, World.emit, Prod.mk.injEq] at h
  obtain ⟨h1, h2⟩ := h
  subst h2
  refine ⟨rfl, rfl, rfl, ?_⟩
  intro a ha
  by_cases f0 : w.faults 0 = true
  · simp [f0] at h1
    rw [← h1] at ha
    cases ha
  · simp [f0] at h1
    rw [h1, ha]

theorem NewManager_spec (w : World) (database : Database) (r : Except String Driver)
    (w1 : World) (h : NewManager w database = (r, w1)) :
    w1.store = w.store ∧ w1.backends = w.backends
      ∧ (∀ e, r = .error e → w1.trace = w.trace ++ [.newManager database.Name none])
      ∧ (∀ d, r = .ok d → w1.trace = w.trace ++ [.newManager database.Name (some d.db)]
          ∧ d.database = database) := by
  simp only [NewManager] at h
  generalize (if database.Type_ = "mssql" then some DriverKind.mssql
    else if database.Type_ = "mysql" then some DriverKind.mysql else none) = kind at h
  cases kind with
  | none =>
    simp only [Prod.mk.injEq] at h
    obtain ⟨h1, h2⟩ := h
    subst h1 h2
    exact ⟨rfl, rfl, fun _ _ => rfl, fun d hd => by cases hd⟩
  | some k =>
    by_cases f0 : w.faults 0 = true
    · simp only [World.fault, f0, ↓reduceIte, Prod.mk.injEq] at h
      obtain ⟨h1, h2⟩ := h
      subst h1 h2
      exact ⟨rfl, rfl, fun _ _ => rfl, fun d hd => by cases hd⟩
    · simp only [World.fault, f0, World.newHandle, World.emit, Bool.false_eq_true, ↓reduceIte,
        Prod.mk.injEq] at h
      obtain ⟨h1, h2⟩ := h
      subst h1 h2
      refine ⟨rfl, rfl, (fun e he => by cases he), fun d hd => ?_⟩
      simp only [Except.ok.injEq] at hd
      subst hd
      exact ⟨rfl, rfl⟩

theorem getFreePort_spec (w : World) (r : Except String Nat) (w1 : World)
    (h : getFreePort w = (r, w1)) :
    w1.store = w.store ∧ w1.backends = w.backends
      ∧ ∃ o, w1.trace = w.trace ++ [.getFreePort o] := by
  by_cases f0 : w.faults 0 = true
  · simp only [getFreePort, World.fault, f0, ↓reduceIte, World.emit, Prod.mk.injEq] at h
    obtain ⟨_, h2⟩ := h
    subst h2
    exact ⟨rfl, rfl, none, rfl⟩
  · simp only [getFreePort, World.fault, f0, Bool.false_eq_true, ↓reduceIte, World.emit,
      Prod.mk.injEq] at h
    obtain ⟨_, h2⟩ := h
    subst h2
    exact ⟨rfl, rfl, some (w.ports 0), rfl⟩

theorem driversClosed_of_quiet (evs : List Event)
    (h : ∀ n hh, Event.newManager n (some hh) ∉ evs) : driversClosed evs = true := by
  have := driversClosed_append evs [] h
  simpa [driversClosed] using this

theorem driversClosed_open_close (n : String) (hh : Nat) (mid : List Event) (ok : Bool)
    (h : ∀ n' h', Event.newManager n' (some h') ∉ mid) :
    driversClosed (.newManager n (some hh) :: (mid ++ [.close hh ok])) = true := by
  have h1 : (mid ++ [Event.close hh ok]).any
      (fun e => e == Event.close hh true || e == Event.close hh false) = true := by
    rw [List.any_eq_true]
    refine ⟨.close hh ok, by simp, ?_⟩
    cases ok <;> simp
  have h2 : driversClosed (mid ++ [Event.close hh ok]) = true := by
    rw [driversClosed_append mid _ h]
    simp [driversClosed]
  simp [driversClosed, h1, h2]

theorem quiet_of_shape (hd : Nat) (evs : List Event)
    (shape : ∀ e ∈ evs, (∃ stmt ok, e = Event.exec hd stmt ok) ∨
      ∃ hh v, e = Event.deleteTempUser hh v) :
    ∀ n hh, Event.newManager n (some hh) ∉ evs := by
  intro n hh hm
  rcases shape _ hm with ⟨_, _, he⟩ | ⟨_, _, he⟩ <;> cases he

theorem StartSession_spec (m : Manager) (w : World) (token : String) (claims : Claims)
    (databaseName : String) (hnone : mapGet m.sessions token = none)
    (r : Except String Session) (m1 : Manager) (w1 : World)
    (h : m.StartSession w token claims databaseName = (r, m1, w1)) :
    w1.store = w.store
      ∧ ∃ evs, w1.trace = w.trace ++ evs
        ∧ (∀ levels ∈ createCalls evs, ∃ perms,
            getFreshPermissions w.store claims.Username = .ok perms
              ∧ levels = determinePermissionsForDatabase perms databaseName)
        ∧ (∀ e, r = .error e →
            m1 = m ∧ driversClosed evs = true ∧ createdAccountsDropped evs = true)
        ∧ (∀ s, r = .ok s →
            m1.sessions = mapSet m.sessions token s
              ∧ plainName s.TempCredentials.Password = true
              ∧ (plainName s.TempCredentials.Username = true →
                  w1.backends = backendsAfter w.backends s.DBManager.database.BackendAddr
                    (createStmts s.DBManager.kind s.TempCredentials.Username
                      s.TempCredentials.Password))
              ∧ ∃ perms, getFreshPermissions w.store claims.Username = .ok perms
                  ∧ createCalls evs = [determinePermissionsForDatabase perms databaseName]) := by
  unfold Manager.StartSession at h
  rw [hnone] at h
  simp only at h
  rcases hq1 : w.query (.storeGetDatabase databaseName) (fun s => s.GetDatabase databaseName)
    with ⟨r1, wa⟩
  rw [hq1] at h
  obtain ⟨sa, ba, ta, -⟩ := query_spec _ _ _ _ _ hq1
  cases r1 with
  | error e1 =>
    simp only [Prod.mk.injEq] at h
    obtain ⟨rfl, rfl, rfl⟩ := h
    refine ⟨sa, _, ta, ?_, ?_, ?_⟩
    · simp [createCalls, Event.createLevels]
    · intro e _
      exact ⟨rfl, rfl, rfl⟩
    · intro s hs
      cases hs
  | ok database =>
    simp only at h
    rcases hnm : NewManager wa database with ⟨r2, wb⟩
    rw [hnm] at h
    obtain ⟨sb, bb, tb1, tb2⟩ := NewManager_spec _ _ _ _ hnm
    cases r2 with
    | error e2 =>
      simp only [Prod.mk.injEq] at h
      obtain ⟨rfl, rfl, rfl⟩ := h
      refine ⟨by rw [sb, sa], [.storeGetDatabase databaseName, .newManager database.Name none],
        by rw [tb1 e2 rfl, ta]; simp, ?_, ?_, ?_⟩
      · simp [createCalls, Event.createLevels]
      · intro e _
        exact ⟨rfl, rfl, rfl⟩
      · intro s hs
        cases hs
    | ok dbMgr =>
      obtain ⟨tb, hdb⟩ := tb2 dbMgr rfl
      simp only at h
      generalize hN : (GenerateTempUsername wb.rand (extractUsername claims.Username)).1 = N at h
      generalize hR : (GenerateTempUsername wb.rand (extractUsername claims.Username)).2 = R at h
      generalize hP : (GenerateTempPassword R).1 = P at h
      generalize hR2 : (GenerateTempPassword R).2 = R2 at h
      rcases hq2 : World.query { wb with rand := R2 } (.storeGetUser claims.Username)
        (fun s => s.GetUser claims.Username) with ⟨r3, wc⟩
      rw [hq2] at h
      obtain ⟨sc, bc, tc, uc⟩ := query_spec _ _ _ _ _ hq2
      simp only at sc bc tc uc
      have sw : wb.store = w.store := by rw [sb, sa]
      cases r3 with
      | error e3 =>
        simp only [Prod.mk.injEq] at h
        obtain ⟨rfl, rfl, rfl⟩ := h
        obtain ⟨s1, _, ok, t1⟩ := Close_spec dbMgr wc
        refine ⟨by rw [s1, sc, sw], [.storeGetDatabase databaseName,
          .newManager database.Name (some dbMgr.db), .storeGetUser claims.Username,
          .close dbMgr.db ok], by rw [t1, tc, tb, ta]; simp, ?_, ?_, ?_⟩
        · simp [createCalls, Event.createLevels]
        · intro e _
          refine ⟨rfl, ?_, rfl⟩
          cases ok <;> simp [driversClosed]
        · intro s hs
          cases hs
      | ok user =>
        have hu : w.store.GetUser claims.Username = .ok user := by rw [← sw]; exact uc user rfl
        simp only at h
        rcases hq3 : wc.query (.storeGetPermissionsForRoles user.Roles)
          (fun s => s.GetPermissionsForRoles user.Roles) with ⟨r4, wd⟩
        rw [hq3] at h
        obtain ⟨sd, bd, td, ud⟩ := query_spec _ _ _ _ _ hq3
        cases r4 with
        | error e4 =>
          simp only [Prod.mk.injEq] at h
          obtain ⟨rfl, rfl, rfl⟩ := h
          obtain ⟨s1, _, ok, t1⟩ := Close_spec dbMgr wd
          refine ⟨by rw [s1, sd, sc, sw], [.storeGetDatabase databaseName,
            .newManager database.Name (some dbMgr.db), .storeGetUser claims.Username,
            .storeGetPermissionsForRoles user.Roles, .close dbMgr.db ok],
            by rw [t1, td, tc, tb, ta]; simp, ?_, ?_, ?_⟩
          · simp [createCalls, Event.createLevels]
          · intro e _
            refine ⟨rfl, ?_, rfl⟩
            cases ok <;> simp [driversClosed]
          · intro s hs
            cases hs
        | ok rolePerms =>
          have hrp : w.store.GetPermissionsForRoles user.Roles = .ok rolePerms := by
            rw [← sw, ← sc]; exact ud rolePerms rfl
          have hfresh : getFreshPermissions w.store claims.Username =
              .ok (rolePerms ++ user.CustomPermissions) := by
            simp [getFreshPermissions, hu, hrp]
          simp only at h
          generalize hL : determinePermissionsForDatabase (rolePerms ++ user.CustomPermissions)
            databaseName = L at h
          rcases hct : dbMgr.CreateTempUser wd N P L with ⟨r5, we⟩
          rw [hct] at h
          obtain ⟨se, cevs, te, shape, hcad, hbk⟩ := CreateTempUser_spec dbMgr wd N P L
          rw [hct] at se te hcad hbk
          simp only at se te hcad hbk
          have sww : wd.store = w.store := by rw [sd, sc, sw]
          have hcc : createCalls cevs = [] := createCalls_execs dbMgr.db cevs shape
          have hq := quiet_of_shape dbMgr.db cevs shape
          cases r5 with
          | error e5 =>
            simp only [Prod.mk.injEq] at h
            obtain ⟨rfl, rfl, rfl⟩ := h
            obtain ⟨s1, _, ok, t1⟩ := Close_spec dbMgr we
            refine ⟨by rw [s1, se, sww], [.storeGetDatabase databaseName] ++
              (.newManager database.Name (some dbMgr.db) ::
                (([.storeGetUser claims.Username, .storeGetPermissionsForRoles user.Roles] ++
                  .createTempUser dbMgr.db N P L :: cevs) ++ [.close dbMgr.db ok])),
              by rw [t1, te, td, tc, tb, ta]; simp, ?_, ?_, ?_⟩
            · intro levels hl
              have hcc' : List.filterMap Event.createLevels cevs = [] := hcc
              have hall : createCalls ([Event.storeGetDatabase databaseName] ++
                  (Event.newManager database.Name (some dbMgr.db) ::
                    (([Event.storeGetUser claims.Username,
                        Event.storeGetPermissionsForRoles user.Roles] ++
                      Event.createTempUser dbMgr.db N P L :: cevs) ++
                        [Event.close dbMgr.db ok]))) = [L] := by
                simp [createCalls, Event.createLevels, List.filterMap_append, hcc']
              rw [hall] at hl
              simp only [List.mem_singleton] at hl
              exact ⟨_, hfresh, by rw [hl, hL]⟩
            · intro e _
              refine ⟨rfl, ?_, ?_⟩
              · show driversClosed (Event.newManager database.Name (some dbMgr.db) ::
                  (([Event.storeGetUser claims.Username,
                      Event.storeGetPermissionsForRoles user.Roles] ++
                    Event.createTempUser dbMgr.db N P L :: cevs) ++
                      [Event.close dbMgr.db ok])) = true
                apply driversClosed_open_close
                intro n hh hm
                simp only [List.cons_append, List.nil_append, List.mem_cons] at hm
                rcases hm with hm | hm | hm | hm
                · cases hm
                · cases hm
                · cases hm
                · exact hq n hh hm
              · have := hcad [.close dbMgr.db ok] (Or.inl ⟨e5, rfl⟩)
                simp [createdAccountsDropped, this]
            · intro s hs
              cases hs
          | ok a =>
            have hbk' := hbk rfl
            simp only at h
            rcases hfp : getFreePort we with ⟨r6, wf⟩
            rw [hfp] at h
            obtain ⟨sf, bf, o, tf⟩ := getFreePort_spec _ _ _ hfp
            have hcc' : List.filterMap Event.createLevels cevs = [] := hcc
            cases r6 with
            | error e6 =>
              simp only [Prod.mk.injEq] at h
              obtain ⟨rfl, rfl, rfl⟩ := h
              obtain ⟨sg, dexecs, tg, dshape, -⟩ := DeleteTempUser_spec dbMgr wf N
              obtain ⟨s1, _, ok, t1⟩ := Close_spec dbMgr (dbMgr.DeleteTempUser wf N).2
              have dshape' : ∀ e ∈ dexecs, (∃ stmt ok, e = Event.exec dbMgr.db stmt ok) ∨
                  ∃ hh v, e = Event.deleteTempUser hh v := by
                intro e he
                obtain ⟨stmt, ok, h1, _⟩ := dshape e he
                exact Or.inl ⟨stmt, ok, h1⟩
              have hdc : List.filterMap Event.createLevels dexecs = [] :=
                createCalls_execs dbMgr.db dexecs dshape'
              have hdq := quiet_of_shape dbMgr.db dexecs dshape'
              refine ⟨by rw [s1, sg, sf, se, sww], [.storeGetDatabase databaseName] ++
                (.newManager database.Name (some dbMgr.db) ::
                  (([.storeGetUser claims.Username, .storeGetPermissionsForRoles user.Roles] ++
                    .createTempUser dbMgr.db N P L :: (cevs ++ (.getFreePort o ::
                      .deleteTempUser dbMgr.db N :: dexecs))) ++ [.close dbMgr.db ok])),
                by rw [t1, tg, tf, te, td, tc, tb, ta]; simp, ?_, ?_, ?_⟩
              · intro levels hl
                have hall : createCalls ([Event.storeGetDatabase databaseName] ++
                    (Event.newManager database.Name (some dbMgr.db) ::
                      (([Event.storeGetUser claims.Username,
                          Event.storeGetPermissionsForRoles user.Roles] ++
                        Event.createTempUser dbMgr.db N P L :: (cevs ++ (Event.getFreePort o ::
                          Event.deleteTempUser dbMgr.db N :: dexecs))) ++
                          [Event.close dbMgr.db ok]))) = [L] := by
                  simp [createCalls, Event.createLevels, List.filterMap_append, hcc', hdc]
                rw [hall] at hl
                simp only [List.mem_singleton] at hl
                exact ⟨_, hfresh, by rw [hl, hL]⟩
              · intro e _
                refine ⟨rfl, ?_, ?_⟩
                · show driversClosed (Event.newManager database.Name (some dbMgr.db) ::
                    (([Event.storeGetUser claims.Username,
                        Event.storeGetPermissionsForRoles user.Roles] ++
                      Event.createTempUser dbMgr.db N P L :: (cevs ++ (Event.getFreePort o ::
                        Event.deleteTempUser dbMgr.db N :: dexecs))) ++
                        [Event.close dbMgr.db ok])) = true
                  apply driversClosed_open_close
                  intro n hh hm
                  simp only [List.cons_append, List.nil_append, List.mem_cons,
                    List.mem_append] at hm
                  rcases hm with hm | hm | hm | hm | hm | hm | hm
                  · cases hm
                  · cases hm
                  · cases hm
                  · exact hq n hh hm
                  · cases hm
                  · cases hm
                  · exact hdq n hh hm
                · have h1 := hcad (.getFreePort o :: .deleteTempUser dbMgr.db N ::
                    (dexecs ++ [.close dbMgr.db ok])) (Or.inr (by simp))
                  have h2 := createdAccountsDropped_append dexecs [.close dbMgr.db ok] (by
                    intro hh stmt v hm hc
                    obtain ⟨stmt', ok', he, hc'⟩ := dshape _ hm
                    simp only [Event.exec.injEq] at he
                    obtain ⟨_, rfl, _⟩ := he
                    rw [hc'] at hc
                    cases hc)
                  simp [createdAccountsDropped, h1, h2]
              · intro s hs
                cases hs
            | ok port =>
              simp only [Prod.mk.injEq] at h
              obtain ⟨rfl, rfl, rfl⟩ := h
              refine ⟨by simp [World.newHandle, World.emit, sf, se, sww],
                [.storeGetDatabase databaseName] ++
                (.newManager database.Name (some dbMgr.db) ::
                  (([.storeGetUser claims.Username, .storeGetPermissionsForRoles user.Roles] ++
                    .createTempUser dbMgr.db N P L :: (cevs ++ [.getFreePort o])) ++
                      [.startDynamicProxy wf.newHandle.1 port database.Name])),
                by simp [World.newHandle, World.emit, tf, te, td, tc, tb, ta], ?_, ?_, ?_⟩
              · intro levels hl
                have hall : createCalls ([Event.storeGetDatabase databaseName] ++
                    (Event.newManager database.Name (some dbMgr.db) ::
                      (([Event.storeGetUser claims.Username,
                          Event.storeGetPermissionsForRoles user.Roles] ++
                        Event.createTempUser dbMgr.db N P L :: (cevs ++ [Event.getFreePort o])) ++
                          [Event.startDynamicProxy wf.newHandle.1 port database.Name]))) = [L] := by
                  simp [createCalls, Event.createLevels, List.filterMap_append, hcc']
                rw [hall] at hl
                simp only [List.mem_singleton] at hl
                exact ⟨_, hfresh, by rw [hl, hL]⟩
              · intro e he
                cases he
              · intro s hs
                simp only [Except.ok.injEq] at hs
                subst hs
                refine ⟨rfl, ?_, ?_, _, hfresh, ?_⟩
                · show plainName P = true
                  rw [← hP]
                  exact GenerateTempPassword_plain R
                · intro hpu
                  simp only [World.newHandle, World.emit]
                  rw [bf, hbk' hpu, bd, bc, bb, ba]
                · rw [hL]
                  simp [createCalls, Event.createLevels, List.filterMap_append, hcc']

/-! ## `StartSession` and `StopSession` as wholes -/

theorem StartSession_existing (m : Manager) (w : World) (token : String) (claims : Claims)
    (databaseName : String) (s : Session) (h : mapGet m.sessions token = some s) :
    m.StartSession w token claims databaseName = (.ok s, m, w) := by
  simp [Manager.StartSession, h]

theorem StopSession_spec (m : Manager) (w : World) (token : String) (s : Session)
    (h : mapGet m.sessions token = some s) :
    (m.StopSession w token).1 = .ok ()
      ∧ (m.StopSession w token).2.1.sessions = mapDelete m.sessions token
      ∧ (m.StopSession w token).2.2.store = w.store
      ∧ ∃ execs okc,
          (m.StopSession w token).2.2.trace =
            w.trace ++ (.deleteTempUser s.DBManager.db s.TempCredentials.Username :: execs ++
              [.close s.DBManager.db okc, .cancel s.Cancel])
          ∧ (∀ e ∈ execs, ∃ stmt ok, e = Event.exec s.DBManager.db stmt ok ∧ stmt.creates = none)
          ∧ ((∀ stmt, Event.exec s.DBManager.db stmt false ∈ execs → stmt.drops = none) →
              (m.StopSession w token).2.2.backends =
                backendsAfter w.backends s.DBManager.database.BackendAddr
                  (dropStmts s.DBManager.kind s.TempCredentials.Username)) := by
  obtain ⟨s1, execs, t1, shape, hbk⟩ :=
    DeleteTempUser_spec s.DBManager w s.TempCredentials.Username
  obtain ⟨s2, b2, okc, t2⟩ :=
    Close_spec s.DBManager (s.DBManager.DeleteTempUser w s.TempCredentials.Username).2
  refine ⟨by simp [Manager.StopSession, h], by simp [Manager.StopSession, h], ?_,
    execs, okc, ?_, shape, ?_⟩
  · simp only [Manager.StopSession, h, emit_store]
    rw [s2, s1]
  · simp only [Manager.StopSession, h, emit_trace]
    rw [t2, t1]
    simp
  · intro hd
    simp only [Manager.StopSession, h, emit_backends]
    rw [b2, hbk hd]

/-! ## Claim C6 -/

/-- C8: whenever `StartSession` returns an error, the registry is the one it was called
with, every driver built during the call has been closed before the return, and every
account creation that succeeded on the backend during the call is followed, before the
return, by a `DeleteTempUser` call for that same account on the same driver. -/
theorem C8_error_leaves_nothing_behind (m : Manager) (w : World) (token : String)
    (claims : Claims) (databaseName : String) (e : String)
    (h : (m.StartSession w token claims databaseName).1 = .error e) :
    (m.StartSession w token claims databaseName).2.1 = m
      ∧ driversClosed (newEvents w (m.StartSession w token claims databaseName).2.2) = true
      ∧ createdAccountsDropped
          (newEvents w (m.StartSession w token claims databaseName).2.2) = true := by
  cases hget : mapGet m.sessions token with
  | some s0 =>
    rw [StartSession_existing m w token claims databaseName s0 hget] at h
    cases h
  | none =>
    obtain ⟨_, evs, ht, _, herr, _⟩ := StartSession_spec m w token claims databaseName hget
      (m.StartSession w token claims databaseName).1
      (m.StartSession w token claims databaseName).2.1
      (m.StartSession w token claims databaseName).2.2 rfl
    rw [newEvents_append _ _ evs ht]
    exact herr e h

/-- Witness of C8: the free-port probe fails after the temp account of `alice@ex.com` was
created on `salesdb`; the call drops the account, closes the driver and returns the error. -/
theorem C8_error_leaves_nothing_behind_witness :
    ((Manager.mk []).StartSession portFailWorld "tok" aliceClaims "salesdb").1 =
        .error "failed to find free port: listen failed"
      ∧ ((Manager.mk []).StartSession portFailWorld "tok" aliceClaims "salesdb").2.1 =
          Manager.mk []
      ∧ driversClosed (newEvents portFailWorld
          ((Manager.mk []).StartSession portFailWorld "tok" aliceClaims "salesdb").2.2) = true
      ∧ createdAccountsDropped (newEvents portFailWorld
          ((Manager.mk []).StartSession portFailWorld "tok" aliceClaims "salesdb").2.2) = true :=
  ⟨rfl, C8_error_leaves_nothing_behind (Manager.mk []) portFailWorld "tok" aliceClaims
    "salesdb" "failed to find free port: listen failed" rfl⟩

/-! ## Claim C9 -/

/-- C9: `StopSession(token)` returns an error exactly when the registry has no entry for
`token`, and then registry and world are unchanged; otherwise it returns success whatever
the outcomes of `DeleteTempUser` and `Close`, what it does is, in order, the call
`DeleteTempUser(session.TempCredentials.Username)` with its statements, then `Close` on the
driver, then the session's `Cancel`, and the new registry has no entry for `token` and the
old entry under every other token. -/
theorem C9_stop_session (m : Manager) (w : World) (token : String) :
    ((∃ e, (m.StopSession w token).1 = .error e) ↔ mapGet m.sessions token = none)
      ∧ (mapGet m.sessions token = none → (m.StopSession w token).2 = (m, w))
      ∧ (∀ s, mapGet m.sessions token = some s →
          (m.StopSession w token).1 = .ok ()
            ∧ (∃ execs okc,
                newEvents w (m.StopSession w token).2.2 =
                  .deleteTempUser s.DBManager.db s.TempCredentials.Username :: execs ++
                    [.close s.DBManager.db okc, .cancel s.Cancel]
                ∧ ∀ ev ∈ execs, ∃ stmt ok, ev = Event.exec s.DBManager.db stmt ok)
            ∧ mapGet (m.StopSession w token).2.1.sessions token = none
            ∧ ∀ other, other ≠ token →
                mapGet (m.StopSession w token).2.1.sessions other = mapGet m.sessions other) := by
  have hsome : ∀ s, mapGet m.sessions token = some s →
      (m.StopSession w token).1 = .ok ()
        ∧ (∃ execs okc,
            newEvents w (m.StopSession w token).2.2 =
              .deleteTempUser s.DBManager.db s.TempCredentials.Username :: execs ++
                [.close s.DBManager.db okc, .cancel s.Cancel]
            ∧ ∀ ev ∈ execs, ∃ stmt ok, ev = Event.exec s.DBManager.db stmt ok)
        ∧ mapGet (m.StopSession w token).2.1.sessions token = none
        ∧ ∀ other, other ≠ token →
            mapGet (m.StopSession w token).2.1.sessions other = mapGet m.sessions other := by
    intro s hs
    obtain ⟨h1, h2, _, execs, okc, ht, shape, _⟩ := StopSession_spec m w token s hs
    refine ⟨h1, ⟨execs, okc, newEvents_append _ _ _ ht, ?_⟩, ?_, ?_⟩
    · intro ev hev
      obtain ⟨stmt, ok, he, _⟩ := shape ev hev
      exact ⟨stmt, ok, he⟩
    · rw [h2]; exact mapGet_mapDelete_self _ _
    · intro other ho
      rw [h2]; exact mapGet_mapDelete_other _ _ _ ho
  refine ⟨?_, ?_, hsome⟩
  · cases hget : mapGet m.sessions token with
    | none => simp [Manager.StopSession, hget]
    | some s =>
      have h1 := (hsome s hget).1
      simp [h1]
  · intro hget
    simp [Manager.StopSession, hget]

/-! ## Claim C10 -/

theorem getFreshPermissions_eq (s : Store) (username : String) (perms : List Permission) :
    getFreshPermissions s username = .ok perms ↔
      ∃ user rolePerms, s.GetUser username = .ok user
        ∧ s.GetPermissionsForRoles user.Roles = .ok rolePerms
        ∧ perms = rolePerms ++ user.CustomPermissions := by
  unfold getFreshPermissions
  cases hu : s.GetUser username with
  | error e => simp
  | ok user =>
    cases hr : s.GetPermissionsForRoles user.Roles with
    | error e => simp [hr]
    | ok rp =>
      simp only [hr, Except.ok.injEq]
      constructor
      · intro h
        exact ⟨user, rp, rfl, hr, h.symm⟩
      · rintro ⟨u, rp', hu', hr', hp⟩
        subst hu'
        rw [hr] at hr'
        simp only [Except.ok.injEq] at hr'
        subst hr'
        exact hp.symm

theorem GetUser_fields (s : Store) (username : String) (user : User)
    (h : s.GetUser username = .ok user) :
    user.Roles = ((s.user_roles.filter (fun r => r.username == username)).map
        (fun r => r.role_name)).insertionSort (fun a b => a ≤ b)
      ∧ user.CustomPermissions =
          ((s.user_custom_permissions.filter (fun r => r.username == username)).map
            (fun r => { Database := r.database_name, Level := r.level })).insertionSort
              (fun a b => customPermissionLE a b = true) := by
  unfold Store.GetUser at h
  cases hf : s.users.find? (fun u => u.username == username) with
  | none => simp [hf] at h
  | some row =>
    simp only [hf, Store.getUserRoles, Store.getUserCustomPermissions, Except.ok.injEq] at h
    subst h
    exact ⟨rfl, rfl⟩

theorem GetPermissionsForRoles_mem (s : Store) (roles : List String) (rp : List Permission)
    (h : s.GetPermissionsForRoles roles = .ok rp) (q : Permission) (hq : q ∈ rp) :
    ∃ r ∈ s.role_permissions, r.role_name ∈ roles ∧ q.Database = r.database_name
      ∧ q.Level = r.level := by
  unfold Store.GetPermissionsForRoles at h
  split at h
  · simp only [Except.ok.injEq] at h
    subst h
    cases hq
  · simp only [Except.ok.injEq] at h
    subst h
    simp only [List.mem_map] at hq
    obtain ⟨r, hr0, rfl⟩ := hq
    have hr1 := (List.perm_insertionSort _ _).mem_iff.1 hr0
    simp only [List.mem_filter] at hr1
    obtain ⟨hr, hmem⟩ := hr1
    exact ⟨r, hr, by simpa using hmem, rfl, rfl⟩

theorem CanAccess_after_role_removed (s : Store) (claims : Claims) (role D : String)
    (hcustom : ∀ r ∈ s.user_custom_permissions, r.username = claims.Username →
      r.database_name ≠ D)
    (honly : ∀ rp ∈ s.role_permissions, rp.database_name = D →
      (∃ ur ∈ s.user_roles, ur.username = claims.Username ∧ ur.role_name = rp.role_name) →
      rp.role_name = role) :
    CanAccess (s.withoutUserRole claims.Username role) claims D = false := by
  unfold CanAccess
  cases hf : getFreshPermissions (s.withoutUserRole claims.Username role) claims.Username with
  | error e => rfl
  | ok perms =>
    obtain ⟨user, rolePerms, hu, hr, rfl⟩ := (getFreshPermissions_eq _ _ _).1 hf
    obtain ⟨hroles, hcust⟩ := GetUser_fields _ _ _ hu
    simp only
    rw [Bool.eq_false_iff]
    intro hany
    rw [List.any_eq_true] at hany
    obtain ⟨q, hq, hqd⟩ := hany
    have hqD : q.Database = D := by simpa using hqd
    rcases List.mem_append.1 hq with hq | hq
    · obtain ⟨r, hr1, hr2, hr3, _⟩ := GetPermissionsForRoles_mem _ _ _ hr q hq
      rw [hroles] at hr2
      have hr2' := (List.perm_insertionSort _ _).mem_iff.1 hr2
      simp only [Store.withoutUserRole, List.mem_map, List.mem_filter, Bool.not_eq_true',
        Bool.and_eq_false_imp, beq_iff_eq, beq_eq_false_iff_ne, ne_eq] at hr2'
      obtain ⟨ur, ⟨⟨hur, hne⟩, huser⟩, hname⟩ := hr2'
      have h1 : r.role_name = role :=
        honly r hr1 (by rw [← hr3, hqD]) ⟨ur, hur, huser, hname⟩
      exact hne huser (by rw [hname, h1])
    · rw [hcust] at hq
      have hq := (List.perm_insertionSort _ _).mem_iff.1 hq
      simp only [Store.withoutUserRole, List.mem_map, List.mem_filter, beq_iff_eq] at hq
      obtain ⟨r, ⟨hr1, hr2⟩, rfl⟩ := hq
      exact hcustom r hr1 hr2 hqD

/-- C12: the policy decisions read only the username of the claims and the store: two
claims values with the same username get the same `CanAccess`, `GetAllowedDatabases` and
`GetPermissionLevel` on the same store, whatever their token id, times and issuer; and in
the store where a role was taken from the user, `CanAccess` is false, for the same claims,
on every database that no custom permission of the user names and that only that role,
among the roles the user held, granted. -/
theorem C12_policy_reads_store_only (s : Store) (c1 c2 : Claims)
    (h : c1.Username = c2.Username) :
    (∀ D, CanAccess s c1 D = CanAccess s c2 D)
      ∧ GetAllowedDatabases s c1 = GetAllowedDatabases s c2
      ∧ (∀ D, GetPermissionLevel s c1 D = GetPermissionLevel s c2 D)
      ∧ (∀ role D,
          (∀ r ∈ s.user_custom_permissions, r.username = c1.Username → r.database_name ≠ D) →
          (∀ rp ∈ s.role_permissions, rp.database_name = D →
            (∃ ur ∈ s.user_roles, ur.username = c1.Username ∧ ur.role_name = rp.role_name) →
            rp.role_name = role) →
          CanAccess (s.withoutUserRole c1.Username role) c1 D = false) := by
  refine ⟨fun D => ?_, ?_, fun D => ?_, fun role D h1 h2 => ?_⟩
  · simp only [CanAccess, h]
  · simp only [GetAllowedDatabases, h]
  · simp only [GetPermissionLevel, h]
  · exact CanAccess_after_role_removed s c1 role D h1 h2

/-- Witness of C12: two tokens of `alice@ex.com`, and the store where her role `reader`,
the only grant of `salesdb`, is removed: access was granted before and is denied after. -/
theorem C12_policy_reads_store_only_witness :
    aliceClaims.Username = aliceLaterClaims.Username
      ∧ CanAccess danglingStore aliceClaims "salesdb" = true
      ∧ CanAccess danglingStore aliceLaterClaims "salesdb" = true
      ∧ CanAccess (danglingStore.withoutUserRole aliceClaims.Username "reader") aliceClaims
          "salesdb" = false :=
  ⟨rfl, by decide,
    ((C12_policy_reads_store_only danglingStore aliceClaims aliceLaterClaims rfl).1
      "salesdb").symm.trans (by decide),
    (C12_policy_reads_store_only danglingStore aliceClaims aliceLaterClaims rfl).2.2.2
      "reader" "salesdb" (by decide) (by decide)⟩

theorem GetDatabase_unknown (s : Store) (name : String)
    (h : ∀ db ∈ s.databases, db.Name ≠ name) : ∃ e, s.GetDatabase name = .error e := by
  have : s.databases.find? (fun d => d.Name == name) = none := by
    rw [List.find?_eq_none]
    intro d hd
    simpa using h d hd
  simp [Store.GetDatabase, this]

theorem StartSession_unknown_database (m : Manager) (w : World) (token : String)
    (claims : Claims) (databaseName : String) (hnone : mapGet m.sessions token = none)
    (h : ∀ db ∈ w.store.databases, db.Name ≠ databaseName) :
    (m.StartSession w token claims databaseName).1 =
        .error ("database not found: " ++ databaseName)
      ∧ (m.StartSession w token claims databaseName).2.1 = m
      ∧ (m.StartSession w token claims databaseName).2.2.backends = w.backends
      ∧ (m.StartSession w token claims databaseName).2.2.store = w.store
      ∧ (m.StartSession w token claims databaseName).2.2.trace =
          w.trace ++ [.storeGetDatabase databaseName] := by
  obtain ⟨e, he⟩ := GetDatabase_unknown w.store databaseName h
  by_cases f0 : w.faults 0 = true <;>
    simp [Manager.StartSession, hnone, World.query, World.fault, World.emit, f0, he]

/-! ## Claims C15 to C17 -/

/-- C15: for every authenticated connect request whose database the caller has no
effective permission for, `handleConnect` answers 403 and returns the registry and the
world it was given: `StartSession` is not invoked, no event is recorded and no backend
changes. -/
theorem C15_no_access_is_forbidden (m : Manager) (w : World) (claims : Claims)
    (token : String) (req : ConnectRequest)
    (h : CanAccess w.store claims req.DatabaseName = false) :
    handleConnect m w claims token (some req) = (.error 403 "access denied", m, w) := by
  simp [handleConnect, h]

/-- Witness of C15: `alice@ex.com` asks for `hrdb`, for which she holds no permission. -/
theorem C15_no_access_is_forbidden_witness :
    CanAccess quietWorld.store aliceClaims "hrdb" = false
      ∧ handleConnect (Manager.mk []) quietWorld aliceClaims "tok"
          (some { DatabaseName := "hrdb" }) =
        (.error 403 "access denied", Manager.mk [], quietWorld) :=
  ⟨by decide,
    C15_no_access_is_forbidden (Manager.mk []) quietWorld aliceClaims "tok"
      { DatabaseName := "hrdb" } (by decide)⟩

/-- C16 (as stated, refuted): `hrdb` is not in the catalog and `alice@ex.com` holds no
permission naming it; the answer to her connect request is 403, neither 404 nor 500. -/
theorem C16_counterexample :
    ¬ (∀ (m : Manager) (w : World) (claims : Claims) (token : String) (req : ConnectRequest),
        (∀ db ∈ w.store.databases, db.Name ≠ req.DatabaseName) →
        (handleConnect m w claims token (some req)).1.status = 404
          ∨ (handleConnect m w claims token (some req)).1.status = 500) := by
  intro h
  have h1 := h (Manager.mk []) quietWorld aliceClaims "tok" { DatabaseName := "hrdb" }
    (by decide)
  exact absurd h1 (by decide)

/-- C16 (amended): for every authenticated connect request naming a database that is not
in the catalog, the status is 403 when the caller has no effective permission naming it;
when the caller has one, it is 500 if the token has no session and 200, with the session
the token already has, otherwise. In every case the registry is unchanged, no backend
changes and no `CreateTempUser` call is made. -/
theorem C16_unknown_database (m : Manager) (w : World) (claims : Claims) (token : String)
    (req : ConnectRequest) (h : ∀ db ∈ w.store.databases, db.Name ≠ req.DatabaseName) :
    (CanAccess w.store claims req.DatabaseName = false →
        (handleConnect m w claims token (some req)).1 = .error 403 "access denied")
      ∧ (CanAccess w.store claims req.DatabaseName = true → mapGet m.sessions token = none →
          (handleConnect m w claims token (some req)).1 = .error 500 "failed to start proxy")
      ∧ (CanAccess w.store claims req.DatabaseName = true →
          ∀ s, mapGet m.sessions token = some s →
            (handleConnect m w claims token (some req)).1.status = 200)
      ∧ (handleConnect m w claims token (some req)).2.1 = m
      ∧ (handleConnect m w claims token (some req)).2.2.backends = w.backends
      ∧ createCalls (newEvents w (handleConnect m w claims token (some req)).2.2) = [] := by
  cases hacc : CanAccess w.store claims req.DatabaseName with
  | false =>
    simp [handleConnect, hacc, newEvents, createCalls]
  | true =>
    cases hget : mapGet m.sessions token with
    | some s0 =>
      have hs := StartSession_existing m w token claims req.DatabaseName s0 hget
      simp [handleConnect, hacc, hs, newEvents, createCalls, Reply.status]
    | none =>
      obtain ⟨h1, h2, h3, _, h5⟩ := StartSession_unknown_database m w token claims
        req.DatabaseName hget h
      rcases hX : m.StartSession w token claims req.DatabaseName with ⟨r, m1, w1⟩
      rw [hX] at h1 h2 h3 h5
      simp only at h1 h2 h3 h5
      subst h1 h2
      simp [handleConnect, hacc, hX, h3, newEvents, h5, createCalls, Event.createLevels]

/-- Witness of C16: `alice@ex.com` asks for `ghostdb`, which her custom permission names
and the catalog does not hold: the answer is 500 and nothing is left behind. -/
theorem C16_unknown_database_witness :
    (∀ db ∈ quietWorld.store.databases, db.Name ≠ "ghostdb")
      ∧ (handleConnect (Manager.mk []) quietWorld aliceClaims "tok"
          (some { DatabaseName := "ghostdb" })).1 = .error 500 "failed to start proxy"
      ∧ (handleConnect (Manager.mk []) quietWorld aliceClaims "tok"
          (some { DatabaseName := "ghostdb" })).2.1 = Manager.mk [] :=
  ⟨by decide,
    (C16_unknown_database (Manager.mk []) quietWorld aliceClaims "tok"
      { DatabaseName := "ghostdb" } (by decide)).2.1 (by decide) (by decide),
    (C16_unknown_database (Manager.mk []) quietWorld aliceClaims "tok"
      { DatabaseName := "ghostdb" } (by decide)).2.2.2.1⟩

/-- C17 (as stated, refuted): a disconnect request under a token that has no session in
the empty registry is answered 500, not 404. -/
theorem C17_counterexample :
    ¬ (∀ (m : Manager) (w : World) (claims : Claims) (token : String)
        (req : DisconnectRequest),
        mapGet m.sessions token = none →
        (handleDisconnect m w claims token (some req)).1.status = 404) := by
  intro h
  have h1 := h (Manager.mk []) quietWorld aliceClaims "tok" { DatabaseName := "salesdb" }
    (by decide)
  exact absurd h1 (by decide)

/-- C17 (amended): an authenticated disconnect request whose access token has no session
in the registry is answered with status 500 and the message `failed to stop proxy`, and
leaves the registry and the world as they were. -/
theorem C17_unknown_session_is_500 (m : Manager) (w : World) (claims : Claims)
    (token : String) (req : DisconnectRequest) (h : mapGet m.sessions token = none) :
    handleDisconnect m w claims token (some req) =
      (.error 500 "failed to stop proxy", m, w) := by
  simp [handleDisconnect, Manager.StopSession, h]

/-- Witness of C17: a disconnect under `tok` on the empty registry. -/
theorem C17_unknown_session_is_500_witness :
    mapGet (Manager.mk []).sessions "tok" = none
      ∧ handleDisconnect (Manager.mk []) quietWorld aliceClaims "tok"
          (some { DatabaseName := "salesdb" }) =
        (.error 500 "failed to stop proxy", Manager.mk [], quietWorld) :=
  ⟨by decide,
    C17_unknown_session_is_500 (Manager.mk []) quietWorld aliceClaims "tok"
      { DatabaseName := "salesdb" } (by decide)⟩

/-! ## Claim C11 -/

/-- C11 (the code at the failing input): the gateway server is built while the store holds
only the `mysql` database `salesdb`, so its handler map holds `mysql` alone. After `hrdb`,
of type `mssql`, is saved and granted, the connect request of `alice@ex.com` for `hrdb` is
answered 200 with port 50000 and her session is in the registry, but the task spawned for
it finds no handler for `mssql` and returns without a listener, whatever `net.Listen` would
have answered. Also with a handler, a failing `net.Listen` leaves the session without a
listener. -/
theorem C11_session_without_listener :
    gateway.NewServer danglingStore = .ok { handlers := [("mysql", .mysql)] }
      ∧ lateStore.schemaOK = true
      ∧ CanAccess lateStore aliceClaims "hrdb" = true
      ∧ (handleConnect (Manager.mk []) lateWorld aliceClaims "tok"
          (some { DatabaseName := "hrdb" })).1 =
        .json { Port := 50000, DatabaseName := "hrdb", Message := "Proxy started successfully",
                TempUsername := "zgate_alice_00000000",
                TempPassword := "Z00000000#00000000$G00000000" }
      ∧ mapGet (handleConnect (Manager.mk []) lateWorld aliceClaims "tok"
          (some { DatabaseName := "hrdb" })).2.1.sessions "tok" = some hrSession
      ∧ Event.startDynamicProxy 1 50000 "hrdb" ∈
          (handleConnect (Manager.mk []) lateWorld aliceClaims "tok"
            (some { DatabaseName := "hrdb" })).2.2.trace
      ∧ (∀ listenOk, startDynamicProxy { handlers := [("mysql", .mysql)] } listenOk hrSession
          hrSession.DBManager.database = none)
      ∧ startDynamicProxy { handlers := [("mysql", .mysql)] } false aliceSession
          aliceSession.DBManager.database = none := by
  refine ⟨rfl, by decide, by decide, by decide, by decide, by decide, by decide, by decide⟩

/-! ## Refresh tokens -/

theorem ValidateRefreshToken_ok_iff (s : Store) (Sum256 : String → List Nat) (now : Nat)
    (token : String) (updateFails : Bool) (rt : RefreshToken) :
    (s.ValidateRefreshToken Sum256 now token updateFails).1 = .ok rt ↔
      s.refresh_tokens.find? (fun r => r.TokenHash == hashToken Sum256 token) = some rt
        ∧ rt.Revoked = false ∧ now ≤ rt.ExpiresAt := by
  cases hf : s.refresh_tokens.find? (fun r => r.TokenHash == hashToken Sum256 token) with
  | none => simp [Store.ValidateRefreshToken, hf]
  | some r =>
    simp only [Store.ValidateRefreshToken, hf, Option.some.injEq]
    by_cases hr : r.Revoked = true
    · simp only [hr, ↓reduceIte]
      constructor
      · intro h; cases h
      · rintro ⟨rfl, h2, _⟩
        rw [hr] at h2; cases h2
    · have hr' : r.Revoked = false := by simpa using hr
      by_cases he : now > r.ExpiresAt
      · simp only [hr', Bool.false_eq_true, ↓reduceIte, he]
        constructor
        · intro h; cases h
        · rintro ⟨rfl, _, h3⟩
          omega
      · cases updateFails
        · simp only [hr', Bool.false_eq_true, ↓reduceIte, he, Except.ok.injEq]
          constructor
          · intro h; subst h; exact ⟨rfl, hr', by omega⟩
          · rintro ⟨h, _, _⟩; exact h
        · simp only [hr', Bool.false_eq_true, ↓reduceIte, he, Except.ok.injEq]
          constructor
          · intro h; subst h; exact ⟨rfl, hr', by omega⟩
          · rintro ⟨h, _, _⟩; exact h

/-- What `ValidateRefreshToken` leaves of the table: every row keeps its place and all its
columns but `last_used_at`. -/
theorem ValidateRefreshToken_tokens (s : Store) (Sum256 : String → List Nat) (now : Nat)
    (token : String) (updateFails : Bool) :
    ∃ f : RefreshToken → RefreshToken,
      (s.ValidateRefreshToken Sum256 now token updateFails).2 =
          { s with refresh_tokens := s.refresh_tokens.map f }
        ∧ ∀ r, f r = r ∨ f r = { r with LastUsedAt := now } := by
  cases hf : s.refresh_tokens.find? (fun r => r.TokenHash == hashToken Sum256 token) with
  | none => exact ⟨id, by simp [Store.ValidateRefreshToken, hf], fun r => Or.inl rfl⟩
  | some rt =>
    by_cases hr : rt.Revoked = true
    · exact ⟨id, by simp [Store.ValidateRefreshToken, hf, hr], fun r => Or.inl rfl⟩
    · have hr' : rt.Revoked = false := by simpa using hr
      by_cases he : now > rt.ExpiresAt
      · exact ⟨id, by simp [Store.ValidateRefreshToken, hf, hr', he], fun r => Or.inl rfl⟩
      · cases updateFails
        · refine ⟨fun r => if r.ID = rt.ID then { r with LastUsedAt := now } else r,
            by simp [Store.ValidateRefreshToken, hf, hr', he], fun r => ?_⟩
          by_cases h : r.ID = rt.ID
          · exact Or.inr (by simp [h])
          · exact Or.inl (by simp [h])
        · exact ⟨id, by simp [Store.ValidateRefreshToken, hf, hr', he], fun r => Or.inl rfl⟩

theorem map_eq_self_of_forall {α : Type} (f : α → α) (l : List α) (h : ∀ x ∈ l, f x = x) :
    l.map f = l := by
  induction l with
  | nil => rfl
  | cons a as ih =>
    simp only [List.map_cons, h a (List.mem_cons_self _ _),
      ih (fun x hx => h x (List.mem_cons_of_mem _ hx))]

theorem RevokeRefreshToken_ok_iff (s : Store) (Sum256 : String → List Nat) (now : Nat)
    (token : String) :
    (s.RevokeRefreshToken Sum256 now token false).1 = .ok () ↔
      ∃ r ∈ s.refresh_tokens, r.TokenHash = hashToken Sum256 token ∧ r.Revoked = false := by
  simp only [Store.RevokeRefreshToken, Bool.false_eq_true, ↓reduceIte]
  by_cases h0 : (s.refresh_tokens.filter
      (fun r => r.TokenHash == hashToken Sum256 token && !r.Revoked)).length = 0
  · simp only [h0, ↓reduceIte]
    constructor
    · intro h; cases h
    · rintro ⟨r, hr, h1, h2⟩
      have : r ∈ s.refresh_tokens.filter
          (fun r => r.TokenHash == hashToken Sum256 token && !r.Revoked) := by
        simp [List.mem_filter, hr, h1, h2]
      rw [List.length_eq_zero] at h0
      rw [h0] at this
      cases this
  · simp only [h0, ↓reduceIte, true_iff]
    obtain ⟨r, hr⟩ := List.exists_mem_of_length_pos (Nat.pos_of_ne_zero h0)
    simp only [List.mem_filter, Bool.and_eq_true, beq_iff_eq, Bool.not_eq_true'] at hr
    exact ⟨r, hr.1, hr.2.1, hr.2.2⟩

theorem RevokeRefreshToken_failed (s : Store) (Sum256 : String → List Nat) (now : Nat)
    (token : String) :
    s.RevokeRefreshToken Sum256 now token true =
      (.error "failed to revoke refresh token: sql: statement failed", s) := rfl

theorem RevokeRefreshToken_store (s : Store) (Sum256 : String → List Nat) (now : Nat)
    (token : String) :
    (s.RevokeRefreshToken Sum256 now token false).2 =
      { s with
        refresh_tokens :=
          s.refresh_tokens.map (fun r =>
            if (r.TokenHash == hashToken Sum256 token && !r.Revoked) = true then
              { r with Revoked := true, RevokedAt := some now }
            else r) } := by
  simp only [Store.RevokeRefreshToken, Bool.false_eq_true, ↓reduceIte]
  split <;> rfl

theorem revoked_after_revoke (l : List RefreshToken) (h : String) (now : Nat)
    (x : RefreshToken)
    (hx : x ∈ l.map (fun r =>
      if (r.TokenHash == h && !r.Revoked) = true then
        { r with Revoked := true, RevokedAt := some now }
      else r))
    (hh : x.TokenHash = h) : x.Revoked = true := by
  simp only [List.mem_map] at hx
  obtain ⟨r, _, rfl⟩ := hx
  by_cases hit : (r.TokenHash == h && !r.Revoked) = true
  · simp [hit]
  · simp only [hit, Bool.false_eq_true, ↓reduceIte] at hh ⊢
    simp only [Bool.and_eq_true, beq_iff_eq, Bool.not_eq_true', not_and,
      Bool.not_eq_false] at hit
    exact hit hh

/-! ## Claims C18 and C20 -/

/-- C20 (as stated, refuted): the table of `tokenStore` holds the row of `r1`, not
revoked, and yet `RevokeRefreshToken` of `r1` returns an error when the `UPDATE` is failed
by the SQL engine: a row of the token's hash with `revoked = false` does not suffice for
success. -/
theorem C20_counterexample :
    ¬ (∀ (s : Store) (Sum256 : String → List Nat) (now : Nat) (token : String)
        (execFails : Bool),
        (s.RevokeRefreshToken Sum256 now token execFails).1 = .ok () ↔
          ∃ r ∈ s.refresh_tokens, r.TokenHash = hashToken Sum256 token ∧ r.Revoked = false) := by
  intro h
  have h1 := (h tokenStore toySum256 100 "r1" true).2
    ⟨_, List.mem_singleton.2 rfl, rfl, rfl⟩
  cases h1

/-- C20 (amended): `RevokeRefreshToken(token)` succeeds exactly when the `UPDATE` is not
failed by the SQL engine and the table holds a row with the token's hash and
`revoked = false`. When the statement ran, the table has the same rows in the same
places, such a row with `revoked = true` and `revoked_at = now` and every other row as it
was. The other tables are never touched; when the call does not succeed the store is
unchanged; and a revocation repeated after one whose statement ran fails. -/
theorem C20_revoke_refresh_token (s : Store) (Sum256 : String → List Nat) (now : Nat)
    (token : String) (execFails : Bool) :
    ((s.RevokeRefreshToken Sum256 now token execFails).1 = .ok () ↔
        execFails = false
          ∧ ∃ r ∈ s.refresh_tokens, r.TokenHash = hashToken Sum256 token ∧ r.Revoked = false)
      ∧ (execFails = false →
          List.Forall₂
            (fun r r' =>
              (r.TokenHash = hashToken Sum256 token ∧ r.Revoked = false →
                r' = { r with Revoked := true, RevokedAt := some now })
              ∧ (¬ (r.TokenHash = hashToken Sum256 token ∧ r.Revoked = false) → r' = r))
            s.refresh_tokens (s.RevokeRefreshToken Sum256 now token execFails).2.refresh_tokens)
      ∧ (s.RevokeRefreshToken Sum256 now token execFails).2 =
          { s with
            refresh_tokens :=
              (s.RevokeRefreshToken Sum256 now token execFails).2.refresh_tokens }
      ∧ ((s.RevokeRefreshToken Sum256 now token execFails).1 ≠ .ok () →
          (s.RevokeRefreshToken Sum256 now token execFails).2 = s)
      ∧ (execFails = false → ∀ now' execFails',
          ((s.RevokeRefreshToken Sum256 now token execFails).2.RevokeRefreshToken Sum256 now'
            token execFails').1 ≠ .ok ()) := by
  cases execFails with
  | true =>
    rw [RevokeRefreshToken_failed]
    refine ⟨?_, ?_, rfl, fun _ => rfl, ?_⟩
    · constructor
      · intro h; cases h
      · rintro ⟨h, _⟩; cases h
    · intro h; cases h
    · intro h; cases h
  | false =>
    refine ⟨?_, fun _ => ?_, ?_, ?_, fun _ => ?_⟩
    · rw [RevokeRefreshToken_ok_iff]
      simp
    · rw [RevokeRefreshToken_store]
      simp only
      rw [List.forall₂_map_right_iff]
      apply List.forall₂_same.2
      intro r _
      by_cases hit : r.TokenHash = hashToken Sum256 token ∧ r.Revoked = false
      · simp [hit.1, hit.2]
      · have : (r.TokenHash == hashToken Sum256 token && !r.Revoked) = false := by
          simpa using hit
        simp [this, hit]
    · rw [RevokeRefreshToken_store]
    · intro hfail
      rw [RevokeRefreshToken_store]
      have hno : ¬ ∃ r ∈ s.refresh_tokens, r.TokenHash = hashToken Sum256 token ∧
          r.Revoked = false := fun h => hfail ((RevokeRefreshToken_ok_iff s Sum256 now token).2 h)
      have hmap := map_eq_self_of_forall (fun r : RefreshToken =>
          if (r.TokenHash == hashToken Sum256 token && !r.Revoked) = true then
            { r with Revoked := true, RevokedAt := some now }
          else r) s.refresh_tokens (by
        intro r hr
        have : (r.TokenHash == hashToken Sum256 token && !r.Revoked) = false := by
          have := fun h1 h2 => hno ⟨r, hr, h1, h2⟩
          simpa using this
        simp [this])
      rw [hmap]
    · intro now' execFails' hok
      cases execFails' with
      | true => rw [RevokeRefreshToken_failed] at hok; cases hok
      | false =>
        obtain ⟨r, hr, h1, h2⟩ := (RevokeRefreshToken_ok_iff _ Sum256 now' token).1 hok
        rw [RevokeRefreshToken_store] at hr
        have := revoked_after_revoke s.refresh_tokens (hashToken Sum256 token) now r hr h1
        rw [h2] at this
        cases this

/-! ## The refresh handler -/

theorem CreateRefreshToken_ok (s : Store) (Sum256 : String → List Nat) (src : RandSource)
    (now : Nat) (username userAgent ipAddress : String) (duration : Nat) (tok : String)
    (s2 : Store) (src2 : RandSource)
    (h : s.CreateRefreshToken Sum256 src now username userAgent ipAddress duration =
      (.ok tok, s2, src2)) :
    ∃ new : RefreshToken, s2.refresh_tokens = s.refresh_tokens ++ [new]
      ∧ new.TokenHash = hashToken Sum256 tok ∧ new.Revoked = false
      ∧ new.ExpiresAt = now + duration
      ∧ ∀ r ∈ s.refresh_tokens, r.TokenHash ≠ new.TokenHash := by
  simp only [Store.CreateRefreshToken] at h
  split at h
  · cases h
  · rename_i hc
    simp only [Prod.mk.injEq, Except.ok.injEq] at h
    obtain ⟨h1, h2, _⟩ := h
    subst h1 h2
    refine ⟨_, rfl, rfl, rfl, rfl, ?_⟩
    intro r hr heq
    apply hc
    simp only [Bool.or_eq_true, List.any_eq_true, beq_iff_eq]
    exact Or.inl ⟨r, hr, heq⟩

theorem RevokeRefreshToken_tokens (s : Store) (Sum256 : String → List Nat) (now : Nat)
    (token : String) :
    (s.RevokeRefreshToken Sum256 now token false).2.refresh_tokens =
      s.refresh_tokens.map (revokeRow (hashToken Sum256 token) now) := by
  rw [RevokeRefreshToken_store]
  rfl

theorem handleRefresh_ok (w : World) (Sum256 : String → List Nat)
    (sign : Claims → Except String String) (now : Nat) (userAgent ipAddress R1 : String)
    (resp : RefreshResponse)
    (h : (handleRefresh w Sum256 sign now userAgent ipAddress (some ⟨R1⟩)).1 = .json resp) :
    ∃ (f : RefreshToken → RefreshToken) (rt new : RefreshToken),
      (∀ r, f r = r ∨ f r = { r with LastUsedAt := now })
        ∧ w.store.refresh_tokens.find? (fun r => r.TokenHash == hashToken Sum256 R1) = some rt
        ∧ rt.Revoked = false
        ∧ new.TokenHash = hashToken Sum256 resp.RefreshToken
        ∧ new.Revoked = false
        ∧ new.ExpiresAt = now + RefreshTokenDuration
        ∧ (∀ r ∈ w.store.refresh_tokens, r.TokenHash ≠ new.TokenHash)
        ∧ (handleRefresh w Sum256 sign now userAgent ipAddress
              (some ⟨R1⟩)).2.store.refresh_tokens =
            if w.faults 5 = true then w.store.refresh_tokens.map f ++ [new]
            else (w.store.refresh_tokens.map f ++ [new]).map
              (revokeRow (hashToken Sum256 R1) now) := by
  simp only [handleRefresh] at h ⊢
  by_cases hR : R1 = ""
  · simp [hR] at h
  simp only [hR, ↓reduceIte] at h ⊢
  by_cases f0 : w.faults 0 = true
  · simp [World.ValidateRefreshToken, World.fault, f0] at h
  simp only [World.ValidateRefreshToken, World.fault, f0, Bool.false_eq_true, ↓reduceIte] at h ⊢
  obtain ⟨f, hf1, hf2⟩ := ValidateRefreshToken_tokens w.store Sum256 now R1 (w.faults 1)
  have hiff := ValidateRefreshToken_ok_iff w.store Sum256 now R1 (w.faults 1)
  rcases hv : w.store.ValidateRefreshToken Sum256 now R1 (w.faults 1) with ⟨rv, s1⟩
  rw [hv] at hf1 hiff
  simp only at hf1 hiff
  simp only [hv] at h ⊢
  cases rv with
  | error e => simp at h
  | ok rt =>
    obtain ⟨hfind, hrev, _⟩ := (hiff rt).1 rfl
    simp only [World.read, World.fault] at h ⊢
    by_cases f2 : w.faults 2 = true
    · simp [f2] at h
    simp only [f2, Bool.false_eq_true, ↓reduceIte] at h ⊢
    cases hu : s1.GetUser rt.Username with
    | error e => simp [hu] at h
    | ok user =>
      simp only [hu] at h ⊢
      by_cases f3 : w.faults 3 = true
      · simp [f3] at h
      simp only [f3, Bool.false_eq_true, ↓reduceIte] at h ⊢
      cases hp : s1.GetPermissionsForRoles user.Roles with
      | error e => simp [hp] at h
      | ok rolePerms =>
        simp only [hp] at h ⊢
        rcases hg : GenerateToken sign w.rand now
          { Username := user.Username, Roles := user.Roles,
            Permissions := rolePerms ++ user.CustomPermissions } with ⟨rg, src1⟩
        simp only [hg] at h ⊢
        cases rg with
        | error e => simp at h
        | ok pair =>
          obtain ⟨accessToken, expiresAt⟩ := pair
          simp only [World.CreateRefreshToken, World.fault] at h ⊢
          by_cases f4 : w.faults 4 = true
          · simp [f4] at h
          simp only [f4, Bool.false_eq_true, ↓reduceIte] at h ⊢
          rcases hc : s1.CreateRefreshToken Sum256 src1 now user.Username userAgent ipAddress
            RefreshTokenDuration with ⟨rc, s2, src2⟩
          simp only [hc] at h ⊢
          cases rc with
          | error e => simp at h
          | ok tok =>
            simp only [Reply.json.injEq] at h
            obtain ⟨new, hn1, hn2, hn3, hn4, hn5⟩ := CreateRefreshToken_ok _ _ _ _ _ _ _ _ _ _ _ hc
            have hs1 : s1.refresh_tokens = w.store.refresh_tokens.map f := by rw [hf1]
            refine ⟨f, rt, new, hf2, hfind, hrev, by rw [hn2, ← h], hn3, hn4, ?_, ?_⟩
            · intro r hr
              have hfr : f r ∈ s1.refresh_tokens := by
                rw [hs1]; exact List.mem_map_of_mem f hr
              have hk : (f r).TokenHash = r.TokenHash := by
                rcases hf2 r with h1 | h1 <;> rw [h1]
              rw [← hk]
              exact hn5 _ hfr
            · simp only [World.RevokeRefreshToken, World.fault]
              by_cases f5 : w.faults 5 = true
              · simp [f5, hn1, hs1, RevokeRefreshToken_failed]
              · simp [f5, hn1, hs1, RevokeRefreshToken_tokens]

theorem revokeRow_TokenHash (h : String) (now : Nat) (r : RefreshToken) :
    (revokeRow h now r).TokenHash = r.TokenHash := by
  unfold revokeRow
  split <;> rfl

theorem revokeRow_of_ne (h : String) (now : Nat) (r : RefreshToken) (hne : r.TokenHash ≠ h) :
    revokeRow h now r = r := by
  unfold revokeRow
  simp [hne]

theorem find?_append_new (l : List RefreshToken) (new : RefreshToken) (h : String)
    (hl : ∀ r ∈ l, r.TokenHash ≠ h) (hn : new.TokenHash = h) :
    (l ++ [new]).find? (fun r => r.TokenHash == h) = some new := by
  have hnone : l.find? (fun r => r.TokenHash == h) = none := by
    rw [List.find?_eq_none]
    intro r hr
    simpa using hl r hr
  rw [List.find?_append, hnone]
  simp [hn]

/-- A token whose rows are all revoked does not validate. -/
theorem ValidateRefreshToken_all_revoked (s : Store) (Sum256 : String → List Nat) (now : Nat)
    (token : String) (updateFails : Bool) (rt : RefreshToken)
    (hall : ∀ x ∈ s.refresh_tokens, x.TokenHash = hashToken Sum256 token → x.Revoked = true) :
    (s.ValidateRefreshToken Sum256 now token updateFails).1 ≠ .ok rt := by
  intro hok
  obtain ⟨hfind, hrev, _⟩ := (ValidateRefreshToken_ok_iff s Sum256 now token updateFails rt).1 hok
  have hmem := List.mem_of_find?_eq_some hfind
  have hp := List.find?_some hfind
  have := hall rt hmem (by simpa using hp)
  rw [hrev] at this
  cases this

/-- A refresh with a token that does not validate is answered 401. -/
theorem handleRefresh_401 (w : World) (Sum256 : String → List Nat)
    (sign : Claims → Except String String) (now : Nat) (userAgent ipAddress R : String)
    (hR : R ≠ "")
    (hbad : ∀ rt, (w.store.ValidateRefreshToken Sum256 now R (w.faults 1)).1 ≠ .ok rt) :
    (handleRefresh w Sum256 sign now userAgent ipAddress (some ⟨R⟩)).1.status = 401 := by
  simp only [handleRefresh, hR, ↓reduceIte]
  by_cases f0 : w.faults 0 = true
  · simp [World.ValidateRefreshToken, World.fault, f0, Reply.status]
  simp only [World.ValidateRefreshToken, World.fault, f0, Bool.false_eq_true, ↓reduceIte]
  rcases hv : w.store.ValidateRefreshToken Sum256 now R (w.faults 1) with ⟨rv, s1⟩
  rw [hv] at hbad
  cases rv with
  | error e => rfl
  | ok rt => exact absurd rfl (hbad rt)

/-! ## Claim C19 -/

/-- C19 (counterexample): in the world `revokeFailWorld` the refresh with `r1` at time 100
is answered 200 with a new refresh token, the `UPDATE` of the revocation fails and is only
logged; afterwards `r1` is not revoked, `ValidateRefreshToken` of `r1` succeeds, and a
second refresh with `r1` is answered 200, not 401. -/
theorem C19_counterexample :
    (handleRefresh revokeFailWorld toySum256 toySign 100 "cli" "10.1.1.1"
        (some ⟨"r1"⟩)).1.status = 200
      ∧ (∀ r ∈ (handleRefresh revokeFailWorld toySum256 toySign 100 "cli" "10.1.1.1"
            (some ⟨"r1"⟩)).2.store.refresh_tokens, r.Revoked = false)
      ∧ (∃ rt, ((handleRefresh revokeFailWorld toySum256 toySign 100 "cli" "10.1.1.1"
            (some ⟨"r1"⟩)).2.store.ValidateRefreshToken toySum256 101 "r1" false).1 = .ok rt)
      ∧ (handleRefresh (handleRefresh revokeFailWorld toySum256 toySign 100 "cli" "10.1.1.1"
            (some ⟨"r1"⟩)).2 toySum256 toySign 101 "cli" "10.1.1.1"
            (some ⟨"r1"⟩)).1.status = 200 := by
  refine ⟨by decide, by decide, ⟨_, rfl⟩, by decide⟩

/-- C19 (amended): after a refresh with `R1` that `handleRefresh` answers with a new pair,
the returned refresh token validates in the store at every time up to its expiry
`now + 7 days`; when the `UPDATE` of the revocation (the sixth statement of the request)
did not fail, every row of `R1` is revoked, `ValidateRefreshToken` of `R1` fails and a
later refresh with `R1` on that table is answered 401; when that `UPDATE` failed, `R1`
validates afterwards whenever it validated before. -/
theorem C19_rotation (w : World) (Sum256 : String → List Nat)
    (sign : Claims → Except String String) (now : Nat) (userAgent ipAddress R1 : String)
    (resp : RefreshResponse)
    (h : (handleRefresh w Sum256 sign now userAgent ipAddress (some ⟨R1⟩)).1 = .json resp) :
    (∀ now' updateFails, now' ≤ now + RefreshTokenDuration →
        ∃ rt, ((handleRefresh w Sum256 sign now userAgent ipAddress
          (some ⟨R1⟩)).2.store.ValidateRefreshToken Sum256 now' resp.RefreshToken
            updateFails).1 = .ok rt)
      ∧ (w.faults 5 = false →
          (∀ r ∈ (handleRefresh w Sum256 sign now userAgent ipAddress
              (some ⟨R1⟩)).2.store.refresh_tokens,
            r.TokenHash = hashToken Sum256 R1 → r.Revoked = true)
          ∧ (∀ now' updateFails rt, ((handleRefresh w Sum256 sign now userAgent ipAddress
              (some ⟨R1⟩)).2.store.ValidateRefreshToken Sum256 now' R1 updateFails).1 ≠ .ok rt)
          ∧ (∀ (w2 : World) now' userAgent' ipAddress',
              w2.store.refresh_tokens = (handleRefresh w Sum256 sign now userAgent ipAddress
                (some ⟨R1⟩)).2.store.refresh_tokens →
              (handleRefresh w2 Sum256 sign now' userAgent' ipAddress'
                (some ⟨R1⟩)).1.status = 401))
      ∧ (w.faults 5 = true →
          ∀ now' updateFails updateFails' rt0,
            (w.store.ValidateRefreshToken Sum256 now' R1 updateFails).1 = .ok rt0 →
            ∃ rt, ((handleRefresh w Sum256 sign now userAgent ipAddress
              (some ⟨R1⟩)).2.store.ValidateRefreshToken Sum256 now' R1 updateFails').1 =
                .ok rt) := by
  have hR : R1 ≠ "" := by
    intro hR
    simp [handleRefresh, hR] at h
  obtain ⟨f, rt, new, hf, hfind, hrev, hnh, hnr, hne, huniq, htab⟩ :=
    handleRefresh_ok w Sum256 sign now userAgent ipAddress R1 resp h
  have hfh : ∀ r, (f r).TokenHash = r.TokenHash := by
    intro r
    rcases hf r with h1 | h1 <;> rw [h1]
  have hrtmem := List.mem_of_find?_eq_some hfind
  have hrth : rt.TokenHash = hashToken Sum256 R1 := by
    simpa using List.find?_some hfind
  have hnewne : new.TokenHash ≠ hashToken Sum256 R1 := by
    intro heq
    exact huniq rt hrtmem (by rw [hrth, heq])
  have hA : ∀ r ∈ w.store.refresh_tokens.map f, r.TokenHash ≠ new.TokenHash := by
    intro r hr
    obtain ⟨r0, hr0, rfl⟩ := List.mem_map.1 hr
    rw [hfh]
    exact huniq r0 hr0
  refine ⟨?_, ?_, ?_⟩
  · intro now' updateFails hle
    refine ⟨new, (ValidateRefreshToken_ok_iff _ Sum256 now' _ updateFails new).2
      ⟨?_, hnr, by omega⟩⟩
    rw [htab]
    by_cases f5 : w.faults 5 = true
    · simp only [f5, ↓reduceIte]
      exact find?_append_new _ _ _ (by rw [← hnh]; exact hA) hnh
    · simp only [f5, Bool.false_eq_true, ↓reduceIte, List.map_append, List.map_cons,
        List.map_nil]
      rw [revokeRow_of_ne _ _ new hnewne]
      refine find?_append_new _ _ _ ?_ hnh
      intro r hr
      obtain ⟨r0, hr0, rfl⟩ := List.mem_map.1 hr
      rw [revokeRow_TokenHash, ← hnh]
      exact hA r0 hr0
  · intro f5
    have hall : ∀ r ∈ (handleRefresh w Sum256 sign now userAgent ipAddress
        (some ⟨R1⟩)).2.store.refresh_tokens,
        r.TokenHash = hashToken Sum256 R1 → r.Revoked = true := by
      intro r hr hh
      rw [htab] at hr
      simp only [f5, Bool.false_eq_true, ↓reduceIte] at hr
      exact revoked_after_revoke _ _ now r hr hh
    refine ⟨hall, ?_, ?_⟩
    · intro now' updateFails rt'
      exact ValidateRefreshToken_all_revoked _ Sum256 now' R1 updateFails rt' hall
    · intro w2 now' userAgent' ipAddress' htok
      apply handleRefresh_401 w2 Sum256 sign now' userAgent' ipAddress' R1 hR
      intro rt'
      apply ValidateRefreshToken_all_revoked
      rw [htok]
      exact hall
  · intro f5 now' updateFails updateFails' rt0 hok
    obtain ⟨hfind0, hrev0, hexp0⟩ :=
      (ValidateRefreshToken_ok_iff _ Sum256 now' R1 updateFails rt0).1 hok
    rw [hfind] at hfind0
    cases hfind0
    refine ⟨f rt, (ValidateRefreshToken_ok_iff _ Sum256 now' R1 updateFails' (f rt)).2
      ⟨?_, ?_, ?_⟩⟩
    · rw [htab]
      simp only [f5, ↓reduceIte]
      rw [List.find?_append, List.find?_map]
      have hcomp : ((fun r : RefreshToken => r.TokenHash == hashToken Sum256 R1) ∘ f) =
          (fun r : RefreshToken => r.TokenHash == hashToken Sum256 R1) := by
        funext r
        simp [hfh]
      rw [hcomp, hfind]
      rfl
    · rcases hf rt with h1 | h1 <;> rw [h1] <;> exact hrev
    · rcases hf rt with h1 | h1 <;> rw [h1] <;> exact hexp0

theorem C19_rotation_witness :
    (handleRefresh tokenWorld toySum256 toySign 100 "cli" "10.1.1.1" (some ⟨"r1"⟩)).1 =
        .json { AccessToken := "jwt.alice@ex.com.00000000000000000000000000000000",
                RefreshToken :=
                  "0000000000000000000000000000000000000000000000000000000000000000",
                TokenType := "Bearer", ExpiresIn := 899 }
      ∧ tokenWorld.faults 5 = false
      ∧ (∀ (w2 : World) now' userAgent' ipAddress',
          w2.store.refresh_tokens = (handleRefresh tokenWorld toySum256 toySign 100 "cli"
            "10.1.1.1" (some ⟨"r1"⟩)).2.store.refresh_tokens →
          (handleRefresh w2 toySum256 toySign now' userAgent' ipAddress'
            (some ⟨"r1"⟩)).1.status = 401) :=
  ⟨rfl, rfl,
    ((C19_rotation tokenWorld toySum256 toySign 100 "cli" "10.1.1.1" "r1" _ rfl).2.1 rfl).2.2⟩

/-! ## Active logins -/

theorem RevokeActiveLoginByID_store (s : Store) (now : Nat) (sessionID : Int)
    (username : String) :
    (s.RevokeActiveLoginByID now sessionID username).2 =
      { s with
        refresh_tokens :=
          s.refresh_tokens.map (fun r =>
            if ((r.ID : Int) == sessionID && r.Username == username && !r.Revoked) = true then
              { r with Revoked := true, RevokedAt := some now }
            else r) } := by
  simp only [Store.RevokeActiveLoginByID]
  split <;> rfl

theorem RevokeActiveLoginByID_ok_iff (s : Store) (now : Nat) (sessionID : Int)
    (username : String) :
    (s.RevokeActiveLoginByID now sessionID username).1 = .ok () ↔
      ∃ r ∈ s.refresh_tokens, (r.ID : Int) = sessionID ∧ r.Username = username
        ∧ r.Revoked = false := by
  simp only [Store.RevokeActiveLoginByID]
  by_cases h0 : (s.refresh_tokens.filter
      (fun r => (r.ID : Int) == sessionID && r.Username == username && !r.Revoked)).length = 0
  · simp only [h0, ↓reduceIte]
    constructor
    · intro h; cases h
    · rintro ⟨r, hr, h1, h2, h3⟩
      have : r ∈ s.refresh_tokens.filter
          (fun r => (r.ID : Int) == sessionID && r.Username == username && !r.Revoked) := by
        simp [List.mem_filter, hr, h1, h2, h3]
      rw [List.length_eq_zero] at h0
      rw [h0] at this
      cases this
  · simp only [h0, ↓reduceIte, true_iff]
    obtain ⟨r, hr⟩ := List.exists_mem_of_length_pos (Nat.pos_of_ne_zero h0)
    simp only [List.mem_filter, Bool.and_eq_true, beq_iff_eq, Bool.not_eq_true'] at hr
    exact ⟨r, hr.1, hr.2.1.1, hr.2.1.2, hr.2.2⟩

/-! ## Claim C21 -/

/-- C21: for a login id `n` and a caller, `DELETE /api/active-logins/n` leaves every row of
`refresh_tokens` as it was, except that a row with id `n` that belongs to the caller and
is not revoked may become revoked at `now`; the other tables are untouched; the answer is
200 exactly when the `UPDATE` did not fail and such a row exists; and when no row with id
`n` belongs to the caller (the row is another user's, or there is none) the answer is 404
and the store is unchanged. -/
theorem C21_revoke_own_login_only (w : World) (now : Nat) (claims : Claims) (id : String)
    (n : Int) (hid : ParseInt id = some n) :
    List.Forall₂
        (fun r r' =>
          r' = r ∨ ((r.ID : Int) = n ∧ r.Username = claims.Username ∧ r.Revoked = false
            ∧ r' = { r with Revoked := true, RevokedAt := some now }))
        w.store.refresh_tokens
        (handleRevokeActiveLogin w now (some claims) id).2.store.refresh_tokens
      ∧ (handleRevokeActiveLogin w now (some claims) id).2.store =
          { w.store with
            refresh_tokens :=
              (handleRevokeActiveLogin w now (some claims) id).2.store.refresh_tokens }
      ∧ ((handleRevokeActiveLogin w now (some claims) id).1.status = 200 ↔
          w.faults 0 = false ∧ ∃ r ∈ w.store.refresh_tokens,
            (r.ID : Int) = n ∧ r.Username = claims.Username ∧ r.Revoked = false)
      ∧ ((∀ r ∈ w.store.refresh_tokens, (r.ID : Int) = n → r.Username ≠ claims.Username) →
          (handleRevokeActiveLogin w now (some claims) id).1 =
              .error 404 "session not found or already revoked"
            ∧ (handleRevokeActiveLogin w now (some claims) id).2.store = w.store) := by
  by_cases f0 : w.faults 0 = true
  · have hrep : handleRevokeActiveLogin w now (some claims) id =
        (.error 404 "session not found or already revoked",
          { w with faults := fun i => w.faults (i + 1) }) := by
      simp [handleRevokeActiveLogin, hid, World.RevokeActiveLoginByID, World.fault, f0]
    rw [hrep]
    refine ⟨List.forall₂_same.2 (fun r _ => Or.inl rfl), rfl, ?_, fun _ => ⟨rfl, rfl⟩⟩
    simp [Reply.status, f0]
  · have f0' : w.faults 0 = false := by simpa using f0
    have hiff := RevokeActiveLoginByID_ok_iff w.store now n claims.Username
    have hst := RevokeActiveLoginByID_store w.store now n claims.Username
    rcases hX : w.store.RevokeActiveLoginByID now n claims.Username with ⟨r, s1⟩
    rw [hX] at hiff hst
    simp only at hiff hst
    have hstore : (handleRevokeActiveLogin w now (some claims) id).2.store = s1 := by
      cases r <;>
        simp [handleRevokeActiveLogin, hid, World.RevokeActiveLoginByID, World.fault, f0', hX]
    have hrepl : (handleRevokeActiveLogin w now (some claims) id).1 =
        match r with
        | .error _ => .error 404 "session not found or already revoked"
        | .ok _ => .json { Message := "Active login revoked successfully" } := by
      cases r <;>
        simp [handleRevokeActiveLogin, hid, World.RevokeActiveLoginByID, World.fault, f0', hX]
    rw [hstore, hrepl]
    refine ⟨?_, ?_, ?_, ?_⟩
    · rw [hst]
      simp only
      rw [List.forall₂_map_right_iff]
      apply List.forall₂_same.2
      intro x _
      by_cases hit : ((x.ID : Int) == n && x.Username == claims.Username && !x.Revoked) = true
      · rw [if_pos hit]
        simp only [Bool.and_eq_true, beq_iff_eq, Bool.not_eq_true'] at hit
        exact Or.inr ⟨hit.1.1, hit.1.2, hit.2, rfl⟩
      · rw [if_neg hit]
        exact Or.inl rfl
    · rw [hst]
    · cases r with
      | error e =>
        simp only [Reply.status, f0', true_and]
        constructor
        · intro h; cases h
        · intro h
          have := hiff.2 h
          cases this
      | ok u =>
        simp only [Reply.status, f0', true_and, true_iff]
        exact hiff.1 rfl
    · intro hno
      have hnot : ¬ ∃ r ∈ w.store.refresh_tokens, (r.ID : Int) = n ∧
          r.Username = claims.Username ∧ r.Revoked = false := by
        rintro ⟨x, hx, h1, h2, _⟩
        exact hno x hx h1 h2
      cases r with
      | ok u => exact absurd (hiff.1 rfl) hnot
      | error e =>
        refine ⟨rfl, ?_⟩
        rw [hst]
        have hmap := map_eq_self_of_forall (fun r : RefreshToken =>
            if ((r.ID : Int) == n && r.Username == claims.Username && !r.Revoked) = true then
              { r with Revoked := true, RevokedAt := some now }
            else r) w.store.refresh_tokens (by
          intro x hx
          have : ((x.ID : Int) == n && x.Username == claims.Username && !x.Revoked) = false := by
            by_cases h1 : (x.ID : Int) = n
            · have := hno x hx h1
              simp [this]
            · simp [h1]
          simp [this])
        rw [hmap]

/-- Witness of C21: `alice@ex.com` asks to revoke the login of id 2, which is the login of
`bob@ex.com`: the answer is 404 and the store is as it was. -/
theorem C21_revoke_own_login_only_witness :
    ParseInt "2" = some 2
      ∧ (∀ r ∈ twoLoginWorld.store.refresh_tokens, (r.ID : Int) = 2 →
          r.Username ≠ aliceClaims.Username)
      ∧ (handleRevokeActiveLogin twoLoginWorld 100 (some aliceClaims) "2").1 =
          .error 404 "session not found or already revoked"
      ∧ (handleRevokeActiveLogin twoLoginWorld 100 (some aliceClaims) "2").2.store =
          twoLoginWorld.store :=
  ⟨by decide, by decide,
    (C21_revoke_own_login_only twoLoginWorld 100 aliceClaims "2" 2 (by decide)).2.2.2
      (by decide)⟩

/-! ## Validation of access tokens -/

theorem GetSigningMethod_HMAC (alg name : String)
    (h : GetSigningMethod alg = some (.HMAC name)) :
    alg = "HS256" ∨ alg = "HS384" ∨ alg = "HS512" := by
  simp only [GetSigningMethod] at h
  split_ifs at h with h1 <;> first | exact h1 | cases h

theorem keyFunc_error_of_not_HMAC (secret : String) (token : Token)
    (h : ∀ name, token.Method ≠ .HMAC name) : ∃ e, keyFunc secret token = .error e := by
  unfold keyFunc
  cases hm : token.Method with
  | HMAC name => exact absurd hm (h name)
  | _ => exact ⟨_, rfl⟩

/-! ## Claim C22 -/

/-- C22: for a token whose header algorithm is none of the HMAC methods `HS256`, `HS384`,
`HS512` (in particular for `alg = none`), the key function returns an error for the
token the parser hands it, `ValidateToken` returns an error and so no claims, and no call
of `Verify` is made, so the secret reaches no verifier. -/
theorem C22_non_hmac_rejected (secret : String) (decode : String → Option Segments)
    (verify : VerifyCall → Bool) (validClaims : Claims → Bool) (tokenString : String)
    (seg : Segments) (hdec : decode tokenString = some seg)
    (hnot : seg.alg ≠ some "HS256" ∧ seg.alg ≠ some "HS384" ∧ seg.alg ≠ some "HS512") :
    (∀ alg method, seg.alg = some alg → GetSigningMethod alg = some method →
        ∃ e, keyFunc secret { alg := seg.alg, Method := method, Claims := seg.claims } =
          .error e)
      ∧ (∃ e, (ValidateToken secret decode verify validClaims tokenString).1 = .error e)
      ∧ (ValidateToken secret decode verify validClaims tokenString).2 = [] := by
  have hkey : ∀ alg method, seg.alg = some alg → GetSigningMethod alg = some method →
      ∃ e, keyFunc secret { alg := seg.alg, Method := method, Claims := seg.claims } =
        .error e := by
    intro alg method halg hm
    apply keyFunc_error_of_not_HMAC
    intro name hname
    simp only at hname
    rw [hname] at hm
    rcases GetSigningMethod_HMAC alg name hm with h | h | h
    · exact hnot.1 (by rw [halg, h])
    · exact hnot.2.1 (by rw [halg, h])
    · exact hnot.2.2 (by rw [halg, h])
  refine ⟨hkey, ?_⟩
  cases halg : seg.alg with
  | none => simp [ValidateToken, ParseWithClaims, hdec, halg]
  | some alg =>
    cases hm : GetSigningMethod alg with
    | none => simp [ValidateToken, ParseWithClaims, hdec, halg, hm]
    | some method =>
      obtain ⟨e, he⟩ := hkey alg method halg hm
      rw [halg] at he
      simp [ValidateToken, ParseWithClaims, hdec, halg, hm, he]

/-- Witness of C22: the token with the header `alg = none`, whatever the verifier. -/
theorem C22_non_hmac_rejected_witness :
    toyDecode "none-token" =
        some { alg := some "none", claims := aliceClaims, text := "e30.e30", signature := "" }
      ∧ (∃ e, (ValidateToken "secret" toyDecode (fun _ => true) (fun _ => true)
          "none-token").1 = .error e)
      ∧ (ValidateToken "secret" toyDecode (fun _ => true) (fun _ => true) "none-token").2 = [] :=
  ⟨by decide,
    (C22_non_hmac_rejected "secret" toyDecode (fun _ => true) (fun _ => true) "none-token"
      { alg := some "none", claims := aliceClaims, text := "e30.e30", signature := "" }
      (by decide) (by decide)).2⟩

/-! ## Construction of the store -/

theorem hexDecode_ok : ∀ (cs : List Char) (bytes : List Nat), hexDecode cs = .ok bytes →
    cs.length = 2 * bytes.length ∧ ∀ c ∈ cs, fromHexChar c ≠ none
  | [], bytes, h => by
    simp only [hexDecode, Except.ok.injEq] at h
    subst h
    simp
  | [c], bytes, h => by
    simp only [hexDecode] at h
    split at h <;> cases h
  | a :: b :: rest, bytes, h => by
    simp only [hexDecode] at h
    cases ha : fromHexChar a with
    | none => simp [ha] at h
    | some x =>
      cases hb : fromHexChar b with
      | none => simp [ha, hb] at h
      | some y =>
        cases hr : hexDecode rest with
        | error e => simp [ha, hb, hr] at h
        | ok bs =>
          simp only [ha, hb, hr, Except.ok.injEq] at h
          subst h
          obtain ⟨h1, h2⟩ := hexDecode_ok rest bs hr
          refine ⟨by simp only [List.length_cons, h1]; omega, ?_⟩
          intro c hc
          simp only [List.mem_cons] at hc
          rcases hc with rfl | rfl | hc
          · simp [ha]
          · simp [hb]
          · exact h2 c hc

/-! ## Claim C23 -/

/-- C23: `NewStore` returns an error, with no call made and so nothing opened, for every
key whose length is not 32 bytes; and `initStore` returns an error, again with no call
made, when `ZGATE_STORE_KEY` is empty, when it holds a character that is no hex digit,
when its length is odd, and when its length is not 64, that is when it decodes to a
number of bytes other than 32. -/
theorem C23_key_must_be_32_bytes (w : World) :
    (∀ dbPath key, key.length ≠ 32 →
        NewStore w dbPath key =
          (.error "encryption key must be exactly 32 bytes for AES-256", w))
      ∧ (∀ dbPath, ∃ e, (NewStore w dbPath []).1 = .error e)
      ∧ (∀ dbPath handle key, (NewStore w dbPath key).1 = .ok handle →
          key.length = 32 ∧ handle.encryptionKey = key)
      ∧ (∀ getenv, getenv "ZGATE_STORE_KEY" = "" →
          (∃ e, (initStore w getenv).1 = .error e) ∧ (initStore w getenv).2 = w)
      ∧ (∀ getenv, (∃ c ∈ (getenv "ZGATE_STORE_KEY").data, fromHexChar c = none) →
          (∃ e, (initStore w getenv).1 = .error e) ∧ (initStore w getenv).2 = w)
      ∧ (∀ getenv, (getenv "ZGATE_STORE_KEY").data.length ≠ 64 →
          (∃ e, (initStore w getenv).1 = .error e) ∧ (initStore w getenv).2 = w)
      ∧ (∀ getenv key, DecodeString (getenv "ZGATE_STORE_KEY") = .ok key → key.length ≠ 32 →
          (∃ e, (initStore w getenv).1 = .error e) ∧ (initStore w getenv).2 = w)
      ∧ (∀ getenv handle, (initStore w getenv).1 = .ok handle →
          handle.encryptionKey.length = 32
            ∧ DecodeString (getenv "ZGATE_STORE_KEY") = .ok handle.encryptionKey) := by
  have hnew : ∀ dbPath key, key.length ≠ 32 →
      NewStore w dbPath key =
        (.error "encryption key must be exactly 32 bytes for AES-256", w) := by
    intro dbPath key hk
    simp [NewStore, hk]
  have hnewok : ∀ dbPath handle key, (NewStore w dbPath key).1 = .ok handle →
      key.length = 32 ∧ handle.encryptionKey = key := by
    intro dbPath handle key h
    by_cases hk : key.length = 32
    · refine ⟨hk, ?_⟩
      simp only [NewStore, hk, ne_eq, not_true_eq_false, ↓reduceIte, World.fault] at h
      by_cases f0 : w.faults 0 = true
      · simp [f0] at h
      · by_cases f1 : w.faults 1 = true
        · simp [f0, f1, World.emit] at h
        · by_cases f2 : w.faults 2 = true
          · simp [f0, f1, f2, World.emit] at h
          · simp [f0, f1, f2, World.emit] at h
            rw [← h]
    · rw [hnew dbPath key hk] at h
      cases h
  have hdecode : ∀ getenv, (∀ key, DecodeString (getenv "ZGATE_STORE_KEY") = .ok key →
      key.length ≠ 32) →
      (∃ e, (initStore w getenv).1 = .error e) ∧ (initStore w getenv).2 = w := by
    intro getenv hk
    by_cases he : getenv "ZGATE_STORE_KEY" = ""
    · simp [initStore, he]
    · cases hd : DecodeString (getenv "ZGATE_STORE_KEY") with
      | error e => simp [initStore, he, hd]
      | ok key => simp [initStore, he, hd, hk key hd]
  refine ⟨hnew, fun dbPath => ⟨_, by rw [hnew dbPath [] (by decide)]⟩, hnewok, ?_, ?_, ?_, ?_, ?_⟩
  · intro getenv he
    simp [initStore, he]
  · rintro getenv ⟨c, hc, hbad⟩
    apply hdecode
    intro key hd
    exact absurd hbad ((hexDecode_ok _ key hd).2 c hc)
  · intro getenv hlen
    apply hdecode
    intro key hd hk
    have := (hexDecode_ok _ key hd).1
    omega
  · intro getenv key hd hk
    apply hdecode
    intro key' hd'
    rw [hd] at hd'
    cases hd'
    exact hk
  · intro getenv handle h
    by_cases he : getenv "ZGATE_STORE_KEY" = ""
    · simp [initStore, he] at h
    · cases hd : DecodeString (getenv "ZGATE_STORE_KEY") with
      | error e => simp [initStore, he, hd] at h
      | ok key =>
        by_cases hk : key.length = 32
        · simp only [initStore, he, ↓reduceIte, hd, hk, ne_eq, not_true_eq_false] at h
          obtain ⟨_, h2⟩ := hnewok _ handle key h
          rw [h2]
          exact ⟨hk, rfl⟩
        · simp [initStore, he, hd, hk] at h

/-- An environment whose key is 64 hex digits is accepted when no call fails. -/
theorem initStore_accepts :
    (initStore quietWorld (fun name =>
        if name = "ZGATE_STORE_KEY" then
          "000102030405060708090a0b0c0d0e0f101112131415161718191A1B1C1D1E1F"
        else "")).1 =
      .ok { dbPath := "data/zgate.db", encryptionKey := List.range 32 } := by
  rfl

/-! ## Claim C24 -/

/-- C24 (as stated, refuted): it is not so that for every registry and world, after the
signal context is cancelled, no session remains registered and every session that was
registered had its cancellation handle fired and its temp account dropped through the
driver. After the connect of `alice@ex.com` to `salesdb` under the token `tok` the process
is shut down and exits with code 0, and her session is still registered. -/
theorem C24_counterexample :
    ¬ (∀ (m : Manager) (w : World),
        (mainOnSignal m w).2.1.sessions = []
          ∧ ∀ token s, mapGet m.sessions token = some s →
              Event.cancel s.Cancel ∈ newEvents w (mainOnSignal m w).2.2
                ∧ Event.deleteTempUser s.DBManager.db s.TempCredentials.Username ∈
                    newEvents w (mainOnSignal m w).2.2) := by
  intro h
  have h1 := (h aliceConnected.2.1 aliceConnected.2.2).1
  have h2 : mapGet (mainOnSignal aliceConnected.2.1 aliceConnected.2.2).2.1.sessions "tok" =
      some aliceSession := by decide
  rw [h1] at h2
  cases h2

/-- C24 (amended): on the cancellation of the signal context `main` only shuts the API
server down and, when that succeeded, closes the store: for every registry and world the
registry, the store and the backends are as before, the only events are those two calls,
so no cancellation handle is fired and no `DeleteTempUser` is called, and the exit code
is 0 exactly when the shutdown of the API server did not fail. -/
theorem C24_shutdown_leaves_sessions (m : Manager) (w : World) :
    (mainOnSignal m w).2.1 = m
      ∧ (mainOnSignal m w).2.2.backends = w.backends
      ∧ (mainOnSignal m w).2.2.store = w.store
      ∧ (∀ e ∈ newEvents w (mainOnSignal m w).2.2,
          (∃ ok, e = .httpShutdown ok) ∨ ∃ ok, e = .storeClose ok)
      ∧ (∀ ctx, Event.cancel ctx ∉ newEvents w (mainOnSignal m w).2.2)
      ∧ (∀ db u, Event.deleteTempUser db u ∉ newEvents w (mainOnSignal m w).2.2)
      ∧ ((mainOnSignal m w).1 = 0 ↔ w.faults 0 = false) := by
  by_cases f0 : w.faults 0 = true
  · refine ⟨?_, ?_, ?_, ?_, ?_, ?_, ?_⟩ <;>
      simp [mainOnSignal, api.Server.Shutdown, World.fault, World.emit, f0, newEvents]
  · by_cases f1 : w.faults 1 = true <;> refine ⟨?_, ?_, ?_, ?_, ?_, ?_, ?_⟩ <;>
      simp [mainOnSignal, api.Server.Shutdown, World.fault, World.emit, f0, f1, newEvents]

/-! ## The grants of `CreateTempUser` -/

theorem grantLoop_stmts (d : Driver) (g : String → String → Option Stmt) (username : String)
    (permissions : List String) (w : World) :
    ∃ execs, (grantLoop d g username permissions w).trace = w.trace ++ execs
      ∧ execStmts execs = permissions.filterMap (fun perm => g perm username) := by
  induction permissions generalizing w with
  | nil => exact ⟨[], by simp [grantLoop], rfl⟩
  | cons perm rest ih =>
    cases hs : g perm username with
    | none =>
      obtain ⟨execs, h1, h2⟩ := ih w
      refine ⟨execs, by simp only [grantLoop, hs]; exact h1, ?_⟩
      rw [h2]
      simp [List.filterMap_cons, hs]
    | some stmt =>
      obtain ⟨execs, h1, h2⟩ := ih (d.ExecContext w stmt).2
      refine ⟨.exec d.db stmt (d.ExecContext w stmt).1 :: execs, ?_, ?_⟩
      · simp only [grantLoop, hs]
        rw [h1, ExecContext_trace]
        simp
      · simp only [execStmts, List.filterMap_cons, Event.execStmt, hs]
        rw [← h2]
        rfl

theorem mssqlDeleteTempUser_trace (d : Driver) (w : World) (u : String) :
    (mssqlDeleteTempUser d w u).2.trace =
        w.trace ++ [.deleteTempUser d.db u, .exec d.db (.mssqlDropUser u) (!(w.faults 0)),
          .exec d.db (.mssqlDropLogin u) (!(w.faults 1))]
      ∧ (mssqlDeleteTempUser d w u).1 =
          if w.faults 1 = true then .error "failed to drop login" else .ok () := by
  by_cases f1 : w.faults 1 = true <;>
    simp [mssqlDeleteTempUser, World.emit, f1]

theorem mssqlCreateTempUser_rollback (d : Driver) (w : World) (u p : String)
    (perms : List String) (f0 : w.faults 0 = false) (f1 : w.faults 1 = true) :
    (mssqlCreateTempUser d w u p perms).1 = .error "failed to create user"
      ∧ (mssqlCreateTempUser d w u p perms).2.trace =
          w.trace ++ [.createTempUser d.db u p perms,
            .exec d.db (.mssqlCreateLogin u p) true, .exec d.db (.mssqlCreateUser u) false,
            .deleteTempUser d.db u, .exec d.db (.mssqlDropUser u) (!(w.faults 2)),
            .exec d.db (.mssqlDropLogin u) (!(w.faults 3))] := by
  have hrb : mssqlCreateTempUser d w u p perms =
      (.error "failed to create user",
        (mssqlDeleteTempUser d (d.ExecContext (d.ExecContext
          (w.emit (.createTempUser d.db u p perms)) (.mssqlCreateLogin u p)).2
            (.mssqlCreateUser u)).2 u).2) := by
    simp [mssqlCreateTempUser, f0, f1]
  rw [hrb]
  refine ⟨rfl, ?_⟩
  rw [(mssqlDeleteTempUser_trace d _ u).1]
  simp [World.emit, f0, f1]

theorem grantSQL_none_iff (kind : DriverKind) (perm username : String) :
    grantSQL kind perm username = none ↔ perm ≠ "read" ∧ perm ≠ "write" ∧ perm ≠ "admin" := by
  cases kind <;> simp only [grantSQL, mysqlGrantSQL, mssqlGrantSQL] <;>
    split_ifs <;> simp_all

/-! ## Claim C25 -/

/-- C25: for either driver and every list of levels, when no account-creating statement
of `CreateTempUser` failed, the call returns success, whatever the outcome of the
statements after them; the statements it sent are the creating ones, then one grant for
each level among `read`, `write`, `admin`, in the order of the list, and nothing for any
other level, then `FLUSH PRIVILEGES` for MySQL. -/
theorem C25_grants_never_fail (d : Driver) (w : World) (u p : String) (perms : List String)
    (h : (newEvents w (d.CreateTempUser w u p perms).2).all (fun e => !e.failedCreate) = true) :
    (d.CreateTempUser w u p perms).1 = .ok ()
      ∧ execStmts (newEvents w (d.CreateTempUser w u p perms).2) =
          createStmts d.kind u p ++ perms.filterMap (fun perm => grantSQL d.kind perm u)
            ++ closingStmts d.kind
      ∧ (∀ perm, grantSQL d.kind perm u = none ↔
          perm ≠ "read" ∧ perm ≠ "write" ∧ perm ≠ "admin") := by
  refine ⟨?_, ?_, fun perm => grantSQL_none_iff d.kind perm u⟩
  · cases hk : d.kind
    · by_cases f0 : w.faults 0 = true
      · simp [Driver.CreateTempUser, hk, mysqlCreateTempUser, f0, newEvents, World.emit,
          Event.failedCreate, Stmt.creates] at h
      · simp [Driver.CreateTempUser, hk, mysqlCreateTempUser, f0]
    · by_cases f0 : w.faults 0 = true
      · simp [Driver.CreateTempUser, hk, mssqlCreateTempUser, f0, newEvents, World.emit,
          Event.failedCreate, Stmt.creates] at h
      · by_cases f1 : w.faults 1 = true
        · have f0' : w.faults 0 = false := by simpa using f0
          have htr := (mssqlCreateTempUser_rollback d w u p perms f0' f1).2
          rw [newEvents_append w _ _ (by simp only [Driver.CreateTempUser, hk]; exact htr)] at h
          simp [Event.failedCreate, Stmt.creates] at h
        · simp [Driver.CreateTempUser, hk, mssqlCreateTempUser, f0, f1]
  · cases hk : d.kind
    · by_cases f0 : w.faults 0 = true
      · simp [Driver.CreateTempUser, hk, mysqlCreateTempUser, f0, newEvents, World.emit,
          Event.failedCreate, Stmt.creates] at h
      · obtain ⟨execs, h1, h2⟩ := grantLoop_stmts d mysqlGrantSQL u perms
          (d.ExecContext (w.emit (.createTempUser d.db u p perms)) (.mysqlCreateUser u p)).2
        rw [newEvents_append w _ (.createTempUser d.db u p perms ::
          .exec d.db (.mysqlCreateUser u p) true :: (execs ++
            [.exec d.db .mysqlFlush (!((grantLoop d mysqlGrantSQL u perms
              (d.ExecContext (w.emit (.createTempUser d.db u p perms))
                (.mysqlCreateUser u p)).2).faults 0))]))
          (by simp [Driver.CreateTempUser, hk, mysqlCreateTempUser, f0, h1])]
        simp only [execStmts, List.filterMap_cons, Event.execStmt, List.filterMap_append,
          List.filterMap_nil] at h2 ⊢
        rw [h2]
        simp [createStmts, closingStmts, grantSQL]
    · by_cases f0 : w.faults 0 = true
      · simp [Driver.CreateTempUser, hk, mssqlCreateTempUser, f0, newEvents, World.emit,
          Event.failedCreate, Stmt.creates] at h
      · by_cases f1 : w.faults 1 = true
        · have f0' : w.faults 0 = false := by simpa using f0
          have htr := (mssqlCreateTempUser_rollback d w u p perms f0' f1).2
          rw [newEvents_append w _ _ (by simp only [Driver.CreateTempUser, hk]; exact htr)] at h
          simp [Event.failedCreate, Stmt.creates] at h
        · obtain ⟨execs, h1, h2⟩ := grantLoop_stmts d mssqlGrantSQL u perms
            (d.ExecContext (d.ExecContext (w.emit (.createTempUser d.db u p perms))
              (.mssqlCreateLogin u p)).2 (.mssqlCreateUser u)).2
          rw [newEvents_append w _ (.createTempUser d.db u p perms ::
            .exec d.db (.mssqlCreateLogin u p) true ::
              .exec d.db (.mssqlCreateUser u) true :: execs)
            (by simp [Driver.CreateTempUser, hk, mssqlCreateTempUser, f0, f1, h1])]
          simp only [execStmts, List.filterMap_cons, Event.execStmt] at h2 ⊢
          rw [h2]
          simp [createStmts, closingStmts, grantSQL]

/-- Witness of C25: the MySQL driver of `aliceSession` with the levels `read`, `audit`,
`write` in a world where every statement after `CREATE USER` fails: success, and the
grants sent are those of `read` and `write`. -/
theorem C25_grants_never_fail_witness :
    (aliceSession.DBManager.CreateTempUser grantFailWorld "zgate_alice_00000000" "pw"
        ["read", "audit", "write"]).1 = .ok ()
      ∧ execStmts (newEvents grantFailWorld
          (aliceSession.DBManager.CreateTempUser grantFailWorld "zgate_alice_00000000" "pw"
            ["read", "audit", "write"]).2) =
        [.mysqlCreateUser "zgate_alice_00000000" "pw",
          .mysqlGrant "SELECT" "zgate_alice_00000000",
          .mysqlGrant "SELECT, INSERT, UPDATE, DELETE" "zgate_alice_00000000",
          .mysqlFlush] :=
  ⟨(C25_grants_never_fail aliceSession.DBManager grantFailWorld "zgate_alice_00000000" "pw"
      ["read", "audit", "write"] (by decide)).1,
    (C25_grants_never_fail aliceSession.DBManager grantFailWorld "zgate_alice_00000000" "pw"
      ["read", "audit", "write"] (by decide)).2.1⟩

/-! ## Claim C26 -/

/-- C26: in the MSSQL driver, when the login step of `CreateTempUser` succeeds and the
`CREATE USER` step fails, the call sends the conditional `DROP USER` and then the
conditional `DROP LOGIN` for the same name, in that order, and returns the error of the
user step. `DeleteTempUser` always sends those two statements in that order, whatever the
backend holds, and returns success exactly when the `DROP LOGIN` statement did not fail:
neither a failed `DROP USER` nor a missing account makes it fail. -/
theorem C26_mssql_rollback_and_delete (d : Driver) (w : World) (u p : String)
    (perms : List String) (hk : d.kind = .mssql) :
    (w.faults 0 = false → w.faults 1 = true →
        (d.CreateTempUser w u p perms).1 = .error "failed to create user"
          ∧ ∃ ok1 ok2, newEvents w (d.CreateTempUser w u p perms).2 =
              [.createTempUser d.db u p perms,
                .exec d.db (.mssqlCreateLogin u p) true, .exec d.db (.mssqlCreateUser u) false,
                .deleteTempUser d.db u, .exec d.db (.mssqlDropUser u) ok1,
                .exec d.db (.mssqlDropLogin u) ok2])
      ∧ (∃ ok1 ok2, newEvents w (d.DeleteTempUser w u).2 =
            [.deleteTempUser d.db u, .exec d.db (.mssqlDropUser u) ok1,
              .exec d.db (.mssqlDropLogin u) ok2]
          ∧ ((d.DeleteTempUser w u).1 = .ok () ↔ ok2 = true))
      ∧ (w.faults 1 = false → (d.DeleteTempUser w u).1 = .ok ()) := by
  obtain ⟨ht, hr⟩ := mssqlDeleteTempUser_trace d w u
  refine ⟨?_, ?_, ?_⟩
  · intro f0 f1
    obtain ⟨h1, h2⟩ := mssqlCreateTempUser_rollback d w u p perms f0 f1
    simp only [Driver.CreateTempUser, hk]
    exact ⟨h1, _, _, newEvents_append w _ _ h2⟩
  · refine ⟨!(w.faults 0), !(w.faults 1), ?_, ?_⟩
    · simp only [Driver.DeleteTempUser, hk]
      exact newEvents_append w _ _ ht
    · simp only [Driver.DeleteTempUser, hk, hr]
      by_cases f1 : w.faults 1 = true <;> simp [f1]
  · intro f1
    simp only [Driver.DeleteTempUser, hk, hr]
    simp [f1]

/-- Witness of C26: the MSSQL driver of `hrSession` in a world where the second statement
fails: the login is created, the user step fails, and the two drops follow. -/
theorem C26_mssql_rollback_and_delete_witness :
    hrSession.DBManager.kind = .mssql
      ∧ (hrSession.DBManager.CreateTempUser userStepFailWorld "zgate_alice_00000000" "pw"
          ["read"]).1 = .error "failed to create user"
      ∧ (hrSession.DBManager.DeleteTempUser quietWorld "zgate_alice_00000000").1 = .ok () :=
  ⟨rfl,
    ((C26_mssql_rollback_and_delete hrSession.DBManager userStepFailWorld
      "zgate_alice_00000000" "pw" ["read"] rfl).1 (by decide) (by decide)).1,
    (C26_mssql_rollback_and_delete hrSession.DBManager quietWorld
      "zgate_alice_00000000" "pw" ["read"] rfl).2.2 (by decide)⟩

/-! ## Saving users and roles -/

theorem insertUserRole_ok (t t1 : Store) (username role : String)
    (h : t.insertUserRole username role = .ok t1) :
    t1 = { t with user_roles := t.user_roles ++ [{ username := username, role_name := role }] }
      ∧ ({ username := username, role_name := role } : UserRoleRow) ∉ t.user_roles
      ∧ (∃ x ∈ t.roles, x.name = role) := by
  simp only [Store.insertUserRole] at h
  split_ifs at h with h1 h2
  simp only [Except.ok.injEq] at h
  refine ⟨h.symm, ?_, ?_⟩
  · intro hmem
    apply h1
    simp only [List.any_eq_true, Bool.and_eq_true, beq_iff_eq]
    exact ⟨_, hmem, rfl, rfl⟩
  · simp only [Bool.or_eq_true, Bool.not_eq_true', not_or, Bool.not_eq_false,
      List.any_eq_true, beq_iff_eq] at h2
    exact h2.2

theorem insertUserCustomPermission_ok (t t1 : Store) (username : String) (perm : Permission)
    (h : t.insertUserCustomPermission username perm = .ok t1) :
    t1 = { t with
        user_custom_permissions :=
          t.user_custom_permissions ++
            [{ username := username, database_name := perm.Database, level := perm.Level }] }
      ∧ ({ username := username, database_name := perm.Database, level := perm.Level } :
          UserCustomPermissionRow) ∉ t.user_custom_permissions := by
  simp only [Store.insertUserCustomPermission] at h
  split_ifs at h with h1 h2
  simp only [Except.ok.injEq] at h
  refine ⟨h.symm, ?_⟩
  intro hmem
  apply h1
  simp only [List.any_eq_true, Bool.and_eq_true, beq_iff_eq]
  exact ⟨_, hmem, ⟨rfl, rfl⟩, rfl⟩

theorem insertRolePermission_ok (t t1 : Store) (roleName : String) (perm : Permission)
    (h : t.insertRolePermission roleName perm = .ok t1) :
    t1 = { t with
        role_permissions :=
          t.role_permissions ++
            [{ role_name := roleName, database_name := perm.Database, level := perm.Level }] }
      ∧ (∀ r ∈ t.role_permissions, r.role_name = roleName → r.database_name ≠ perm.Database)
      ∧ (∃ d ∈ t.databases, d.Name = perm.Database) := by
  simp only [Store.insertRolePermission] at h
  split_ifs at h with h1 h2
  simp only [Except.ok.injEq] at h
  refine ⟨h.symm, ?_, ?_⟩
  · intro r hr hrole hdb
    apply h1
    simp only [List.any_eq_true, Bool.and_eq_true, beq_iff_eq]
    exact ⟨r, hr, hrole, hdb⟩
  · simp only [Bool.or_eq_true, Bool.not_eq_true', not_or, Bool.not_eq_false,
      List.any_eq_true, beq_iff_eq] at h2
    exact h2.2

theorem txInsertAll_insertUserRole (username : String) (faults : Nat → Bool) :
    ∀ (roles : List String) (k : Nat) (t t1 : Store) (k1 : Nat),
      txInsertAll (fun t role => t.insertUserRole username role) faults roles k t =
        .ok (t1, k1) →
      t1 = { t with
          user_roles := t.user_roles ++
            roles.map (fun role => { username := username, role_name := role }) }
        ∧ k1 = k + roles.length
        ∧ (∀ role ∈ roles,
            ({ username := username, role_name := role } : UserRoleRow) ∉ t.user_roles
              ∧ ∃ x ∈ t.roles, x.name = role)
        ∧ roles.Nodup
  | [], k, t, t1, k1, h => by
    simp only [txInsertAll, Except.ok.injEq, Prod.mk.injEq] at h
    obtain ⟨rfl, rfl⟩ := h
    simp
  | role :: rest, k, t, t1, k1, h => by
    simp only [txInsertAll] at h
    split_ifs at h with hf
    cases hi : t.insertUserRole username role with
    | error e => simp [hi] at h
    | ok t2 =>
      simp only [hi] at h
      obtain ⟨e1, e2, e3⟩ := insertUserRole_ok t t2 username role hi
      obtain ⟨i1, i2, i3, i4⟩ := txInsertAll_insertUserRole username faults rest (k + 1) t2 t1 k1 h
      subst e1
      refine ⟨?_, ?_, ?_, ?_⟩
      · rw [i1]
        simp
      · rw [i2]
        simp only [List.length_cons]
        omega
      · intro r hr
        rcases List.mem_cons.1 hr with rfl | hr
        · exact ⟨e2, e3⟩
        · obtain ⟨j1, j2⟩ := i3 r hr
          exact ⟨fun hm => j1 (List.mem_append_left _ hm), j2⟩
      · refine List.nodup_cons.2 ⟨?_, i4⟩
        intro hmem
        exact (i3 role hmem).1 (List.mem_append_right _ (List.mem_singleton.2 rfl))

theorem txInsertAll_insertUserCustomPermission (username : String) (faults : Nat → Bool) :
    ∀ (perms : List Permission) (k : Nat) (t t1 : Store) (k1 : Nat),
      txInsertAll (fun t perm => t.insertUserCustomPermission username perm) faults perms k t =
        .ok (t1, k1) →
      t1 = { t with
          user_custom_permissions := t.user_custom_permissions ++
            perms.map (fun perm =>
              { username := username, database_name := perm.Database, level := perm.Level }) }
        ∧ k1 = k + perms.length
        ∧ (∀ perm ∈ perms,
            ({ username := username, database_name := perm.Database, level := perm.Level } :
              UserCustomPermissionRow) ∉ t.user_custom_permissions)
        ∧ perms.Nodup
  | [], k, t, t1, k1, h => by
    simp only [txInsertAll, Except.ok.injEq, Prod.mk.injEq] at h
    obtain ⟨rfl, rfl⟩ := h
    simp
  | perm :: rest, k, t, t1, k1, h => by
    simp only [txInsertAll] at h
    split_ifs at h with hf
    cases hi : t.insertUserCustomPermission username perm with
    | error e => simp [hi] at h
    | ok t2 =>
      simp only [hi] at h
      obtain ⟨e1, e2⟩ := insertUserCustomPermission_ok t t2 username perm hi
      obtain ⟨i1, i2, i3, i4⟩ :=
        txInsertAll_insertUserCustomPermission username faults rest (k + 1) t2 t1 k1 h
      subst e1
      refine ⟨?_, ?_, ?_, ?_⟩
      · rw [i1]
        simp
      · rw [i2]
        simp only [List.length_cons]
        omega
      · intro r hr
        rcases List.mem_cons.1 hr with rfl | hr
        · exact e2
        · exact fun hm => i3 r hr (List.mem_append_left _ hm)
      · refine List.nodup_cons.2 ⟨?_, i4⟩
        intro hmem
        exact i3 perm hmem (List.mem_append_right _ (List.mem_singleton.2 rfl))

theorem txInsertAll_insertRolePermission (roleName : String) (faults : Nat → Bool) :
    ∀ (perms : List Permission) (k : Nat) (t t1 : Store) (k1 : Nat),
      txInsertAll (fun t perm => t.insertRolePermission roleName perm) faults perms k t =
        .ok (t1, k1) →
      t1 = { t with
          role_permissions := t.role_permissions ++
            perms.map (fun perm =>
              { role_name := roleName, database_name := perm.Database, level := perm.Level }) }
        ∧ k1 = k + perms.length
        ∧ (∀ perm ∈ perms,
            (∀ r ∈ t.role_permissions, r.role_name = roleName → r.database_name ≠ perm.Database)
              ∧ ∃ d ∈ t.databases, d.Name = perm.Database)
        ∧ (perms.map (fun perm => perm.Database)).Nodup
  | [], k, t, t1, k1, h => by
    simp only [txInsertAll, Except.ok.injEq, Prod.mk.injEq] at h
    obtain ⟨rfl, rfl⟩ := h
    simp
  | perm :: rest, k, t, t1, k1, h => by
    simp only [txInsertAll] at h
    split_ifs at h with hf
    cases hi : t.insertRolePermission roleName perm with
    | error e => simp [hi] at h
    | ok t2 =>
      simp only [hi] at h
      obtain ⟨e1, e2, e3⟩ := insertRolePermission_ok t t2 roleName perm hi
      obtain ⟨i1, i2, i3, i4⟩ :=
        txInsertAll_insertRolePermission roleName faults rest (k + 1) t2 t1 k1 h
      subst e1
      refine ⟨?_, ?_, ?_, ?_⟩
      · rw [i1]
        simp
      · rw [i2]
        simp only [List.length_cons]
        omega
      · intro r hr
        rcases List.mem_cons.1 hr with rfl | hr
        · exact ⟨e2, e3⟩
        · obtain ⟨j1, j2⟩ := i3 r hr
          exact ⟨fun x hx => j1 x (List.mem_append_left _ hx), j2⟩
      · simp only [List.map_cons]
        refine List.nodup_cons.2 ⟨?_, i4⟩
        intro hmem
        obtain ⟨q, hq, hqd⟩ := List.mem_map.1 hmem
        exact (i3 q hq).1 _ (List.mem_append_right _ (List.mem_singleton.2 rfl)) rfl hqd.symm

theorem upsertUser_rest (s : Store) (username passwordHash : String) :
    (s.upsertUser username passwordHash).user_roles = s.user_roles
      ∧ (s.upsertUser username passwordHash).user_custom_permissions = s.user_custom_permissions
      ∧ (s.upsertUser username passwordHash).roles = s.roles
      ∧ (s.upsertUser username passwordHash).role_permissions = s.role_permissions
      ∧ (s.upsertUser username passwordHash).databases = s.databases
      ∧ (s.upsertUser username passwordHash).refresh_tokens = s.refresh_tokens := by
  unfold Store.upsertUser
  split <;> exact ⟨rfl, rfl, rfl, rfl, rfl, rfl⟩

theorem upsertRole_rest (s : Store) (name description : String) :
    (s.upsertRole name description).role_permissions = s.role_permissions
      ∧ (s.upsertRole name description).databases = s.databases
      ∧ (s.upsertRole name description).users = s.users
      ∧ (s.upsertRole name description).user_roles = s.user_roles
      ∧ (s.upsertRole name description).user_custom_permissions = s.user_custom_permissions
      ∧ (s.upsertRole name description).refresh_tokens = s.refresh_tokens := by
  unfold Store.upsertRole
  split <;> exact ⟨rfl, rfl, rfl, rfl, rfl, rfl⟩

theorem saveUserTx_ok (s t : Store) (faults : Nat → Bool) (user : User)
    (h : s.saveUserTx faults user = .ok t) :
    t = { s.upsertUser user.Username user.PasswordHash with
        user_roles :=
          s.user_roles.filter (fun r => r.username != user.Username) ++
            user.Roles.map (fun role => { username := user.Username, role_name := role }),
        user_custom_permissions :=
          s.user_custom_permissions.filter (fun r => r.username != user.Username) ++
            user.CustomPermissions.map (fun perm =>
              { username := user.Username, database_name := perm.Database,
                level := perm.Level }) }
      ∧ user.Roles.Nodup ∧ user.CustomPermissions.Nodup
      ∧ ∀ role ∈ user.Roles, ∃ x ∈ s.roles, x.name = role := by
  obtain ⟨u1, u2, u3, _, _, _⟩ := upsertUser_rest s user.Username user.PasswordHash
  simp only [Store.saveUserTx] at h
  split_ifs at h with f1 f2
  split at h
  · cases h
  · rename_i t3 k hr
    split_ifs at h with f3
    split at h
    · cases h
    · rename_i t5 k2 hc
      split_ifs at h with f4
      simp only [Except.ok.injEq] at h
      subst h
      obtain ⟨i1, _, i3, i4⟩ := txInsertAll_insertUserRole _ faults _ _ _ _ _ hr
      obtain ⟨j1, _, _, j4⟩ := txInsertAll_insertUserCustomPermission _ faults _ _ _ _ _ hc
      refine ⟨?_, i4, j4, ?_⟩
      · rw [j1, i1]
        simp only [u1, u2]
      · intro role hrole
        obtain ⟨x, hx, hxn⟩ := (i3 role hrole).2
        simp only [u3] at hx
        exact ⟨x, hx, hxn⟩

theorem saveRoleTx_ok (s t : Store) (faults : Nat → Bool) (role : Role)
    (h : s.saveRoleTx faults role = .ok t) :
    t = { s.upsertRole role.Name role.Description with
        role_permissions :=
          s.role_permissions.filter (fun r => r.role_name != role.Name) ++
            role.Permissions.map (fun perm =>
              { role_name := role.Name, database_name := perm.Database,
                level := perm.Level }) }
      ∧ (role.Permissions.map (fun perm => perm.Database)).Nodup
      ∧ ∀ perm ∈ role.Permissions, ∃ d ∈ s.databases, d.Name = perm.Database := by
  obtain ⟨u1, u2, _, _, _, _⟩ := upsertRole_rest s role.Name role.Description
  simp only [Store.saveRoleTx] at h
  split_ifs at h with f1 f2
  split at h
  · cases h
  · rename_i t3 k hr
    split_ifs at h with f3
    simp only [Except.ok.injEq] at h
    subst h
    obtain ⟨i1, _, i3, i4⟩ := txInsertAll_insertRolePermission _ faults _ _ _ _ _ hr
    refine ⟨?_, i4, ?_⟩
    · rw [i1]
      simp only [u1]
    · intro perm hperm
      obtain ⟨d, hd, hdn⟩ := (i3 perm hperm).2
      simp only [u2] at hd
      exact ⟨d, hd, hdn⟩

theorem SaveUser_error (s : Store) (faults : Nat → Bool) (user : Option User)
    (h : (s.SaveUser faults user).1 ≠ .ok ()) : (s.SaveUser faults user).2 = s := by
  cases user with
  | none => rfl
  | some user =>
    by_cases hp : user.PasswordHash = ""
    · simp [Store.SaveUser, hp]
    · by_cases f0 : faults 0 = true
      · simp [Store.SaveUser, hp, f0]
      · cases htx : s.saveUserTx faults user with
        | error e => simp [Store.SaveUser, hp, f0, htx]
        | ok t => simp [Store.SaveUser, hp, f0, htx] at h

theorem SaveRole_error (s : Store) (faults : Nat → Bool) (role : Option Role)
    (h : (s.SaveRole faults role).1 ≠ .ok ()) : (s.SaveRole faults role).2 = s := by
  cases role with
  | none => rfl
  | some role =>
    by_cases f0 : faults 0 = true
    · simp [Store.SaveRole, f0]
    · cases htx : s.saveRoleTx faults role with
      | error e => simp [Store.SaveRole, f0, htx]
      | ok t => simp [Store.SaveRole, f0, htx] at h

theorem SaveUser_ok (s : Store) (faults : Nat → Bool) (user : User)
    (h : (s.SaveUser faults (some user)).1 = .ok ()) :
    s.saveUserTx faults user = .ok (s.SaveUser faults (some user)).2 := by
  by_cases hp : user.PasswordHash = ""
  · simp [Store.SaveUser, hp] at h
  · by_cases f0 : faults 0 = true
    · simp [Store.SaveUser, hp, f0] at h
    · cases htx : s.saveUserTx faults user with
      | error e => simp [Store.SaveUser, hp, f0, htx] at h
      | ok t => simp [Store.SaveUser, hp, f0, htx]

theorem SaveRole_ok (s : Store) (faults : Nat → Bool) (role : Role)
    (h : (s.SaveRole faults (some role)).1 = .ok ()) :
    s.saveRoleTx faults role = .ok (s.SaveRole faults (some role)).2 := by
  by_cases f0 : faults 0 = true
  · simp [Store.SaveRole, f0] at h
  · cases htx : s.saveRoleTx faults role with
    | error e => simp [Store.SaveRole, f0, htx] at h
    | ok t => simp [Store.SaveRole, f0, htx]

theorem filter_replace {α β : Type} (p q : α → Bool) (hq : ∀ r, q r = !p r) (l : List α)
    (f : β → α) (xs : List β) (hp : ∀ x, p (f x) = true) :
    (l.filter q ++ xs.map f).filter p = xs.map f
      ∧ (l.filter q ++ xs.map f).filter q = l.filter q := by
  have h1 : (l.filter q).filter p = [] := by
    rw [List.filter_eq_nil_iff]
    intro a ha
    have := (List.mem_filter.1 ha).2
    rw [hq] at this
    simpa using this
  have h2 : (xs.map f).filter p = xs.map f := by
    rw [List.filter_eq_self]
    intro a ha
    obtain ⟨x, _, rfl⟩ := List.mem_map.1 ha
    exact hp x
  have h3 : (xs.map f).filter q = [] := by
    rw [List.filter_eq_nil_iff]
    intro a ha
    obtain ⟨x, _, rfl⟩ := List.mem_map.1 ha
    rw [hq, hp]
    simp
  have h4 : (l.filter q).filter q = l.filter q :=
    List.filter_eq_self.2 (fun a ha => (List.mem_filter.1 ha).2)
  simp only [List.filter_append, h1, h2, h3, h4, List.nil_append, List.append_nil, and_self]

theorem upsertUser_users_any (s : Store) (username passwordHash : String) :
    (s.upsertUser username passwordHash).users.any (fun u => u.username == username) = true := by
  unfold Store.upsertUser
  split
  · rename_i h
    simp only [List.any_eq_true, beq_iff_eq] at h ⊢
    obtain ⟨x, hx, hxu⟩ := h
    refine ⟨_, List.mem_map_of_mem _ hx, ?_⟩
    simp [hxu]
  · simp

theorem upsertRole_roles_any (s : Store) (name description : String) :
    (s.upsertRole name description).roles.any (fun r => r.name == name) = true := by
  unfold Store.upsertRole
  split
  · rename_i h
    simp only [List.any_eq_true, beq_iff_eq] at h ⊢
    obtain ⟨x, hx, hxu⟩ := h
    refine ⟨_, List.mem_map_of_mem _ hx, ?_⟩
    simp [hxu]
  · simp

theorem txInsertAll_insertUserRole_succeeds (username : String) (faults : Nat → Bool) :
    ∀ (roles : List String) (k : Nat) (t : Store),
      (∀ i, i < roles.length → faults (k + i) = false) → roles.Nodup →
      (∀ role ∈ roles, ∀ r ∈ t.user_roles, r.username = username → r.role_name ≠ role) →
      t.users.any (fun u => u.username == username) = true →
      (∀ role ∈ roles, t.roles.any (fun x => x.name == role) = true) →
      ∃ t1, txInsertAll (fun t role => t.insertUserRole username role) faults roles k t =
        .ok (t1, k + roles.length)
  | [], k, t, _, _, _, _, _ => ⟨t, rfl⟩
  | role :: rest, k, t, hf, hnd, hfresh, hu, hr => by
    have f0 : faults k = false := by simpa using hf 0 (by simp)
    have hno : t.user_roles.any (fun r => r.username == username && r.role_name == role) =
        false := by
      rw [Bool.eq_false_iff]
      intro h
      simp only [List.any_eq_true, Bool.and_eq_true, beq_iff_eq] at h
      obtain ⟨r, hr0, h1, h2⟩ := h
      exact hfresh role (List.mem_cons_self _ _) r hr0 h1 h2
    have hrole := hr role (List.mem_cons_self _ _)
    have hins : t.insertUserRole username role =
        .ok { t with
          user_roles := t.user_roles ++ [{ username := username, role_name := role }] } := by
      simp [Store.insertUserRole, hno, hu, hrole]
    obtain ⟨t1, h1⟩ := txInsertAll_insertUserRole_succeeds username faults rest (k + 1)
      { t with user_roles := t.user_roles ++ [{ username := username, role_name := role }] }
      (fun i hi => by
        have := hf (i + 1) (by simp only [List.length_cons]; omega)
        rw [← this]; congr 1; omega)
      (List.nodup_cons.1 hnd).2
      (fun role' hrole' r hr0 h1 h2 => by
        simp only [List.mem_append, List.mem_singleton] at hr0
        rcases hr0 with hr0 | rfl
        · exact hfresh role' (List.mem_cons_of_mem _ hrole') r hr0 h1 h2
        · simp only at h2
          exact (List.nodup_cons.1 hnd).1 (h2 ▸ hrole'))
      hu (fun role' hrole' => hr role' (List.mem_cons_of_mem _ hrole'))
    refine ⟨t1, ?_⟩
    simp only [txInsertAll, f0, Bool.false_eq_true, ↓reduceIte, hins, h1, List.length_cons]
    congr 2
    omega

theorem txInsertAll_insertUserCustomPermission_succeeds (username : String)
    (faults : Nat → Bool) :
    ∀ (perms : List Permission) (k : Nat) (t : Store),
      (∀ i, i < perms.length → faults (k + i) = false) → perms.Nodup →
      (∀ r ∈ t.user_custom_permissions, r.username ≠ username) →
      t.users.any (fun u => u.username == username) = true →
      ∃ t1, txInsertAll (fun t perm => t.insertUserCustomPermission username perm) faults
        perms k t = .ok (t1, k + perms.length)
  | perms, k, t, hf, hnd, hfresh, hu => by
    suffices key : ∀ (perms : List Permission) (k : Nat) (t : Store),
        (∀ i, i < perms.length → faults (k + i) = false) → perms.Nodup →
        (∀ perm ∈ perms, ∀ r ∈ t.user_custom_permissions, r.username = username →
          r.database_name = perm.Database → r.level ≠ perm.Level) →
        t.users.any (fun u => u.username == username) = true →
        ∃ t1, txInsertAll (fun t perm => t.insertUserCustomPermission username perm) faults
          perms k t = .ok (t1, k + perms.length) from
      key perms k t hf hnd (fun _ _ r hr0 h1 _ _ => hfresh r hr0 h1) hu
    intro perms
    induction perms with
    | nil => intro k t _ _ _ _; exact ⟨t, rfl⟩
    | cons perm rest ih =>
      intro k t hf hnd hfresh hu
      have f0 : faults k = false := by simpa using hf 0 (by simp)
      have hno : t.user_custom_permissions.any (fun r =>
          r.username == username && r.database_name == perm.Database
            && r.level == perm.Level) = false := by
        rw [Bool.eq_false_iff]
        intro h
        simp only [List.any_eq_true, Bool.and_eq_true, beq_iff_eq] at h
        obtain ⟨r, hr0, ⟨h1, h2⟩, h3⟩ := h
        exact hfresh perm (List.mem_cons_self _ _) r hr0 h1 h2 h3
      have hins : t.insertUserCustomPermission username perm =
          .ok { t with
            user_custom_permissions := t.user_custom_permissions ++
              [{ username := username, database_name := perm.Database,
                 level := perm.Level }] } := by
        simp [Store.insertUserCustomPermission, hno, hu]
      obtain ⟨t1, h1⟩ := ih (k + 1)
        { t with
          user_custom_permissions := t.user_custom_permissions ++
            [{ username := username, database_name := perm.Database, level := perm.Level }] }
        (fun i hi => by
          have := hf (i + 1) (by simp only [List.length_cons]; omega)
          rw [← this]; congr 1; omega)
        (List.nodup_cons.1 hnd).2
        (fun perm' hperm' r hr0 h1 h2 h3 => by
          simp only [List.mem_append, List.mem_singleton] at hr0
          rcases hr0 with hr0 | rfl
          · exact hfresh perm' (List.mem_cons_of_mem _ hperm') r hr0 h1 h2 h3
          · simp only at h2 h3
            have : perm = perm' := by
              cases perm; cases perm'; simp_all
            exact (List.nodup_cons.1 hnd).1 (this ▸ hperm'))
        hu
      refine ⟨t1, ?_⟩
      simp only [txInsertAll, f0, Bool.false_eq_true, ↓reduceIte, hins, h1, List.length_cons]
      congr 2
      omega

theorem txInsertAll_insertRolePermission_succeeds (roleName : String) (faults : Nat → Bool) :
    ∀ (perms : List Permission) (k : Nat) (t : Store),
      (∀ i, i < perms.length → faults (k + i) = false) →
      (perms.map (fun perm => perm.Database)).Nodup →
      (∀ perm ∈ perms, ∀ r ∈ t.role_permissions, r.role_name = roleName →
        r.database_name ≠ perm.Database) →
      t.roles.any (fun x => x.name == roleName) = true →
      (∀ perm ∈ perms, t.databases.any (fun d => d.Name == perm.Database) = true) →
      ∃ t1, txInsertAll (fun t perm => t.insertRolePermission roleName perm) faults perms k t =
        .ok (t1, k + perms.length)
  | [], k, t, _, _, _, _, _ => ⟨t, rfl⟩
  | perm :: rest, k, t, hf, hnd, hfresh, hr, hd => by
    have f0 : faults k = false := by simpa using hf 0 (by simp)
    have hno : t.role_permissions.any (fun r =>
        r.role_name == roleName && r.database_name == perm.Database) = false := by
      rw [Bool.eq_false_iff]
      intro h
      simp only [List.any_eq_true, Bool.and_eq_true, beq_iff_eq] at h
      obtain ⟨r, hr0, h1, h2⟩ := h
      exact hfresh perm (List.mem_cons_self _ _) r hr0 h1 h2
    have hdb := hd perm (List.mem_cons_self _ _)
    have hins : t.insertRolePermission roleName perm =
        .ok { t with
          role_permissions := t.role_permissions ++
            [{ role_name := roleName, database_name := perm.Database,
               level := perm.Level }] } := by
      simp [Store.insertRolePermission, hno, hr, hdb]
    simp only [List.map_cons, List.nodup_cons] at hnd
    obtain ⟨t1, h1⟩ := txInsertAll_insertRolePermission_succeeds roleName faults rest (k + 1)
      { t with
        role_permissions := t.role_permissions ++
          [{ role_name := roleName, database_name := perm.Database, level := perm.Level }] }
      (fun i hi => by
        have := hf (i + 1) (by simp only [List.length_cons]; omega)
        rw [← this]; congr 1; omega)
      hnd.2
      (fun perm' hperm' r hr0 h1 h2 => by
        simp only [List.mem_append, List.mem_singleton] at hr0
        rcases hr0 with hr0 | rfl
        · exact hfresh perm' (List.mem_cons_of_mem _ hperm') r hr0 h1 h2
        · simp only at h2
          exact hnd.1 (List.mem_map.2 ⟨perm', hperm', h2.symm⟩))
      hr (fun perm' hperm' => hd perm' (List.mem_cons_of_mem _ hperm'))
    refine ⟨t1, ?_⟩
    simp only [txInsertAll, f0, Bool.false_eq_true, ↓reduceIte, hins, h1, List.length_cons]
    congr 2
    omega

/-- When no statement is failed and the argument respects the constraints of the
schema, `SaveUser` succeeds. -/
theorem SaveUser_succeeds (s : Store) (faults : Nat → Bool) (user : User)
    (hp : user.PasswordHash ≠ "")
    (hf : ∀ i, i ≤ user.Roles.length + user.CustomPermissions.length + 4 → faults i = false)
    (hnd : user.Roles.Nodup) (hroles : ∀ role ∈ user.Roles, ∃ x ∈ s.roles, x.name = role)
    (hcd : user.CustomPermissions.Nodup) :
    (s.SaveUser faults (some user)).1 = .ok () := by
  obtain ⟨u1, u2, u3, _, _, _⟩ := upsertUser_rest s user.Username user.PasswordHash
  have hany := upsertUser_users_any s user.Username user.PasswordHash
  obtain ⟨t3, h3⟩ := txInsertAll_insertUserRole_succeeds user.Username faults user.Roles 3
    { s.upsertUser user.Username user.PasswordHash with
      user_roles := (s.upsertUser user.Username user.PasswordHash).user_roles.filter
        (fun r => r.username != user.Username) }
    (fun i hi => hf _ (by omega)) hnd
    (fun role _ r hr h1 _ => by
      simp only [List.mem_filter, bne_iff_ne, ne_eq] at hr
      exact hr.2 h1)
    hany
    (fun role hrole => by
      obtain ⟨x, hx, hxn⟩ := hroles role hrole
      simp only [u3, List.any_eq_true, beq_iff_eq]
      exact ⟨x, hx, hxn⟩)
  obtain ⟨e3, _, _, _⟩ := txInsertAll_insertUserRole _ faults _ _ _ _ _ h3
  obtain ⟨t5, h5⟩ := txInsertAll_insertUserCustomPermission_succeeds user.Username faults
    user.CustomPermissions (3 + user.Roles.length + 1)
    { t3 with
      user_custom_permissions := t3.user_custom_permissions.filter
        (fun r => r.username != user.Username) }
    (fun i hi => hf _ (by omega)) hcd
    (fun r hr => by
      simp only [List.mem_filter, bne_iff_ne, ne_eq] at hr
      exact hr.2)
    (by rw [e3]; exact hany)
  have f0 := hf 0 (by omega)
  have f1 := hf 1 (by omega)
  have f2 := hf 2 (by omega)
  have f3 := hf (3 + user.Roles.length) (by omega)
  have f4 := hf (3 + user.Roles.length + 1 + user.CustomPermissions.length) (by omega)
  simp [Store.SaveUser, hp, f0, Store.saveUserTx, f1, f2, h3, f3, h5, f4]

/-- When no statement is failed and the argument respects the constraints of the
schema, `SaveRole` succeeds. -/
theorem SaveRole_succeeds (s : Store) (faults : Nat → Bool) (role : Role)
    (hf : ∀ i, i ≤ role.Permissions.length + 3 → faults i = false)
    (hnd : (role.Permissions.map (fun perm => perm.Database)).Nodup)
    (hdbs : ∀ perm ∈ role.Permissions, ∃ d ∈ s.databases, d.Name = perm.Database) :
    (s.SaveRole faults (some role)).1 = .ok () := by
  obtain ⟨u1, u2, _, _, _, _⟩ := upsertRole_rest s role.Name role.Description
  have hany := upsertRole_roles_any s role.Name role.Description
  obtain ⟨t3, h3⟩ := txInsertAll_insertRolePermission_succeeds role.Name faults
    role.Permissions 3
    { s.upsertRole role.Name role.Description with
      role_permissions := (s.upsertRole role.Name role.Description).role_permissions.filter
        (fun r => r.role_name != role.Name) }
    (fun i hi => hf _ (by omega)) hnd
    (fun perm _ r hr h1 _ => by
      simp only [List.mem_filter, bne_iff_ne, ne_eq] at hr
      exact hr.2 h1)
    hany
    (fun perm hperm => by
      obtain ⟨d, hd, hdn⟩ := hdbs perm hperm
      simp only [u2, List.any_eq_true, beq_iff_eq]
      exact ⟨d, hd, hdn⟩)
  have f0 := hf 0 (by omega)
  have f1 := hf 1 (by omega)
  have f2 := hf 2 (by omega)
  have f3 := hf (3 + role.Permissions.length) (by omega)
  simp [Store.SaveRole, f0, Store.saveRoleTx, f1, f2, h3, f3]

/-! ## Claim C27 -/

/-- C27: `SaveUser` and `SaveRole` are all-or-nothing. When `SaveUser` does not return
success the store is exactly as before the call. It returns success when no statement is
failed by the engine and the argument has a password hash, roles that exist and are
named once each, and no custom permission twice. When it returns success the rows of
the user in `user_roles` and `user_custom_permissions` are those of the argument and
nothing else, the rows of the other users and the other tables but `users` are as before,
and `getUserRoles` and `getUserCustomPermissions` return the argument's roles and custom
permissions, each in the order of its query. A role name twice in `user.Roles`, or a
custom permission twice, makes the call fail. The same holds for `SaveRole` and the
role's rows of `role_permissions`, and two permissions for the same database in one role
make it fail. -/
theorem C27_save_is_atomic (s : Store) (faults : Nat → Bool) :
    (∀ user, (s.SaveUser faults user).1 ≠ .ok () → (s.SaveUser faults user).2 = s)
      ∧ (∀ user, user.PasswordHash ≠ "" →
          (∀ i, i ≤ user.Roles.length + user.CustomPermissions.length + 4 →
            faults i = false) →
          user.Roles.Nodup → (∀ role ∈ user.Roles, ∃ x ∈ s.roles, x.name = role) →
          user.CustomPermissions.Nodup →
          (s.SaveUser faults (some user)).1 = .ok ())
      ∧ (∀ user, (s.SaveUser faults (some user)).1 = .ok () →
          (s.SaveUser faults (some user)).2.user_roles.filter
              (fun r => r.username == user.Username) =
            user.Roles.map (fun role => { username := user.Username, role_name := role })
          ∧ (s.SaveUser faults (some user)).2.user_roles.filter
              (fun r => r.username != user.Username) =
            s.user_roles.filter (fun r => r.username != user.Username)
          ∧ (s.SaveUser faults (some user)).2.user_custom_permissions.filter
              (fun r => r.username == user.Username) =
            user.CustomPermissions.map (fun perm =>
              { username := user.Username, database_name := perm.Database,
                level := perm.Level })
          ∧ (s.SaveUser faults (some user)).2.user_custom_permissions.filter
              (fun r => r.username != user.Username) =
            s.user_custom_permissions.filter (fun r => r.username != user.Username)
          ∧ (s.SaveUser faults (some user)).2.getUserRoles user.Username =
              .ok (user.Roles.insertionSort (fun a b => a ≤ b))
          ∧ (s.SaveUser faults (some user)).2.getUserCustomPermissions user.Username =
              .ok (user.CustomPermissions.insertionSort
                (fun a b => customPermissionLE a b = true))
          ∧ (∃ perms, (s.SaveUser faults (some user)).2.getUserCustomPermissions
              user.Username = .ok perms ∧ perms.Perm user.CustomPermissions)
          ∧ (s.SaveUser faults (some user)).2.users =
              (s.upsertUser user.Username user.PasswordHash).users
          ∧ (s.SaveUser faults (some user)).2.roles = s.roles
          ∧ (s.SaveUser faults (some user)).2.role_permissions = s.role_permissions
          ∧ (s.SaveUser faults (some user)).2.databases = s.databases
          ∧ (s.SaveUser faults (some user)).2.refresh_tokens = s.refresh_tokens)
      ∧ (∀ user, ¬ user.Roles.Nodup ∨ ¬ user.CustomPermissions.Nodup →
          (s.SaveUser faults (some user)).1 ≠ .ok () ∧ (s.SaveUser faults (some user)).2 = s)
      ∧ (∀ role, (s.SaveRole faults role).1 ≠ .ok () → (s.SaveRole faults role).2 = s)
      ∧ (∀ role, (∀ i, i ≤ role.Permissions.length + 3 → faults i = false) →
          (role.Permissions.map (fun perm => perm.Database)).Nodup →
          (∀ perm ∈ role.Permissions, ∃ d ∈ s.databases, d.Name = perm.Database) →
          (s.SaveRole faults (some role)).1 = .ok ())
      ∧ (∀ role, (s.SaveRole faults (some role)).1 = .ok () →
          (s.SaveRole faults (some role)).2.role_permissions.filter
              (fun r => r.role_name == role.Name) =
            role.Permissions.map (fun perm =>
              { role_name := role.Name, database_name := perm.Database, level := perm.Level })
          ∧ (s.SaveRole faults (some role)).2.role_permissions.filter
              (fun r => r.role_name != role.Name) =
            s.role_permissions.filter (fun r => r.role_name != role.Name)
          ∧ (s.SaveRole faults (some role)).2.roles =
              (s.upsertRole role.Name role.Description).roles
          ∧ (s.SaveRole faults (some role)).2.databases = s.databases
          ∧ (s.SaveRole faults (some role)).2.users = s.users
          ∧ (s.SaveRole faults (some role)).2.user_roles = s.user_roles
          ∧ (s.SaveRole faults (some role)).2.user_custom_permissions =
              s.user_custom_permissions
          ∧ (s.SaveRole faults (some role)).2.refresh_tokens = s.refresh_tokens)
      ∧ (∀ role, ¬ (role.Permissions.map (fun perm => perm.Database)).Nodup →
          (s.SaveRole faults (some role)).1 ≠ .ok () ∧ (s.SaveRole faults (some role)).2 = s) := by
  refine ⟨SaveUser_error s faults, SaveUser_succeeds s faults, ?_, ?_, SaveRole_error s faults,
    SaveRole_succeeds s faults, ?_, ?_⟩
  · intro user hok
    obtain ⟨u1, u2, u3, u4, u5, u6⟩ := upsertUser_rest s user.Username user.PasswordHash
    obtain ⟨ht, _, _, _⟩ := saveUserTx_ok s _ faults user (SaveUser_ok s faults user hok)
    have hr := filter_replace (fun r : UserRoleRow => r.username == user.Username)
      (fun r => r.username != user.Username) (fun _ => rfl) s.user_roles
      (fun role => { username := user.Username, role_name := role }) user.Roles
      (fun _ => by simp)
    have hc := filter_replace (fun r : UserCustomPermissionRow => r.username == user.Username)
      (fun r => r.username != user.Username) (fun _ => rfl) s.user_custom_permissions
      (fun perm : Permission =>
        { username := user.Username, database_name := perm.Database, level := perm.Level })
      user.CustomPermissions (fun _ => by simp)
    rw [ht]
    have hcust : Store.getUserCustomPermissions
        { s.upsertUser user.Username user.PasswordHash with
          user_roles :=
            s.user_roles.filter (fun r => r.username != user.Username) ++
              user.Roles.map (fun role => { username := user.Username, role_name := role }),
          user_custom_permissions :=
            s.user_custom_permissions.filter (fun r => r.username != user.Username) ++
              user.CustomPermissions.map (fun perm =>
                { username := user.Username, database_name := perm.Database,
                  level := perm.Level }) } user.Username =
        .ok (user.CustomPermissions.insertionSort
          (fun a b => customPermissionLE a b = true)) := by
      simp only [Store.getUserCustomPermissions, hc.1, List.map_map]
      congr 2
      exact List.map_id _
    refine ⟨hr.1, hr.2, hc.1, hc.2, ?_, hcust, ⟨_, hcust, List.perm_insertionSort _ _⟩, rfl,
      u3, u4, u5, u6⟩
    simp only [Store.getUserRoles, hr.1, List.map_map]
    congr 2
    exact List.map_id _
  · intro user hdup
    have hne : (s.SaveUser faults (some user)).1 ≠ .ok () := by
      intro hok
      obtain ⟨_, n1, n2, _⟩ := saveUserTx_ok s _ faults user (SaveUser_ok s faults user hok)
      rcases hdup with hd | hd
      · exact hd n1
      · exact hd n2
    exact ⟨hne, SaveUser_error s faults _ hne⟩
  · intro role hok
    obtain ⟨u1, u2, u3, u4, u5, u6⟩ := upsertRole_rest s role.Name role.Description
    obtain ⟨ht, _, _⟩ := saveRoleTx_ok s _ faults role (SaveRole_ok s faults role hok)
    have hr := filter_replace (fun r : RolePermissionRow => r.role_name == role.Name)
      (fun r => r.role_name != role.Name) (fun _ => rfl) s.role_permissions
      (fun perm : Permission =>
        { role_name := role.Name, database_name := perm.Database, level := perm.Level })
      role.Permissions (fun _ => by simp)
    rw [ht]
    exact ⟨hr.1, hr.2, rfl, u2, u3, u4, u5, u6⟩
  · intro role hdup
    have hne : (s.SaveRole faults (some role)).1 ≠ .ok () := by
      intro hok
      exact hdup (saveRoleTx_ok s _ faults role (SaveRole_ok s faults role hok)).2.1
    exact ⟨hne, SaveRole_error s faults _ hne⟩

/-- A save that succeeds: on `danglingStore`, with no statement failed by the engine,
`SaveUser` of `aliceUser` returns success, and her custom permissions read back are the
two of the argument, `ghostdb` before `salesdb`; `SaveRole` of `twiceRole`, which names
`salesdb` twice, fails and leaves the store as it was. -/
theorem C27_save_is_atomic_witness :
    (danglingStore.SaveUser noFaults (some aliceUser)).1 = .ok ()
      ∧ (danglingStore.SaveUser noFaults (some aliceUser)).2.getUserCustomPermissions
          aliceUser.Username =
        .ok [{ Database := "ghostdb", Level := "read" },
             { Database := "salesdb", Level := "write" }]
      ∧ (danglingStore.SaveUser noFaults (some aliceUser)).2.getUserRoles aliceUser.Username =
          .ok ["reader"]
      ∧ (danglingStore.SaveRole noFaults (some twiceRole)).1 ≠ .ok ()
      ∧ (danglingStore.SaveRole noFaults (some twiceRole)).2 = danglingStore :=
  ⟨(C27_save_is_atomic danglingStore noFaults).2.1 aliceUser (by decide) (fun _ _ => rfl)
      (by decide) (by decide) (by decide),
    (((C27_save_is_atomic danglingStore noFaults).2.2.1 aliceUser rfl).2.2.2.2.2.1).trans
      (congrArg Except.ok (by decide)),
    (((C27_save_is_atomic danglingStore noFaults).2.2.1 aliceUser rfl).2.2.2.2.1).trans
      (congrArg Except.ok (by decide)),
    ((C27_save_is_atomic danglingStore noFaults).2.2.2.2.2.2.2 twiceRole (by decide)).1,
    ((C27_save_is_atomic danglingStore noFaults).2.2.2.2.2.2.2 twiceRole (by decide)).2⟩

/-! ## Claim C28 -/

/-- C28 (the code at the failing input): `alice@ex.com` may access `salesdb` and `hrdb`.
Her connect to `salesdb` under the token `tok` registers a session on port 50000. Her next
connect under the same token, for `hrdb`, is answered 200 with `database_name = hrdb`
and the port and temp credentials of that session, whose `DatabaseName` is `salesdb` and
whose account is on the backend of `salesdb`; the registry and the world are untouched, so
nothing was provisioned for `hrdb`. -/
theorem C28_response_names_other_database :
    CanAccess lateStore aliceClaims "salesdb" = true
      ∧ CanAccess lateStore aliceClaims "hrdb" = true
      ∧ lateConnected.1.status = 200
      ∧ mapGet lateConnected.2.1.sessions "tok" = some aliceSession
      ∧ (handleConnect lateConnected.2.1 lateConnected.2.2 aliceClaims "tok"
          (some { DatabaseName := "hrdb" })).1 =
        .json { Port := aliceSession.Port, DatabaseName := "hrdb",
                Message := "Proxy started successfully",
                TempUsername := aliceSession.TempCredentials.Username,
                TempPassword := aliceSession.TempCredentials.Password }
      ∧ aliceSession.DatabaseName = "salesdb"
      ∧ aliceSession.DatabaseName ≠ "hrdb"
      ∧ aliceSession.DBManager.database.BackendAddr ≠ hrdb.BackendAddr
      ∧ (handleConnect lateConnected.2.1 lateConnected.2.2 aliceClaims "tok"
          (some { DatabaseName := "hrdb" })).2.1 = lateConnected.2.1
      ∧ (handleConnect lateConnected.2.1 lateConnected.2.2 aliceClaims "tok"
          (some { DatabaseName := "hrdb" })).2.2.trace = lateConnected.2.2.trace
      ∧ ((handleConnect lateConnected.2.1 lateConnected.2.2 aliceClaims "tok"
          (some { DatabaseName := "hrdb" })).2.2.backends hrdb.BackendAddr).logins = [] := by
  refine ⟨by decide, by decide, by decide, by decide, rfl, rfl, by decide, by decide,
    by decide, by decide, by decide⟩

/-! ## The session manager and the policy engine -/

end ZGate
